import Mathlib

/-!
Verification development for the Curve Gauge Yield Trader runtime
(`scripts/agent.py`): a shallow embedding of the agent's planning and
execution pipeline, together with theorems about its safety gate, nonce
assignment, transaction building, gas estimation, gauge filtering and RPC
discovery.

Modelling conventions:
* JSON / Python values are modelled by the inductive `JVal`.  Python's
  arbitrary-precision integers are `Int`; Python floats are modelled as
  exact rationals (`PyFloat`, an integer numerator over a positive natural
  denominator, kept unnormalised so that all operations compute by kernel
  reduction).  IEEE-754 rounding is not modelled; no claim below depends
  on it.
* Network and library effects are an explicit oracle (`Env`): the HTTP
  transport behind `SerenPublisherClient._request` (URL construction,
  bearer headers and the 30s timeout are folded into the oracle), the
  `eth_account` signer, and the keccak/ABI encoder of
  `_encode_function_call`.  Each embedded effectful function returns a
  `Run α`: an `Except` result paired with the ordered trace of observable
  events (gateway requests, JSON-RPC calls issued through `_rpc_call`,
  and signing operations).
* The local file system is abstracted to the wallet-file content
  (`Env.walletFile`); `os.environ` to `Env.apiKey`.
* Python `str.lower`/`str.strip` are modelled for ASCII (`pyLower`,
  `pyStrip`); `repr` of composite values (only ever used where it cannot
  match an address pattern or a chain name) is a placeholder.
-/

namespace CurveAgent

/-- Python float modelled as an exact rational: `num / den` with `den`
positive by construction.  Kept unnormalised so every operation reduces in
the kernel. -/
structure PyFloat where
  num : Int
  den : Nat
deriving Repr, DecidableEq

/-- The float 0.0. -/
def pf0 : PyFloat := ⟨0, 1⟩

/-- Embed a Python int into a float (`float(n)`). -/
def pfOfInt (n : Int) : PyFloat := ⟨n, 1⟩

/-- Value-level less-or-equal on floats (`a <= b`): cross multiplication,
valid because denominators are positive by construction. -/
def pfLe (a b : PyFloat) : Bool := a.num * (b.den : Int) ≤ b.num * (a.den : Int)

/-- Value-level strict less-than on floats (`a < b`). -/
def pfLt (a b : PyFloat) : Bool := a.num * (b.den : Int) < b.num * (a.den : Int)

/-- Value-level equality on floats (`a == b`). -/
def pfEq (a b : PyFloat) : Bool := a.num * (b.den : Int) == b.num * (a.den : Int)

/-- Float multiplication. -/
def pfMul (a b : PyFloat) : PyFloat := ⟨a.num * b.num, a.den * b.den⟩

/-- Float division `a / b` (callers guard `b ≠ 0`); keeps the denominator
positive by moving the divisor's sign into the numerator. -/
def pfDiv (a b : PyFloat) : PyFloat :=
  if b.num < 0 then ⟨-(a.num * (b.den : Int)), a.den * b.num.natAbs⟩
  else ⟨a.num * (b.den : Int), a.den * b.num.natAbs⟩

/-- `math.ceil` on a float: least integer at least the value. -/
def pfCeil (q : PyFloat) : Int := -(Int.fdiv (-q.num) (q.den : Int))

/-- `int(q)`: truncation toward zero. -/
def pfTrunc (q : PyFloat) : Int :=
  if q.num < 0 then -(Int.fdiv (-q.num) (q.den : Int)) else Int.fdiv q.num (q.den : Int)

/-- `0 < q` on floats. -/
def pfPos (q : PyFloat) : Bool := pfLt pf0 q

/-- JSON / Python values as the agent sees them (`json.loads` output):
`jint` for Python ints, `jnum` for floats, objects as ordered key/value
lists (keys produced by `json.loads` are unique; lookup takes the first
match). -/
inductive JVal where
  | null
  | jbool (b : Bool)
  | jint (n : Int)
  | jnum (q : PyFloat)
  | jstr (s : String)
  | jarr (xs : List JVal)
  | jobj (kvs : List (String × JVal))
deriving Repr

/-- Association-list lookup for object fields (`d[k]` / `d.get(k)`). -/
def jlookup (kvs : List (String × JVal)) (k : String) : Option JVal :=
  match kvs with
  | [] => none
  | (k', v) :: rest => if k' = k then some v else jlookup rest k

/-- `payload.get(k)`: `none` when `payload` is not an object or lacks `k`. -/
def JVal.get (v : JVal) (k : String) : Option JVal :=
  match v with
  | .jobj kvs => jlookup kvs k
  | _ => none

/-- `payload.get(k, default)`. -/
def JVal.getD (v : JVal) (k : String) (d : JVal) : JVal := (v.get k).getD d

/-- `k in payload` for an object (key presence, regardless of value). -/
def JVal.hasKey (v : JVal) (k : String) : Bool :=
  match v with
  | .jobj kvs => kvs.any (fun kv => kv.1 = k)
  | _ => false

/-- `v is None`. -/
def JVal.isNull (v : JVal) : Bool := match v with | .null => true | _ => false

/-- `isinstance(v, dict)`. -/
def JVal.isObj (v : JVal) : Bool := match v with | .jobj _ => true | _ => false

/-- `isinstance(v, list)`. -/
def JVal.isArr (v : JVal) : Bool := match v with | .jarr _ => true | _ => false

/-- `isinstance(v, str)`. -/
def JVal.isStr (v : JVal) : Bool := match v with | .jstr _ => true | _ => false

/-- `d[k] = v` on a Python dict: replace in place, else append. -/
def jset (kvs : List (String × JVal)) (k : String) (v : JVal) : List (String × JVal) :=
  match kvs with
  | [] => [(k, v)]
  | (k', v') :: rest => if k' = k then (k', v) :: rest else (k', v') :: jset rest k v

/-- `d[k] = v` at the `JVal` level (no-op on non-objects, which never
occurs: the code only assigns into values it has checked to be dicts). -/
def JVal.set (x : JVal) (k : String) (v : JVal) : JVal :=
  match x with
  | .jobj kvs => .jobj (jset kvs k v)
  | _ => x

/-- Python truthiness `bool(v)` of a JSON value. -/
def pyTruthy (v : JVal) : Bool :=
  match v with
  | .null => false
  | .jbool b => b
  | .jint n => n ≠ 0
  | .jnum q => !(pfEq q pf0)
  | .jstr s => s ≠ ""
  | .jarr xs => !xs.isEmpty
  | .jobj kvs => !kvs.isEmpty

/-! String helpers: ASCII models of the `str` methods the agent uses. -/

/-- ASCII `str.lower` on one character. -/
def lowerChar (c : Char) : Char :=
  if 'A' ≤ c ∧ c ≤ 'Z' then Char.ofNat (c.toNat + 32) else c

/-- ASCII `str.lower`. -/
def pyLower (s : String) : String := ⟨s.data.map lowerChar⟩

/-- Whitespace for `str.strip` (ASCII). -/
def isSpaceChar (c : Char) : Bool := c = ' ' ∨ c = '\t' ∨ c = '\n' ∨ c = '\r'

/-- `str.strip()`: drop leading and trailing whitespace. -/
def pyStrip (s : String) : String :=
  ⟨((s.data.dropWhile isSpaceChar).reverse.dropWhile isSpaceChar).reverse⟩

/-- `s.startswith(pre)`. -/
def pyStartsWith (s pre : String) : Bool := pre.data.isPrefixOf s.data

/-- `s.endswith(suf)`. -/
def pyEndsWith (s suf : String) : Bool := suf.data.reverse.isPrefixOf s.data.reverse

/-- `needle in hay` (substring containment). -/
def strContains (hay needle : String) : Bool :=
  (hay.data.tails).any (fun t => needle.data.isPrefixOf t)

/-- Python string `<` (lexicographic by code point). -/
def strLtChars (a b : List Char) : Bool :=
  match a, b with
  | [], [] => false
  | [], _ :: _ => true
  | _ :: _, [] => false
  | x :: xs, y :: ys => if x.toNat = y.toNat then strLtChars xs ys else x.toNat < y.toNat

/-- Python string `<` on `String`. -/
def pyStrLt (a b : String) : Bool := strLtChars a.data b.data

/-- Python string `<=`. -/
def pyStrLe (a b : String) : Bool := a = b || pyStrLt a b

/-- A hexadecimal digit (the regex character class `[a-fA-F0-9]`). -/
def isHexDigitChar (c : Char) : Bool :=
  ('0' ≤ c ∧ c ≤ '9') ∨ ('a' ≤ c ∧ c ≤ 'f') ∨ ('A' ≤ c ∧ c ≤ 'F')

/-- `HEX_ADDRESS_RE`: `^0x[a-fA-F0-9]{40}$`. -/
def hexAddressB (s : String) : Bool :=
  pyStartsWith s "0x" ∧ s.data.length = 42 ∧ (s.data.drop 2).all isHexDigitChar

/-- `HEX_BYTES_RE`: `^0x[a-fA-F0-9]*$`. -/
def hexBytesB (s : String) : Bool :=
  pyStartsWith s "0x" ∧ (s.data.drop 2).all isHexDigitChar

/-- Lower-case alphanumeric (kept by `_tokenize` after lowering). -/
def isTokenChar (c : Char) : Bool := ('a' ≤ c ∧ c ≤ 'z') ∨ ('0' ≤ c ∧ c ≤ '9')

/-- Split a character list at separators (`re.split` on `[^a-z0-9]+`,
empty pieces included; `_tokenize` filters them out). -/
def splitTokens (l : List Char) : List (List Char) :=
  match l with
  | [] => [[]]
  | c :: rest =>
    let r := splitTokens rest
    if isTokenChar c then
      match r with
      | [] => [[c]]
      | t :: ts => (c :: t) :: ts
    else [] :: r

/-- `_tokenize(value)`: the set (as a deduplicated-enough list; only
membership is ever used) of non-empty lower-alphanumeric tokens of the
lowercased string. -/
def pyTokenize (value : String) : List String :=
  ((splitTokens (pyLower value).data).filter (fun t => !t.isEmpty)).map (fun t => ⟨t⟩)

/-- Membership in a token set (`tok in tokens`). -/
def tokMem (tok : String) (toks : List String) : Bool := toks.any (fun t => t = tok)

/-! Numeric parsing helpers. -/

/-- Decimal digit value. -/
def digitVal (c : Char) : Nat := c.toNat - '0'.toNat

/-- Hexadecimal digit value (for `int(text, 16)`). -/
def hexVal (c : Char) : Nat :=
  if '0' ≤ c ∧ c ≤ '9' then c.toNat - '0'.toNat
  else if 'a' ≤ c ∧ c ≤ 'f' then c.toNat - 'a'.toNat + 10
  else c.toNat - 'A'.toNat + 10

/-- Accumulate digits of a literal in the given base. -/
def digitsToNat (base : Nat) (f : Char → Nat) (l : List Char) : Nat :=
  l.foldl (fun acc c => acc * base + f c) 0

/-- `int(text)` on an already-stripped string: optional sign then decimal
digits (Python's underscore separators and exotic forms are out of scope). -/
def pyParseDecInt (s : String) : Option Int :=
  match s.data with
  | [] => none
  | '-' :: rest =>
    if rest ≠ [] ∧ rest.all (fun c => '0' ≤ c ∧ c ≤ '9')
    then some (-(digitsToNat 10 digitVal rest : Int)) else none
  | '+' :: rest =>
    if rest ≠ [] ∧ rest.all (fun c => '0' ≤ c ∧ c ≤ '9')
    then some (digitsToNat 10 digitVal rest : Int) else none
  | l =>
    if l.all (fun c => '0' ≤ c ∧ c ≤ '9')
    then some (digitsToNat 10 digitVal l : Int) else none

/-- `int(text, 16)` on a `0x`/`0X`-prefixed stripped string. -/
def pyParseHexInt (s : String) : Option Int :=
  let rest := s.data.drop 2
  if rest ≠ [] ∧ rest.all isHexDigitChar
  then some (digitsToNat 16 hexVal rest : Int) else none

/-- The int-parsing shared by `_parse_rpc_int` / `_parse_positive_int` /
`_parse_nonnegative_int` on a stripped string: hex when the text starts
with `0x`/`0X`, else decimal. -/
def pyParseIntText (text : String) : Option Int :=
  if pyStartsWith text "0x" ∨ pyStartsWith text "0X"
  then pyParseHexInt text
  else pyParseDecInt text

/-- All decimal digits. -/
def allDigits (l : List Char) : Bool := l.all (fun c => '0' ≤ c ∧ c ≤ '9')

/-- A signed decimal-digit run (exponent of a float literal). -/
def parseSignedDigits (l : List Char) : Option Int :=
  match l with
  | '-' :: d => if d ≠ [] ∧ allDigits d then some (-(digitsToNat 10 digitVal d : Int)) else none
  | '+' :: d => if d ≠ [] ∧ allDigits d then some ((digitsToNat 10 digitVal d : Int)) else none
  | d => if d ≠ [] ∧ allDigits d then some ((digitsToNat 10 digitVal d : Int)) else none

/-- An unsigned mantissa `digits[.digits]` (at least one digit overall),
as numerator and power-of-ten denominator. -/
def parseMantissa (l : List Char) : Option (Int × Nat) :=
  match l.splitOnP (fun c => c = '.') with
  | [i] =>
    if i ≠ [] ∧ allDigits i then some ((digitsToNat 10 digitVal i : Nat), 1) else none
  | [i, f] =>
    if (i ++ f) ≠ [] ∧ allDigits i ∧ allDigits f
    then some ((digitsToNat 10 digitVal (i ++ f) : Nat), 10 ^ f.length) else none
  | _ => none

/-- `float(text)` on a stripped string: optional sign, mantissa, optional
`e`/`E` exponent (`inf`/`nan`/underscores are out of scope; no claim
involves them). -/
def pyParseFloatText (s : String) : Option PyFloat :=
  let core : List Char → Option PyFloat := fun l =>
    let pieces := l.splitOnP (fun c => c = 'e' ∨ c = 'E')
    let parts : Option ((Int × Nat) × Int) :=
      match pieces with
      | [m] => (parseMantissa m).map (fun mn => (mn, 0))
      | [m, e] =>
        match parseMantissa m, parseSignedDigits e with
        | some mn, some ex => some (mn, ex)
        | _, _ => none
      | _ => none
    match parts with
    | none => none
    | some ((mantNum, mantDen), ex) =>
      if 0 ≤ ex then some ⟨mantNum * ((10 ^ ex.toNat : Nat) : Int), mantDen⟩
      else some ⟨mantNum, mantDen * 10 ^ (-ex).toNat⟩
  match s.data with
  | '-' :: rest => (core rest).map (fun q => ⟨-q.num, q.den⟩)
  | '+' :: rest => core rest
  | l => core l

/-! Python `str()` and JSON serialisation (used only inside error
messages; the `repr` of composite values is a placeholder — it can never
match an address pattern or a chain name, which is all the code ever does
with such a string). -/

/-- Rendering of a float inside a message (model placeholder for Python's
float repr; never observable by any claim). -/
def pyFloatRepr (q : PyFloat) : String := toString q.num ++ "/" ++ toString q.den

/-- Python `str(v)` of a JSON value. -/
def pyStr (v : JVal) : String :=
  match v with
  | .null => "None"
  | .jbool b => if b then "True" else "False"
  | .jint n => toString n
  | .jnum q => pyFloatRepr q
  | .jstr s => s
  | .jarr _ => "[...]"
  | .jobj _ => "\x7b...\x7d"

mutual

/-- `json.dumps` (string escaping elided; used only in `_preview` text). -/
def jsonDumps : JVal → String
  | .null => "null"
  | .jbool b => if b then "true" else "false"
  | .jint n => toString n
  | .jnum q => pyFloatRepr q
  | .jstr s => "\"" ++ s ++ "\""
  | .jarr xs => "[" ++ jsonDumpsList xs ++ "]"
  | .jobj kvs => "\x7b" ++ jsonDumpsKVs kvs ++ "\x7d"

/-- Comma-joined array elements. -/
def jsonDumpsList : List JVal → String
  | [] => ""
  | [x] => jsonDumps x
  | x :: xs => jsonDumps x ++ ", " ++ jsonDumpsList xs

/-- Comma-joined object fields. -/
def jsonDumpsKVs : List (String × JVal) → String
  | [] => ""
  | [(k, v)] => "\"" ++ k ++ "\": " ++ jsonDumps v
  | (k, v) :: kvs => "\"" ++ k ++ "\": " ++ jsonDumps v ++ ", " ++ jsonDumpsKVs kvs

end

/-- `_preview(value)`: first 220 characters of the rendering. -/
def pyPreview (value : JVal) : String :=
  match value with
  | .jstr s => ⟨s.data.take 220⟩
  | v => ⟨(jsonDumps v).data.take 220⟩

/-! The agent's error taxonomy and observable effects. -/

/-- `ConfigError` / `PublisherError`, plus `pyError` for an uncaught
Python exception (e.g. `float()` / `int()` on an unconvertible value):
`pyError` is caught nowhere, exactly like the uncaught exception. -/
inductive Err where
  | configError (msg : String)
  | publisherError (msg : String)
  | pyError (msg : String)
deriving Repr, DecidableEq

/-- Observable effects of a run, in order:
* `req`: an HTTP request issued by `SerenPublisherClient._request`
  (method, normalised path, body);
* `rpc`: a JSON-RPC call issued through `_rpc_call` (its HTTP transport
  is implied and not recorded a second time);
* `sign`: `Account.sign_transaction` over an unsigned transaction. -/
inductive Event where
  | req (method path : String) (body : JVal)
  | rpc (methodName : String) (params : List JVal)
  | sign (tx : JVal)
deriving Repr

/-- The oracle for everything outside the agent process:
* `respond`: the gateway's reply to `_request` (an `Except`: a transport /
  HTTP / JSON-decode failure message, or the parsed JSON payload);
* `signTx`: the raw-transaction hex produced by `eth_account` for an
  unsigned transaction and a private key;
* `encodeCall`: the keccak-selector + ABI encoding of
  `_encode_function_call` (signature, argument types, arguments);
* `walletFile`: the parsed content of the local wallet file, `none` when
  the file does not exist;
* `apiKey`: `os.environ["SEREN_API_KEY"]` (empty when unset). -/
structure Env where
  respond : String → String → JVal → Except String JVal
  signTx : JVal → String → String
  encodeCall : String → List String → List JVal → String
  walletFile : Option JVal
  apiKey : String

/-- One run of an effectful computation: its result and the trace of
events it emitted (the trace is kept also when the result is an error). -/
structure Run (α : Type) where
  res : Except Err α
  trace : List Event

/-- Successful result, no events. -/
def Run.pure (a : α) : Run α := ⟨.ok a, []⟩

/-- Sequencing: short-circuits on error, concatenates traces. -/
def Run.bind (x : Run α) (f : α → Run β) : Run β :=
  match x.res with
  | .error e => ⟨.error e, x.trace⟩
  | .ok a => ⟨(f a).res, x.trace ++ (f a).trace⟩

instance : Monad Run where
  pure := Run.pure
  bind := Run.bind

/-- `raise ConfigError(msg)`. -/
def throwConfig (msg : String) : Run α := ⟨.error (.configError msg), []⟩

/-- `raise PublisherError(msg)`. -/
def throwPub (msg : String) : Run α := ⟨.error (.publisherError msg), []⟩

/-- Record one observable event. -/
def emit (e : Event) : Run Unit := ⟨.ok (), [e]⟩

/-- Lift a pure `Except` computation. -/
def liftE (x : Except Err α) : Run α := ⟨x, []⟩

/-- `try: x except PublisherError as exc: handler(str(exc))` — catches
only `PublisherError`, keeps the trace emitted before the failure. -/
def catchPub (x : Run α) (handler : String → Run α) : Run α :=
  match x.res with
  | .error (.publisherError m) => ⟨(handler m).res, x.trace ++ (handler m).trace⟩
  | _ => x

/-! Module-level constants of `scripts/agent.py`. -/

def DEFAULT_DRY_RUN : Bool := true
def DEFAULT_GAS_LIMIT_MULTIPLIER : PyFloat := ⟨12, 10⟩
def DEFAULT_GAS_PRICE_MULTIPLIER : PyFloat := ⟨11, 10⟩
def MAX_UINT256 : Int := 2 ^ 256 - 1

def SUPPORTED_CHAINS : List String :=
  ["ethereum", "arbitrum", "base", "optimism", "polygon",
   "avalanche", "bsc", "gnosis", "zksync", "scroll"]

def CHAIN_DISCOVERY_TERMS : List (String × List String) :=
  [("ethereum", ["ethereum"]), ("arbitrum", ["arbitrum"]), ("base", ["base"]),
   ("optimism", ["optimism"]), ("polygon", ["polygon", "matic"]),
   ("avalanche", ["avalanche", "avax"]), ("bsc", ["bsc", "binance", "bnb"]),
   ("gnosis", ["gnosis", "xdai"]), ("zksync", ["zksync"]), ("scroll", ["scroll"])]

def CURVE_CHAIN_ALIASES : List (String × List String) :=
  [("ethereum", ["ethereum"]), ("arbitrum", ["arbitrum"]), ("base", ["base"]),
   ("optimism", ["optimism"]), ("polygon", ["polygon"]),
   ("avalanche", ["avalanche"]), ("bsc", ["bsc", "binance"]),
   ("gnosis", ["gnosis", "xdai"]), ("zksync", ["zksync"]), ("scroll", ["scroll"])]

/-- One entry of `DEFAULT_RPC_PROBES` / `rpc_capability.probes`. -/
structure Probe where
  method : String
  path : String
  body : JVal
deriving Repr

/-- The standard `eth_chainId` JSON-RPC body of the default probes. -/
def chainIdProbeBody : JVal :=
  .jobj [("jsonrpc", .jstr "2.0"), ("id", .jint 1),
         ("method", .jstr "eth_chainId"), ("params", .jarr [])]

def DEFAULT_RPC_PROBES : List Probe :=
  [⟨"POST", "", chainIdProbeBody⟩,
   ⟨"POST", "/ext/bc/C/rpc", chainIdProbeBody⟩,
   ⟨"POST", "/rpc", chainIdProbeBody⟩,
   ⟨"GET", "/health", .jobj []⟩]

/-! Conversions and validation helpers (`agent.py` lines 672-779). -/

/-- ASCII `str.upper` on one character. -/
def upperChar (c : Char) : Char :=
  if 'a' ≤ c ∧ c ≤ 'z' then Char.ofNat (c.toNat - 32) else c

/-- ASCII `str.upper`. -/
def pyUpper (s : String) : String := ⟨s.data.map upperChar⟩

/-- Python `isinstance(v, int)` view of a JSON value (a `bool` is an
`int` in Python: `True` counts as 1, `False` as 0). -/
def jIntLike (v : JVal) : Option Int :=
  match v with
  | .jint n => some n
  | .jbool b => some (if b then 1 else 0)
  | _ => none

/-- Python `float(v)`: `none` models the uncaught `TypeError`/`ValueError`
(a crash, not a `ConfigError`). -/
def pyFloatFn (v : JVal) : Option PyFloat :=
  match v with
  | .jbool b => some (pfOfInt (if b then 1 else 0))
  | .jint n => some (pfOfInt n)
  | .jnum q => some q
  | .jstr s => pyParseFloatText (pyStrip s)
  | _ => none

/-- Python `int(v)` (no explicit base): `none` models the uncaught
exception. -/
def pyIntFn (v : JVal) : Option Int :=
  match v with
  | .jbool b => some (if b then 1 else 0)
  | .jint n => some n
  | .jnum q => some (pfTrunc q)
  | .jstr s => pyParseDecInt (pyStrip s)
  | _ => none

/-- `_parse_rpc_int(value, field)`. -/
def parse_rpc_int (value : JVal) (field : String) : Except Err Int :=
  match jIntLike value with
  | some n => .ok n
  | none =>
    match value with
    | .jstr s =>
      match pyParseIntText (pyStrip s) with
      | some n => .ok n
      | none => .error (.publisherError
          ("RPC field '" ++ field ++ "' was not numeric: " ++ pyStr value))
    | _ => .error (.publisherError
        ("RPC field '" ++ field ++ "' was not numeric: " ++ pyStr value))

/-- `_parse_positive_int(value, field)`. -/
def parse_positive_int (value : JVal) (field : String) : Except Err Int :=
  match value with
  | .jbool _ => .error (.configError
      ("Config field '" ++ field ++ "' must be numeric, not bool."))
  | .jint n =>
    if n ≤ 0 then .error (.configError ("Config field '" ++ field ++ "' must be > 0."))
    else .ok n
  | .jstr s =>
    match pyParseIntText (pyStrip s) with
    | some n =>
      if n ≤ 0 then .error (.configError ("Config field '" ++ field ++ "' must be > 0."))
      else .ok n
    | none => .error (.configError
        ("Config field '" ++ field ++ "' must be numeric: " ++ pyStr value))
  | _ => .error (.configError ("Config field '" ++ field ++ "' must be numeric."))

/-- `_parse_nonnegative_int(value, field)`. -/
def parse_nonnegative_int (value : JVal) (field : String) : Except Err Int :=
  match value with
  | .jbool _ => .error (.configError
      ("Config field '" ++ field ++ "' must be numeric, not bool."))
  | .jint n =>
    if n < 0 then .error (.configError ("Config field '" ++ field ++ "' must be >= 0."))
    else .ok n
  | .jstr s =>
    match pyParseIntText (pyStrip s) with
    | some n =>
      if n < 0 then .error (.configError ("Config field '" ++ field ++ "' must be >= 0."))
      else .ok n
    | none => .error (.configError
        ("Config field '" ++ field ++ "' must be numeric: " ++ pyStr value))
  | _ => .error (.configError ("Config field '" ++ field ++ "' must be numeric."))

/-- `_to_float(value)`: numeric view used for optional fields (never
raises; bools are excluded on purpose by the source). -/
def to_float (value : JVal) : Option PyFloat :=
  match value with
  | .jbool _ => none
  | .jint n => some (pfOfInt n)
  | .jnum q => some q
  | .jstr s =>
    let text := pyStrip s
    if text = "" then none else pyParseFloatText text
  | _ => none

/-- `_normalize_address(value, field)`: strict 20-byte-hex check, then
lower-cased. -/
def normalize_address (value : String) (field : String) : Except Err String :=
  let text := pyStrip value
  if hexAddressB text then .ok (pyLower text)
  else .error (.configError (field ++ " must be a 0x-prefixed 20-byte address."))

/-- `_normalize_hex_bytes(value, field)`. -/
def normalize_hex_bytes (value : String) (field : String) : Except Err String :=
  let text := pyStrip value
  if hexBytesB text then .ok (pyLower text)
  else .error (.configError (field ++ " must be 0x-prefixed hex bytes."))

/-- `_path_label(path)`. -/
def path_label (path : String) : String := if path = "" then "(root)" else path

/-! `SerenPublisherClient` (`agent.py` lines 110-201).  The base-URL
normalisation of `__init__` only affects the HTTP endpoint, which lives
inside `Env.respond`; it is not modelled separately. -/

/-- `SerenPublisherClient._request`: one HTTP round trip.  The oracle's
`error` covers `HTTPError`, `URLError` and JSON-decode failures (their
message text is the oracle's choice); a non-object payload is rejected
here as in the source. -/
def clientRequest (env : Env) (method path : String) (body : JVal) : Run JVal := do
  let normalized_path := if pyStartsWith path "/" then path else "/" ++ path
  let method_upper := pyUpper method
  emit (.req method_upper normalized_path body)
  match env.respond method_upper normalized_path body with
  | .error m => throwPub m
  | .ok parsed =>
    if parsed.isObj then Run.pure parsed
    else throwPub ("Response from " ++ normalized_path ++ " was not an object")

/-- `SerenPublisherClient.call(publisher, method, path, body)`. -/
def clientCall (env : Env) (publisher method path : String) (body : JVal) : Run JVal :=
  let cleaned_path := pyStrip path
  let normalized_path :=
    if cleaned_path = "" ∨ cleaned_path = "/" then ""
    else if pyStartsWith cleaned_path "/" then cleaned_path else "/" ++ cleaned_path
  catchPub
    (clientRequest env method ("/publishers/" ++ publisher ++ normalized_path) body)
    (fun m => throwPub (publisher ++ " " ++ m))

/-- The paginated loop body of `SerenPublisherClient.list_publishers`
(`for _ in range(max_pages)`, fuel-indexed). -/
def listPublishersLoop (env : Env) (limit : Int) :
    Nat → Int → List JVal → Run (List JVal)
  | 0, _, acc => Run.pure acc
  | fuel + 1, offset, acc => do
    let payload ← clientRequest env "GET"
      ("/publishers?limit=" ++ toString limit ++ "&offset=" ++ toString offset) (.jobj [])
    match payload.get "data" with
    | some (.jarr data) =>
      let page_items := data.filter (fun item => item.isObj)
      let acc' := acc ++ page_items
      let pagination := payload.getD "pagination" (.jobj [])
      let has_more := if pagination.isObj then pyTruthy (pagination.getD "has_more" .null)
                      else false
      if ¬has_more ∨ page_items.isEmpty then Run.pure acc'
      else
        let count := if pagination.isObj then pagination.get "count" else none
        let offset' :=
          match count.bind jIntLike with
          | some n => if 0 < n then offset + n else offset + page_items.length
          | none => offset + page_items.length
        listPublishersLoop env limit fuel offset' acc'
    | _ => throwPub "Invalid publisher catalog response: missing data list."

/-- `list_publishers(limit=100, max_pages=5)`. -/
def list_publishers (env : Env) : Run (List JVal) :=
  listPublishersLoop env 100 5 0 []

/-- `_unwrap_gateway_response(payload, publisher, method, path)`: the
two-level gateway envelope (pure). -/
def unwrap_gateway_response (payload : JVal) (publisher method path : String) :
    Except Err JVal :=
  if ¬payload.isObj then
    .error (.publisherError
      (publisher ++ " response for " ++ method ++ " " ++ path_label path ++
       " was not an object."))
  else
    match jIntLike (payload.getD "status" .null) with
    | some n =>
      if payload.hasKey "body" then
        if n < 200 ∨ 300 ≤ n then
          .error (.publisherError
            (publisher ++ " upstream " ++ method ++ " " ++ path_label path ++
             " returned status " ++ pyStr (payload.getD "status" .null) ++ ": " ++
             pyPreview (payload.getD "body" .null)))
        else .ok (payload.getD "body" .null)
      else .ok payload
    | none => .ok payload

/-- Does `unwrapped.get("error")` fall outside `(None, {})`? -/
def rpcErrorPresent (unwrapped : JVal) : Bool :=
  match unwrapped.get "error" with
  | none => false
  | some .null => false
  | some (.jobj []) => false
  | some _ => true

/-- The resolved RPC endpoint handed to `_rpc_call` (built with fixed
keys in `run_once`). -/
structure RpcTarget where
  publisher : String
  method : String
  path : String
  publisher_source : String
deriving Repr

/-- `_rpc_call(client, rpc_target, method_name, params)`: emits its
`Event.rpc` marker, then performs the gateway call (whose `Event.req`
carries the JSON-RPC body verbatim). -/
def rpc_call (env : Env) (t : RpcTarget) (method_name : String) (params : List JVal) :
    Run (JVal × JVal) := do
  emit (.rpc method_name params)
  let payload ← clientCall env t.publisher (pyUpper t.method) t.path
    (.jobj [("jsonrpc", .jstr "2.0"), ("id", .jint 1),
            ("method", .jstr method_name), ("params", .jarr params)])
  let unwrapped ← liftE (unwrap_gateway_response payload t.publisher (pyUpper t.method) t.path)
  if ¬unwrapped.isObj then
    throwPub (t.publisher ++ " " ++ pyUpper t.method ++ " " ++ path_label t.path ++
              " returned non-object RPC payload.")
  else if rpcErrorPresent unwrapped then
    throwPub (t.publisher ++ " RPC method " ++ method_name ++ " failed: " ++
              pyPreview (unwrapped.getD "error" .null))
  else if ¬unwrapped.hasKey "result" then
    throwPub (t.publisher ++ " RPC method " ++ method_name ++ " missing result.")
  else Run.pure (unwrapped.getD "result" .null, unwrapped)

/-! Input resolution, wallet loading and signer resolution
(`agent.py` lines 232-343). -/

def DEFAULT_WALLET_PATH : String := "state/wallet.local.json"

/-- The validated `inputs` block (a dict with these fixed keys in the
source). -/
structure ResolvedInputs where
  chain : String
  wallet_mode : String
  live_mode : Bool
  deposit_token : String
  deposit_amount_usd : PyFloat
  top_n_gauges : Int
deriving Repr

/-- `config.get("inputs", {})`. -/
def inputsDict (config : JVal) : JVal := config.getD "inputs" (.jobj [])

/-- `_resolve_inputs(config)` (pure).  The `str()` conversions happen
before the validations, exactly as in the source; the two numeric
conversions can crash (`pyError`) before any validation fires. -/
def resolve_inputs (config : JVal) : Except Err ResolvedInputs :=
  if ¬(inputsDict config).isObj then
    .error (.configError "Config field 'inputs' must be an object.")
  else
    match pyFloatFn ((inputsDict config).getD "deposit_amount_usd" (.jint 100)) with
    | none => .error (.pyError "float() failed on deposit_amount_usd")
    | some amount_usd =>
      match pyIntFn ((inputsDict config).getD "top_n_gauges" (.jint 3)) with
      | none => .error (.pyError "int() failed on top_n_gauges")
      | some top_n =>
        if ¬SUPPORTED_CHAINS.contains (pyStr ((inputsDict config).getD "chain" (.jstr "ethereum"))) then
          .error (.configError
            ("Unsupported chain '" ++ pyStr ((inputsDict config).getD "chain" (.jstr "ethereum")) ++ "'."))
        else if ¬(pyStr ((inputsDict config).getD "wallet_mode" (.jstr "local")) = "local" ∨
                  pyStr ((inputsDict config).getD "wallet_mode" (.jstr "local")) = "ledger") then
          .error (.configError "wallet_mode must be 'local' or 'ledger'.")
        else if pfLe amount_usd pf0 then
          .error (.configError "deposit_amount_usd must be > 0.")
        else if top_n < 1 then
          .error (.configError "top_n_gauges must be >= 1.")
        else
          .ok ⟨pyStr ((inputsDict config).getD "chain" (.jstr "ethereum")),
               pyStr ((inputsDict config).getD "wallet_mode" (.jstr "local")),
               pyTruthy ((inputsDict config).getD "live_mode" (.jbool false)),
               pyStr ((inputsDict config).getD "deposit_token" (.jstr "USDC")),
               amount_usd, top_n⟩

/-- `load_local_wallet(wallet_path)`: the file system is the oracle's
`walletFile` (a JSON-decode failure of the file would be an uncaught
exception and is out of scope). -/
def load_local_wallet (env : Env) (wallet_path : String) : Except Err JVal :=
  match env.walletFile with
  | none => .error (.configError
      ("Local wallet file not found: " ++ wallet_path ++ ". Run with --init-wallet first."))
  | some wallet =>
    if ¬wallet.isObj then
      .error (.configError "Local wallet file must contain a JSON object.")
    else if ¬(wallet.hasKey "address" ∧ wallet.hasKey "private_key_hex") then
      .error (.configError "Local wallet file is missing required fields.")
    else .ok wallet

/-- The resolved signer (a dict with fixed keys in the source; the
private key is present only in `local` mode). -/
structure Signer where
  mode : String
  address : String
  private_key_hex : Option String
deriving Repr

/-- `resolve_signer(wallet_mode, wallet_path, ledger_address)`. -/
def resolve_signer (env : Env) (wallet_mode wallet_path ledger_address : String) :
    Except Err Signer := do
  if wallet_mode = "local" then do
    let wallet ← load_local_wallet env wallet_path
    let address ← normalize_address (pyStr (wallet.getD "address" .null)) "wallet.address"
    Except.ok ⟨"local", address, some (pyStr (wallet.getD "private_key_hex" .null))⟩
  else if ledger_address = "" then
    .error (.configError
      "ledger mode requires --ledger-address or config.wallet.ledger_address.")
  else do
    let address ← normalize_address ledger_address "ledger_address"
    Except.ok ⟨"ledger", address, none⟩

/-! RPC publisher discovery (`agent.py` lines 346-471). -/

/-- `_rpc_publisher_overrides(config)`: validation loop over the
`rpc_publishers` override map (object keys are strings by construction
of `JVal`, so the source's string-key check cannot fire). -/
def rpcPublisherOverridesLoop : List (String × JVal) → Except Err (List (String × String))
  | [] => .ok []
  | (chain, slug) :: rest => do
    if ¬(SUPPORTED_CHAINS.contains chain) then
      .error (.configError ("rpc_publishers has unsupported chain key '" ++ chain ++ "'."))
    else
      match slug with
      | .jstr s =>
        if pyStrip s = "" then
          .error (.configError
            ("rpc_publishers['" ++ chain ++ "'] must be a non-empty string."))
        else do
          let cleaned ← rpcPublisherOverridesLoop rest
          .ok ((chain, pyStrip s) :: cleaned)
      | _ => .error (.configError
          ("rpc_publishers['" ++ chain ++ "'] must be a non-empty string."))

/-- `_rpc_publisher_overrides(config)`. -/
def rpc_publisher_overrides (config : JVal) : Except Err (List (String × String)) :=
  let overrides := config.getD "rpc_publishers" (.jobj [])
  match overrides with
  | .null => .ok []
  | .jobj kvs => rpcPublisherOverridesLoop kvs
  | _ => .error (.configError "Config field 'rpc_publishers' must be an object when provided.")

/-- `" ".join(str(c).lower() for c in categories if isinstance(c, str))`. -/
def categoriesTextOf (p : JVal) : String :=
  match p.getD "categories" (.jarr []) with
  | .jarr l => String.intercalate " "
      (l.filterMap (fun c => match c with | .jstr s => some (pyLower s) | _ => none))
  | _ => ""

/-- `str(publisher.get("slug", "")).strip().lower()` (the discovery
loop's slug; `_is_rpc_like_publisher` uses the unstripped lowering). -/
def slugOf (p : JVal) : String := pyLower (pyStrip (pyStr (p.getD "slug" (.jstr ""))))

/-- `str(publisher.get("name", "")).lower()`. -/
def nameOf (p : JVal) : String := pyLower (pyStr (p.getD "name" (.jstr "")))

/-- `str(publisher.get("description", "")).lower()`. -/
def descriptionOf (p : JVal) : String := pyLower (pyStr (p.getD "description" (.jstr "")))

/-- `_is_rpc_like_publisher(publisher)`. -/
def is_rpc_like_publisher (p : JVal) : Bool :=
  let categories_text := categoriesTextOf p
  let slug := pyLower (pyStr (p.getD "slug" (.jstr "")))
  let name := nameOf p
  let description := descriptionOf p
  let category_tokens := pyTokenize categories_text
  let slug_tokens := pyTokenize slug
  let name_tokens := pyTokenize name
  if tokMem "rpc" category_tokens ∨ tokMem "rpc" slug_tokens ∨ tokMem "rpc" name_tokens
  then true
  else strContains description "json-rpc" ∨ strContains description "json rpc"

/-- `publisher.get("is_active") is False`. -/
def isActiveFalse (p : JVal) : Bool :=
  match p.get "is_active" with
  | some (.jbool false) => true
  | _ => false

/-- The token pools of one catalog entry in the discovery loop. -/
def slugTokens (p : JVal) : List String := pyTokenize (slugOf p)

def nameTokens (p : JVal) : List String := pyTokenize (nameOf p)

def categoryTokens (p : JVal) : List String := pyTokenize (categoriesTextOf p)

def descriptionTokens (p : JVal) : List String := pyTokenize (descriptionOf p)

def allTokens (p : JVal) : List String :=
  slugTokens p ++ nameTokens p ++ categoryTokens p ++ descriptionTokens p

/-- The conditions under which the discovery loop scores a catalog entry
for a chain (the `continue` guards of `_discovered_rpc_publishers`). -/
def publisherQualifies (terms : List String) (p : JVal) : Bool :=
  p.isObj ∧ ¬isActiveFalse p ∧ is_rpc_like_publisher p ∧ slugOf p ≠ "" ∧
    terms.any (fun term => tokMem term (allTokens p))

/-- The weighted token-match score of `_discovered_rpc_publishers`. -/
def scoreOf (terms : List String) (p : JVal) : Int :=
  (if pyStartsWith (slugOf p) "seren-" then 20 else 0) +
  (if terms.any (fun term => tokMem term (slugTokens p)) then 12 else 0) +
  (if terms.any (fun term => tokMem term (categoryTokens p)) then 8 else 0) +
  (if terms.any (fun term => tokMem term (nameTokens p)) then 6 else 0) +
  (if strContains (descriptionOf p) "json-rpc" then 4 else 0)

/-- The best-candidate loop of `_discovered_rpc_publishers` for one
chain, carrying `(best_score, best_slug)`. -/
def bestLoop (terms : List String) : List JVal → Int → String → Int × String
  | [], best_score, best_slug => (best_score, best_slug)
  | p :: rest, best_score, best_slug =>
    if publisherQualifies terms p then
      let score := scoreOf terms p
      let slug := slugOf p
      if best_score < score ∨ (score = best_score ∧ pyStrLt slug best_slug)
      then bestLoop terms rest score slug
      else bestLoop terms rest best_score best_slug
    else bestLoop terms rest best_score best_slug

/-- The pure chain→slug mapping computed by `_discovered_rpc_publishers`
from a fixed catalog. -/
def discoveredFromCatalog (publishers : List JVal) : List (String × String) :=
  CHAIN_DISCOVERY_TERMS.filterMap (fun ct =>
    let best := bestLoop ct.2 publishers (-1) ""
    if best.2 ≠ "" then some (ct.1, best.2) else none)

/-- `_discovered_rpc_publishers(client)`. -/
def discovered_rpc_publishers (env : Env) : Run (List (String × String)) := do
  let publishers ← list_publishers env
  Run.pure (discoveredFromCatalog publishers)

/-- Association lookup on string-keyed lists (`dict.get`). -/
def slookup (l : List (String × String)) (k : String) : Option String :=
  match l with
  | [] => none
  | (k', v) :: rest => if k' = k then some v else slookup rest k

/-- `", ".join(f"{chain}:{slug}" ...)` over the sorted discovered map. -/
def availableText (discovered : List (String × String)) : String :=
  let sorted := List.insertionSort (fun a b : String × String => pyStrLe a.1 b.1 = true) discovered
  String.intercalate ", " (sorted.map (fun cs => cs.1 ++ ":" ++ cs.2))

/-- `_rpc_publisher_for_chain(chain, client, config)`. -/
def rpc_publisher_for_chain (env : Env) (chain : String) (config : JVal) :
    Run (String × String) := do
  let connector_alias := "rpc_" ++ chain
  let overrides ← liftE (rpc_publisher_overrides config)
  match slookup overrides chain with
  | some slug => Run.pure (slug, "config.rpc_publishers")
  | none => do
    let discovered ← discovered_rpc_publishers env
    match slookup discovered chain with
    | some publisher => Run.pure (publisher, "catalog:/publishers")
    | none =>
      let available := availableText discovered
      let available := if available = "" then "none" else available
      throwConfig
        ("No RPC publisher is available for chain '" ++ chain ++ "' (connector alias '" ++
         connector_alias ++ "'). Auto-discovered mappings: " ++ available ++
         ". Add an explicit override in config.rpc_publishers if needed.")

/-! RPC capability probing (`agent.py` lines 474-628). -/

/-- The per-probe validation loop of `_rpc_probe_config` (index-carrying). -/
def probeConfigLoop : Nat → List JVal → Except Err (List Probe)
  | _, [] => .ok []
  | index, probe :: rest =>
    if ¬probe.isObj then
      .error (.configError ("rpc_capability.probes[" ++ toString index ++ "] must be an object."))
    else
      let method := pyUpper (pyStr (probe.getD "method" (.jstr "GET")))
      let path := pyStrip (pyStr (probe.getD "path" (.jstr "")))
      let body := probe.getD "body" (.jobj [])
      if ¬(method = "GET" ∨ method = "POST" ∨ method = "PUT" ∨ method = "PATCH" ∨
           method = "DELETE") then
        .error (.configError
          ("rpc_capability.probes[" ++ toString index ++ "].method '" ++ method ++
           "' is not supported."))
      else if path ≠ "" ∧ ¬pyStartsWith path "/" then
        .error (.configError
          ("rpc_capability.probes[" ++ toString index ++ "].path must be '' or start with '/'."))
      else if ¬body.isObj then
        .error (.configError
          ("rpc_capability.probes[" ++ toString index ++ "].body must be an object."))
      else do
        let probes ← probeConfigLoop (index + 1) rest
        .ok (⟨method, path, body⟩ :: probes)

/-- `_rpc_probe_config(config)`. -/
def rpc_probe_config (config : JVal) : Except Err (Bool × List Probe) := do
  let capability := config.getD "rpc_capability" (.jobj [])
  if ¬capability.isObj then
    .error (.configError "Config field 'rpc_capability' must be an object when provided.")
  else
    let required := pyTruthy (capability.getD "required" (.jbool true))
    match capability.get "probes" with
    | none => .ok (required, DEFAULT_RPC_PROBES)
    | some .null => .ok (required, DEFAULT_RPC_PROBES)
    | some (.jarr []) => .error (.configError "rpc_capability.probes must be a non-empty list.")
    | some (.jarr probes_raw) => do
      let probes ← probeConfigLoop 0 probes_raw
      .ok (required, probes)
    | some _ => .error (.configError "rpc_capability.probes must be a non-empty list.")

/-- `", ".join(f"{p['method']} {_path_label(str(p['path']))}" ...)`. -/
def probeLabels (probes : List Probe) : String :=
  String.intercalate ", " (probes.map (fun p => p.method ++ " " ++ path_label p.path))

/-- The keys of an object, sorted (`sorted(unwrapped.keys())`). -/
def sortedKeys (v : JVal) : List String :=
  match v with
  | .jobj kvs => List.insertionSort (fun a b : String => pyStrLe a b = true)
      (kvs.map (fun kv => kv.1))
  | _ => []

/-- The success dictionary returned by `check_rpc_capability` for a
POST probe that yields a well-formed JSON-RPC result. -/
def probeOkDict (required : Bool) (connector_alias publisher publisher_source : String)
    (probe : Probe) (unwrapped : JVal) : JVal :=
  .jobj [("status", .jstr "ok"), ("required", .jbool required),
         ("connector", .jstr connector_alias), ("publisher", .jstr publisher),
         ("publisher_source", .jstr publisher_source),
         ("probe", .jobj [("method", .jstr probe.method), ("path", .jstr probe.path)]),
         ("rpc_target", .jobj [("method", .jstr probe.method), ("path", .jstr probe.path)]),
         ("response_preview", .jarr ((sortedKeys unwrapped).map (fun k => .jstr k)))]

/-- One probe attempt: `some dict` when the POST probe returns a
well-formed JSON-RPC result (the loop returns it), `none` when the probe
succeeded without being a POST (the loop just continues), or the caught
`PublisherError` message. -/
def probeAttempt (env : Env) (publisher : String) (required : Bool)
    (connector_alias publisher_source : String) (probe : Probe) :
    Run (Sum (Option JVal) String) :=
  catchPub
    (do
      let payload ← clientCall env publisher probe.method probe.path probe.body
      let unwrapped ← liftE (unwrap_gateway_response payload publisher probe.method probe.path)
      if probe.method = "POST" then
        if ¬unwrapped.isObj then
          throwPub (publisher ++ " " ++ probe.method ++ " " ++ path_label probe.path ++
                    " did not return a JSON object.")
        else if rpcErrorPresent unwrapped then
          throwPub (publisher ++ " " ++ probe.method ++ " " ++ path_label probe.path ++
                    " returned JSON-RPC error: " ++ pyPreview (unwrapped.getD "error" .null))
        else if ¬unwrapped.hasKey "result" then
          throwPub (publisher ++ " " ++ probe.method ++ " " ++ path_label probe.path ++
                    " missing JSON-RPC result.")
        else
          Run.pure (Sum.inl (some
            (probeOkDict required connector_alias publisher publisher_source probe unwrapped)))
      else Run.pure (Sum.inl none))
    (fun m => Run.pure (Sum.inr m))

/-- The probe loop of `check_rpc_capability`, accumulating the error
lines; falls out to the aggregated failure handling. -/
def probeRunLoop (env : Env) (chain publisher : String) (required : Bool)
    (connector_alias publisher_source : String) (allProbes : List Probe) :
    List Probe → List String → Run JVal
  | [], errors =>
    let message := "RPC capability check failed for chain '" ++ chain ++ "' (connector '" ++
      connector_alias ++ "', publisher '" ++ publisher ++ "'). Probes attempted: " ++
      probeLabels allProbes ++ "."
    let message := if errors.isEmpty then message
      else message ++ " Errors: " ++ String.intercalate " | " errors
    if required then throwConfig message
    else Run.pure (.jobj [("status", .jstr "warning"), ("required", .jbool required),
      ("connector", .jstr connector_alias), ("publisher", .jstr publisher),
      ("publisher_source", .jstr publisher_source), ("error", .jstr message)])
  | probe :: rest, errors => do
    let attempt ← probeAttempt env publisher required connector_alias publisher_source probe
    match attempt with
    | Sum.inl (some okDict) => Run.pure okDict
    | Sum.inl none => probeRunLoop env chain publisher required connector_alias publisher_source allProbes rest errors
    | Sum.inr m => probeRunLoop env chain publisher required connector_alias publisher_source allProbes rest (errors ++ [probe.method ++ " " ++ path_label probe.path ++ ": " ++ m])

/-- `check_rpc_capability(client, chain, config)`. -/
def check_rpc_capability (env : Env) (chain : String) (config : JVal) : Run JVal := do
  let rc ← liftE (rpc_probe_config config)
  let connector_alias := "rpc_" ++ chain
  let ps ← rpc_publisher_for_chain env chain config
  probeRunLoop env chain ps.1 rc.1 connector_alias ps.2 rc.2 rc.2 []

/-! Opportunity source (`agent.py` lines 758-876). -/

/-- `_curve_chain_matches(requested_chain, source_chain)`. -/
def curve_chain_matches (requested_chain source_chain : String) : Bool :=
  let aliases := match CURVE_CHAIN_ALIASES.lookup requested_chain with
    | some a => a
    | none => [requested_chain]
  let source := pyStrip (pyLower source_chain)
  aliases.contains source

/-- The numeric candidates of one reward field (list-valued fields are
flattened). -/
def rewardFieldCandidates (raw : Option JVal) : List PyFloat :=
  match raw with
  | some (.jarr items) => items.filterMap to_float
  | some v => (to_float v).toList
  | none => (to_float .null).toList

/-- All numeric candidates of `_extract_reward_apy` in field order
(`gaugeFutureCrvApy` then `gaugeCrvApy`). -/
def rewardCandidates (gauge : JVal) : List PyFloat :=
  rewardFieldCandidates (some (gauge.getD "gaugeFutureCrvApy" .null)) ++
  rewardFieldCandidates (some (gauge.getD "gaugeCrvApy" .null))

/-- One step of Python `max`: keep the larger of the accumulator and the
next element (the accumulator wins ties, as in CPython). -/
def pfMaxStep (cur y : PyFloat) : PyFloat := if pfLt cur y then y else cur

/-- Python `max` over a non-empty float list (0.0 for the empty list, as
in the source's early return). -/
def pfListMax : List PyFloat → PyFloat
  | [] => pf0
  | x :: xs => xs.foldl pfMaxStep x

/-- `_extract_reward_apy(gauge)`. -/
def extract_reward_apy (gauge : JVal) : PyFloat := pfListMax (rewardCandidates gauge)

/-- Does `fetch_top_gauges` keep this catalog entry?  (the `continue`
guards of its loop). -/
def gaugeKept (chain : String) (entry : String × JVal) : Bool :=
  entry.2.isObj ∧
  curve_chain_matches chain (pyStrip (pyLower (pyStr (entry.2.getD "blockchainId" (.jstr ""))))) ∧
  hexAddressB (pyStrip (pyStr (entry.2.getD "gauge" (.jstr ""))))

/-- The gauge record `fetch_top_gauges` builds for one kept entry. -/
def mkGaugeRecord (entry : String × JVal) : JVal :=
  let gauge_value := entry.2
  let source_chain := pyStrip (pyLower (pyStr (gauge_value.getD "blockchainId" (.jstr ""))))
  let gauge_address_raw := pyStrip (pyStr (gauge_value.getD "gauge" (.jstr "")))
  let swap_token_raw := pyStrip (pyStr (gauge_value.getD "swap_token" (.jstr "")))
  let lp_token_address := if hexAddressB swap_token_raw then swap_token_raw else ""
  let reward_apy := extract_reward_apy gauge_value
  let lp_token_price := to_float (gauge_value.getD "lpTokenPrice" .null)
  .jobj [("name", .jstr entry.1),
         ("address", .jstr (pyLower gauge_address_raw)),
         ("pool_address", .jstr (pyLower (pyStrip (pyStr (gauge_value.getD "poolAddress" (.jstr "")))))),
         ("lp_token_address", .jstr (pyLower lp_token_address)),
         ("lp_token_price_usd", match lp_token_price with | some q => .jnum q | none => .null),
         ("reward_apy", .jnum reward_apy),
         ("source_chain", .jstr source_chain)]

/-- The filtered (pre-sort) gauge list of `fetch_top_gauges`. -/
def filteredGauges (chain : String) (entries : List (String × JVal)) : List JVal :=
  (entries.filter (gaugeKept chain)).map mkGaugeRecord

/-- The sort key: `float(item.get("reward_apy", 0.0))` (forced float
conversion; the items are built by `mkGaugeRecord`, whose `reward_apy`
is always a float, so the crash branch is unreachable and modelled as 0). -/
def gaugeSortKey (item : JVal) : PyFloat :=
  match pyFloatFn (item.getD "reward_apy" (.jnum pf0)) with
  | some q => q
  | none => pf0

/-- Descending order on the sort key (`sort(key=..., reverse=True)`). -/
def gaugeGE (a b : JVal) : Prop := pfLe (gaugeSortKey b) (gaugeSortKey a) = true

instance : DecidableRel gaugeGE := fun a b => by
  unfold gaugeGE; infer_instance

/-- Python list slicing `l[:limit]` for an `int` limit (a negative limit
drops elements from the end). -/
def pySlice (limit : Int) (l : List JVal) : List JVal :=
  if 0 ≤ limit then l.take limit.toNat
  else l.take (l.length - (-limit).toNat)

/-- The gateway / envelope prefix of `fetch_top_gauges`: one call of the
gauge listing endpoint, unwrapped, with its `data` object extracted. -/
def fetchGaugeData (env : Env) : Run (List (String × JVal)) := do
  let payload ← clientCall env "curve-finance" "GET" "/getGauges" (.jobj [])
  let body ← liftE (unwrap_gateway_response payload "curve-finance" "GET" "/getGauges")
  if ¬body.isObj then
    throwPub "curve-finance /getGauges returned non-object body."
  else
    match body.getD "data" .null with
    | .jobj data => Run.pure data
    | _ => throwPub "curve-finance /getGauges response missing data object."

/-- The pure tail of `fetch_top_gauges`: filter, sort descending, slice,
fail when nothing is left. -/
def topGaugesFrom (chain : String) (limit : Int) (data : List (String × JVal)) :
    Except Err JVal :=
  let gauges := filteredGauges chain data
  let sortedGauges := List.insertionSort gaugeGE gauges
  let top := pySlice limit sortedGauges
  if top.isEmpty then
    .error (.configError
      ("Curve API returned no gauge candidates for chain '" ++ chain ++
       "'. Verify chain support and publisher availability."))
  else
    .ok (.jobj [("gauges", .jarr top),
                ("total_candidates", .jint gauges.length),
                ("source", .jstr "curve-finance:/getGauges")])

/-- `fetch_top_gauges(client, chain, limit)`. -/
def fetch_top_gauges (env : Env) (chain : String) (limit : Int) : Run JVal := do
  let data ← fetchGaugeData env
  liftE (topGaugesFrom chain limit data)

/-- Python `x or ""` used on an optional string field. -/
def pyOrEmptyStr (v : Option JVal) : JVal :=
  match v with
  | some x => if pyTruthy x then x else .jstr ""
  | none => .jstr ""

/-- `choose_trade_plan(gauges_response, token, amount_usd)` (pure). -/
def choose_trade_plan (gauges_response : JVal) (token : String) (amount_usd : PyFloat) :
    Except Err JVal :=
  let top : JVal :=
    match gauges_response.get "gauges" with
    | some (.jarr (g0 :: _)) => if g0.isObj then g0 else .jobj []
    | _ => .jobj []
  let gauge_address := pyStrip (pyStr (pyOrEmptyStr (top.get "address")))
  if ¬hexAddressB gauge_address then
    .error (.configError "Unable to resolve a valid Curve gauge address from gauge data.")
  else
    .ok (.jobj [("token", .jstr token),
                ("amount_usd", .jnum amount_usd),
                ("gauge_address", .jstr (pyLower gauge_address)),
                ("expected_reward_apy",
                  match to_float (top.getD "reward_apy" .null) with
                  | some q => .jnum q | none => .null),
                ("lp_token_address",
                  .jstr (pyLower (pyStrip (pyStr (top.getD "lp_token_address" (.jstr "")))))),
                ("lp_token_price_usd",
                  match to_float (top.getD "lp_token_price_usd" .null) with
                  | some q => .jnum q | none => .null),
                ("pool_address",
                  .jstr (pyLower (pyStrip (pyStr (top.getD "pool_address" (.jstr "")))))),
                ("gauge_name", .jstr (pyStr (top.getD "name" (.jstr "unknown")))),
                ("source", gauges_response.getD "source" (.jstr "curve-finance"))])

/-! Transaction building (`agent.py` lines 879-1103). -/

/-- `_resolve_evm_execution(config)`. -/
def resolve_evm_execution (config : JVal) : Except Err JVal :=
  let execution := config.getD "evm_execution" (.jobj [])
  let execution := if execution.isNull then JVal.jobj [] else execution
  if ¬execution.isObj then
    .error (.configError "Config field 'evm_execution' must be an object when provided.")
  else
    let strategy := pyLower (pyStrip (pyStr (execution.getD "strategy" (.jstr "gauge_stake_lp"))))
    if ¬(strategy = "gauge_stake_lp" ∨ strategy = "custom_tx") then
      .error (.configError "evm_execution.strategy must be 'gauge_stake_lp' or 'custom_tx'.")
    else .ok (execution.set "strategy" (.jstr strategy))

/-- `_encode_function_call(signature, arg_types, args)`: keccak selector
and ABI encoding are the oracle's `encodeCall` (the import-failure branch
assumes the libraries are installed, as every claim does). -/
def encode_function_call (env : Env) (signature : String) (arg_types : List String)
    (args : List JVal) : String :=
  env.encodeCall signature arg_types args

/-- `_erc20_allowance(client, rpc_target, token, owner, spender)`. -/
def erc20_allowance (env : Env) (t : RpcTarget) (token_address owner_address spender_address : String) : Run Int := do
  let call_data := encode_function_call env "allowance(address,address)" ["address", "address"] [.jstr owner_address, .jstr spender_address]
  let r ← rpc_call env t "eth_call" [.jobj [("to", .jstr token_address), ("data", .jstr call_data)], .jstr "latest"]
  liftE (parse_rpc_int r.1 "allowance")

/-- `_erc20_balance_of(client, rpc_target, token, owner)`. -/
def erc20_balance_of (env : Env) (t : RpcTarget) (token_address owner_address : String) : Run Int := do
  let call_data := encode_function_call env "balanceOf(address)" ["address"] [.jstr owner_address]
  let r ← rpc_call env t "eth_call" [.jobj [("to", .jstr token_address), ("data", .jstr call_data)], .jstr "latest"]
  liftE (parse_rpc_int r.1 "balanceOf")

/-- One logical call of the batch (a dict with these fixed keys in the
source). -/
structure TxCall where
  label : String
  toAddr : String
  value_wei : Int
  data : String
deriving Repr

/-- Python `a or b`. -/
def jor (a b : JVal) : JVal := if pyTruthy a then a else b

/-- `value not in (None, "")`. -/
def notNoneOrEmpty (v : Option JVal) : Bool :=
  match v with
  | none => false
  | some .null => false
  | some (.jstr s) => s ≠ ""
  | some _ => true

/-- The repeated sub-config pattern `parent.get(key, {})`, `None` treated
as `{}`, anything else non-dict fatal (`gauge_stake_lp`, `custom_tx`,
`tx`, `ledger`, `wallet`). -/
def subConfigOf (parent : JVal) (key : String) (errMsg : String) : Except Err JVal :=
  let cfg := parent.getD key (.jobj [])
  let cfg := if cfg.isNull then JVal.jobj [] else cfg
  if ¬cfg.isObj then .error (.configError errMsg) else .ok cfg

/-- The USD-derived LP amount branch of
`_build_gauge_stake_lp_transactions` (`lp_amount_wei` not configured):
`int(amount_usd / lp_token_price_usd * 10**decimals)` with its guards. -/
def deriveLpAmount (stake_cfg trade_plan : JVal) : Except Err Int :=
  match pyIntFn (stake_cfg.getD "lp_token_decimals" (.jint 18)) with
  | none => .error (.pyError "int() failed on lp_token_decimals")
  | some decimals =>
    if decimals < 0 ∨ 36 < decimals then
      .error (.configError "gauge_stake_lp.lp_token_decimals must be between 0 and 36.")
    else
      match to_float (trade_plan.getD "lp_token_price_usd" .null) with
      | none => .error (.configError "Unable to derive LP amount from USD because lp_token_price_usd is missing/invalid. Set evm_execution.gauge_stake_lp.lp_amount_wei explicitly.")
      | some price =>
        if ¬pfPos price then
          .error (.configError "Unable to derive LP amount from USD because lp_token_price_usd is missing/invalid. Set evm_execution.gauge_stake_lp.lp_amount_wei explicitly.")
        else
          match to_float (trade_plan.getD "amount_usd" .null) with
          | none => .error (.configError "Trade plan amount_usd is invalid.")
          | some amount =>
            if ¬pfPos amount then .error (.configError "Trade plan amount_usd is invalid.")
            else
              if pfTrunc (pfMul (pfDiv amount price) (pfOfInt ((10 : Int) ^ decimals.toNat))) ≤ 0 then
                .error (.configError "Derived LP amount is zero. Increase deposit_amount_usd or set lp_amount_wei.")
              else .ok (pfTrunc (pfMul (pfDiv amount price) (pfOfInt ((10 : Int) ^ decimals.toNat))))

/-- The LP-amount resolution of `_build_gauge_stake_lp_transactions`:
explicit `lp_amount_wei` override when set (`not in (None, "")`), else
the USD derivation. -/
def resolveLpAmount (stake_cfg trade_plan : JVal) : Except Err Int :=
  if notNoneOrEmpty (stake_cfg.get "lp_amount_wei") then
    parse_positive_int ((stake_cfg.get "lp_amount_wei").getD .null) "gauge_stake_lp.lp_amount_wei"
  else deriveLpAmount stake_cfg trade_plan

/-- The call batch built by `_build_gauge_stake_lp_transactions`: a
conditional `approve` (exact amount or max uint256) followed by the
unconditional `deposit`. -/
def gaugeStakeCalls (env : Env) (gauge lp_token : String) (lp_amount_wei allowance_wei : Int)
    (approve_first approve_max : Bool) : List TxCall :=
  (if approve_first ∧ allowance_wei < lp_amount_wei then
    [⟨"approve_lp_token", lp_token, 0,
      encode_function_call env "approve(address,uint256)" ["address", "uint256"]
        [.jstr gauge, .jint (if approve_max then MAX_UINT256 else lp_amount_wei)]⟩]
  else []) ++
  [⟨"deposit_to_gauge", gauge, 0,
    encode_function_call env "deposit(uint256)" ["uint256"] [.jint lp_amount_wei]⟩]

/-- The `details` dictionary of `_build_gauge_stake_lp_transactions`. -/
def gaugeStakeDetails (gauge lp_token : String) (lp_amount_wei allowance_wei : Int) : JVal :=
  .jobj [("strategy", .jstr "gauge_stake_lp"),
    ("gauge_address", .jstr gauge), ("lp_token_address", .jstr lp_token),
    ("lp_amount_wei", .jstr (toString lp_amount_wei)),
    ("allowance_wei", .jstr (toString allowance_wei)),
    ("approval_required", .jbool (allowance_wei < lp_amount_wei))]

/-- `_build_gauge_stake_lp_transactions(client, rpc_target, signer,
trade_plan, execution)`. -/
def build_gauge_stake_lp_transactions (env : Env) (t : RpcTarget) (signer : Signer)
    (trade_plan : JVal) (execution : JVal) : Run (List TxCall × JVal) := do
  let stake_cfg ← liftE (subConfigOf execution "gauge_stake_lp"
    "evm_execution.gauge_stake_lp must be an object when provided.")
  let gauge ← liftE (normalize_address
    (pyStr (jor (stake_cfg.getD "gauge_address" .null) (trade_plan.getD "gauge_address" .null)))
    "gauge_stake_lp.gauge_address")
  let lp_token ← liftE (normalize_address
    (pyStr (jor (stake_cfg.getD "lp_token_address" .null) (trade_plan.getD "lp_token_address" .null)))
    "gauge_stake_lp.lp_token_address")
  let lp_amount_wei ← liftE (resolveLpAmount stake_cfg trade_plan)
  let allowance_wei ← erc20_allowance env t lp_token signer.address gauge
  Run.pure
    (gaugeStakeCalls env gauge lp_token lp_amount_wei allowance_wei
       (pyTruthy (stake_cfg.getD "approve_first" (.jbool true)))
       (pyTruthy (stake_cfg.getD "approve_max" (.jbool true))),
     gaugeStakeDetails gauge lp_token lp_amount_wei allowance_wei)

/-- `_build_custom_tx_transactions(execution)` (pure). -/
def build_custom_tx_transactions (execution : JVal) : Except Err (List TxCall × JVal) := do
  let custom ← subConfigOf execution "custom_tx"
    "evm_execution.custom_tx must be an object when provided."
  let to_addr ← normalize_address (pyStr (custom.getD "to" (.jstr ""))) "custom_tx.to"
  let data ← normalize_hex_bytes (pyStr (custom.getD "data" (.jstr "0x"))) "custom_tx.data"
  let value_wei ← parse_nonnegative_int (custom.getD "value_wei" (.jint 0)) "custom_tx.value_wei"
  let label := let s := pyStrip (pyStr (custom.getD "label" (.jstr "custom_transaction")))
               if s = "" then "custom_transaction" else s
  let data_preview := if 28 < data.data.length
    then String.mk (data.data.take 18) ++ "..." ++ String.mk (data.data.drop (data.data.length - 8))
    else data
  Except.ok ([⟨label, to_addr, value_wei, data⟩],
    JVal.jobj [("strategy", .jstr "custom_tx"), ("to", .jstr to_addr),
      ("value_wei", .jstr (toString value_wei)), ("data_preview", .jstr data_preview)])

/-- `_build_trade_transactions(...)`. -/
def build_trade_transactions (env : Env) (t : RpcTarget) (signer : Signer)
    (trade_plan : JVal) (execution : JVal) : Run (List TxCall × JVal) :=
  if pyStr (execution.getD "strategy" (.jstr "gauge_stake_lp")) = "custom_tx" then
    liftE (build_custom_tx_transactions execution)
  else
    build_gauge_stake_lp_transactions env t signer trade_plan execution

/-! Gas and nonce resolution (`agent.py` lines 1106-1259). -/

/-- `_resolve_gas_price_wei(client, rpc_target, execution)`. -/
def resolve_gas_price_wei (env : Env) (t : RpcTarget) (execution : JVal) : Run Int := do
  let tx_cfg ← liftE (subConfigOf execution "tx" "evm_execution.tx must be an object when provided.")
  if notNoneOrEmpty (tx_cfg.get "gas_price_wei") then
    liftE (parse_positive_int ((tx_cfg.get "gas_price_wei").getD .null) "tx.gas_price_wei")
  else do
    let r ← rpc_call env t "eth_gasPrice" []
    let base_gas_price ← liftE (parse_rpc_int r.1 "eth_gasPrice")
    if ¬pfPos ((to_float (tx_cfg.getD "gas_price_multiplier" .null)).getD DEFAULT_GAS_PRICE_MULTIPLIER) then
      throwConfig "tx.gas_price_multiplier must be > 0."
    else Run.pure (max 1 (pfCeil (pfMul (pfOfInt base_gas_price)
      ((to_float (tx_cfg.getD "gas_price_multiplier" .null)).getD DEFAULT_GAS_PRICE_MULTIPLIER))))

/-- `_resolve_gas_limit_multiplier(execution)` (pure). -/
def resolve_gas_limit_multiplier (execution : JVal) : Except Err PyFloat := do
  let tx_cfg ← subConfigOf execution "tx" "evm_execution.tx must be an object when provided."
  if ¬pfPos ((to_float (tx_cfg.getD "gas_limit_multiplier" .null)).getD DEFAULT_GAS_LIMIT_MULTIPLIER) then
    .error (.configError "tx.gas_limit_multiplier must be > 0.")
  else .ok ((to_float (tx_cfg.getD "gas_limit_multiplier" .null)).getD DEFAULT_GAS_LIMIT_MULTIPLIER)

/-- `_resolve_fallback_gas_limit(execution)` (pure). -/
def resolve_fallback_gas_limit (execution : JVal) : Except Err Int := do
  let tx_cfg ← subConfigOf execution "tx" "evm_execution.tx must be an object when provided."
  parse_positive_int (tx_cfg.getD "fallback_gas_limit" (.jint 350000)) "tx.fallback_gas_limit"

/-- Python `hex(n)`. -/
def pyHex (n : Int) : String :=
  if n < 0 then "-0x" ++ String.mk (Nat.toDigits 16 (-n).toNat)
  else "0x" ++ String.mk (Nat.toDigits 16 n.toNat)

/-- The `eth_estimateGas` payload of one call. -/
def estimatePayload (signer : Signer) (c : TxCall) : JVal :=
  .jobj [("from", .jstr signer.address), ("to", .jstr c.toAddr),
         ("value", .jstr (pyHex c.value_wei)), ("data", .jstr c.data)]

/-- The result of `jIntLike` with the unreachable non-int branch mapped
to 0 (used for `int(item[...])` over values this file itself built). -/
def jvalInt (v : JVal) : Int := (jIntLike v).getD 0

/-- The estimation step of one call inside
`_estimate_and_prepare_transactions`: the `eth_estimateGas` RPC followed
by `_parse_rpc_int` (both inside the `try`). -/
def estimateGasRun (env : Env) (t : RpcTarget) (signer : Signer) (c : TxCall) : Run Int := do
  let r ← rpc_call env t "eth_estimateGas" [estimatePayload signer c]
  liftE (parse_rpc_int r.1 ("eth_estimateGas:" ++ c.label))

/-- The per-call loop of `_estimate_and_prepare_transactions`: estimates
gas (fatal in strict mode, fallback + recorded error otherwise), applies
the safety multiplier and the 21000 floor, and assigns consecutive
nonces. -/
def prepareTxLoop (env : Env) (t : RpcTarget) (signer : Signer) (gas_price_wei : Int)
    (gas_limit_multiplier : PyFloat) (fallback_gas_limit : Int) (strict_estimation : Bool)
    (chain_id : Int) : List TxCall → Int → Run (List JVal × List String)
  | [], _ => Run.pure ([], [])
  | c :: rest, next_nonce => do
    let attempt ← catchPub
      (do
        let g ← estimateGasRun env t signer c
        Run.pure (Sum.inl g))
      (fun m =>
        if strict_estimation then
          throwConfig ("Gas estimation failed for '" ++ c.label ++ "' in live mode: " ++ m)
        else Run.pure (Sum.inr m))
    let estimated_gas := match attempt with | Sum.inl g => g | Sum.inr _ => fallback_gas_limit
    let estimate_error := match attempt with | Sum.inl _ => "" | Sum.inr m => m
    let these_errors := match attempt with | Sum.inl _ => [] | Sum.inr m => [c.label ++ ": " ++ m]
    let gas_limit := max 21000 (pfCeil (pfMul (pfOfInt estimated_gas) gas_limit_multiplier))
    let unsigned_tx := JVal.jobj [("chainId", .jint chain_id), ("nonce", .jint next_nonce),
      ("to", .jstr c.toAddr), ("value", .jint c.value_wei), ("data", .jstr c.data),
      ("gas", .jint gas_limit), ("gasPrice", .jint gas_price_wei)]
    let prepared_item := JVal.jobj [("label", .jstr c.label), ("to", .jstr c.toAddr),
      ("value_wei", .jstr (toString c.value_wei)), ("estimated_gas", .jint estimated_gas),
      ("gas_limit", .jint gas_limit), ("estimate_error", .jstr estimate_error),
      ("unsigned_tx", unsigned_tx)]
    let tail ← prepareTxLoop env t signer gas_price_wei gas_limit_multiplier fallback_gas_limit strict_estimation chain_id rest (next_nonce + 1)
    Run.pure (prepared_item :: tail.1, these_errors ++ tail.2)

/-- `_estimate_and_prepare_transactions(...)`. -/
def estimate_and_prepare_transactions (env : Env) (t : RpcTarget) (signer : Signer)
    (tx_calls : List TxCall) (gas_price_wei : Int) (execution : JVal)
    (strict_estimation : Bool) : Run JVal := do
  let chainIdR ← rpc_call env t "eth_chainId" []
  let nonceR ← rpc_call env t "eth_getTransactionCount" [.jstr signer.address, .jstr "pending"]
  let chain_id ← liftE (parse_rpc_int chainIdR.1 "eth_chainId")
  let next_nonce ← liftE (parse_rpc_int nonceR.1 "eth_getTransactionCount")
  let gas_limit_multiplier ← liftE (resolve_gas_limit_multiplier execution)
  let fallback_gas_limit ← liftE (resolve_fallback_gas_limit execution)
  let loopOut ← prepareTxLoop env t signer gas_price_wei gas_limit_multiplier fallback_gas_limit strict_estimation chain_id tx_calls next_nonce
  let prepared := loopOut.1
  let estimation_errors := loopOut.2
  let total_gas_limit := (prepared.map (fun item => jvalInt (item.getD "gas_limit" .null))).sum
  let total_value_wei := (prepared.map (fun item => jvalInt ((item.getD "unsigned_tx" (.jobj [])).getD "value" .null))).sum
  let estimated_network_fee_wei := total_gas_limit * gas_price_wei
  let nonce_start ← liftE (parse_rpc_int nonceR.1 "eth_getTransactionCount")
  Run.pure (JVal.jobj [("chain_id", .jint chain_id), ("nonce_start", .jint nonce_start),
    ("gas_price_wei", .jint gas_price_wei), ("total_gas_limit", .jint total_gas_limit),
    ("total_value_wei", .jint total_value_wei),
    ("estimated_network_fee_wei", .jint estimated_network_fee_wei),
    ("estimation_errors", .jarr (estimation_errors.map (fun e => .jstr e))),
    ("transactions", .jarr prepared)])

/-- `preflight_liquidity(...)` (`agent.py` lines 1262-1310). -/
def preflight_liquidity (env : Env) (chain : String) (signer : Signer) (trade_plan : JVal)
    (t : RpcTarget) (execution : JVal) (strict_estimation : Bool) : Run JVal := do
  let built ← build_trade_transactions env t signer trade_plan execution
  let gas_price_wei ← resolve_gas_price_wei env t execution
  let prepared ← estimate_and_prepare_transactions env t signer built.1 gas_price_wei execution strict_estimation
  Run.pure (JVal.jobj [("status", .jstr "ok"), ("execution_mode", .jstr "local_rpc"),
    ("chain", .jstr chain), ("signer_mode", .jstr signer.mode),
    ("signer_address", .jstr signer.address), ("rpc_publisher", .jstr t.publisher),
    ("rpc_path", .jstr (path_label t.path)), ("strategy", built.2),
    ("chain_id", prepared.getD "chain_id" .null),
    ("nonce_start", prepared.getD "nonce_start" .null),
    ("gas_price_wei", .jstr (toString (jvalInt (prepared.getD "gas_price_wei" .null)))),
    ("estimated_network_fee_wei", .jstr (toString (jvalInt (prepared.getD "estimated_network_fee_wei" .null)))),
    ("total_value_wei", .jstr (toString (jvalInt (prepared.getD "total_value_wei" .null)))),
    ("estimation_errors", prepared.getD "estimation_errors" .null),
    ("transactions", prepared.getD "transactions" .null)])

/-- One optional balance block of `sync_positions` (the LP-token and
gauge blocks share this shape): if the address is a valid 20-byte hex
string, read its ERC-20 balance for the signer and append the two keys. -/
def syncBalancePart (env : Env) (t : RpcTarget) (signer_address token addrKey balKey : String)
    (acc : List (String × JVal)) : Run (List (String × JVal)) :=
  if hexAddressB token then do
    let balance_wei ← erc20_balance_of env t (pyLower token) signer_address
    Run.pure (acc ++ [(addrKey, JVal.jstr (pyLower token)),
                      (balKey, JVal.jstr (toString balance_wei))])
  else Run.pure acc

/-- `sync_positions(...)` (`agent.py` lines 1313-1356). -/
def sync_positions (env : Env) (signer : Signer) (t : RpcTarget) (trade_plan : JVal) :
    Run JVal := do
  let r ← rpc_call env t "eth_getBalance" [.jstr signer.address, .jstr "latest"]
  let native_balance_wei ← liftE (parse_rpc_int r.1 "eth_getBalance")
  let withLp ← syncBalancePart env t signer.address
    (pyStrip (pyStr (trade_plan.getD "lp_token_address" (.jstr ""))))
    "lp_token_address" "lp_balance_wei"
    [("status", JVal.jstr "ok"), ("address", JVal.jstr signer.address),
     ("native_balance_wei", JVal.jstr (toString native_balance_wei))]
  let withGauge ← syncBalancePart env t signer.address
    (pyStrip (pyStr (trade_plan.getD "gauge_address" (.jstr ""))))
    "gauge_address" "staked_balance_wei" withLp
  Run.pure (JVal.jobj withGauge)

/-! Signing and live execution (`agent.py` lines 1359-1447). -/

/-- `_sign_transaction(unsigned_tx, private_key_hex)`: the `eth_account`
library is the oracle (assumed installed and well-behaved, as every
claim does); the signing operation itself is the observable event. -/
def sign_transaction (env : Env) (unsigned_tx : JVal) (private_key_hex : String) :
    Run String := do
  emit (.sign unsigned_tx)
  Run.pure (env.signTx unsigned_tx private_key_hex)

/-- The `unsigned_tx` extraction loop of `execute_live_trade`
(index-carrying, for the error messages). -/
def collectUnsignedTxs : Nat → List JVal → Except Err (List JVal)
  | _, [] => .ok []
  | index, tx :: rest =>
    if ¬tx.isObj then
      .error (.configError ("preflight.transactions[" ++ toString index ++ "] must be an object."))
    else
      match tx.get "unsigned_tx" with
      | some (.jobj kvs) => do
        let tail ← collectUnsignedTxs (index + 1) rest
        .ok (.jobj kvs :: tail)
      | _ => .error (.configError
          ("preflight.transactions[" ++ toString index ++ "].unsigned_tx is missing."))

/-- The local sign-and-submit loop of `execute_live_trade`. -/
def signSubmitLoop (env : Env) (t : RpcTarget) (private_key_hex : String) :
    List JVal → Run (List String)
  | [] => Run.pure []
  | unsigned_tx :: rest => do
    let raw_tx_hex ← sign_transaction env unsigned_tx private_key_hex
    let r ← rpc_call env t "eth_sendRawTransaction" [.jstr raw_tx_hex]
    let tail ← signSubmitLoop env t private_key_hex rest
    Run.pure (pyStr r.1 :: tail)

/-- The ledger submit loop of `execute_live_trade` (pre-signed raw
transactions, index-carrying). -/
def ledgerSubmitLoop (env : Env) (t : RpcTarget) : Nat → List JVal → Run (List String)
  | _, [] => Run.pure []
  | index, raw :: rest => do
    let raw_hex ← liftE (normalize_hex_bytes (pyStr raw)
      ("ledger.signed_raw_transactions[" ++ toString index ++ "]"))
    let r ← rpc_call env t "eth_sendRawTransaction" [.jstr raw_hex]
    let tail ← ledgerSubmitLoop env t (index + 1) rest
    Run.pure (pyStr r.1 :: tail)

/-- The `preflight.get("transactions")` extraction of
`execute_live_trade`: must be a non-empty list. -/
def preflightTransactions (preflight : JVal) : Except Err (List JVal) :=
  match preflight.get "transactions" with
  | some (.jarr (tx0 :: txs)) => .ok (tx0 :: txs)
  | _ => .error (.configError "Preflight did not produce executable transactions.")

/-- `evm_execution.ledger.signed_raw_transactions` extraction. -/
def ledgerSignedRaw (ledger_cfg : JVal) : Except Err (List JVal) :=
  match ledger_cfg.getD "signed_raw_transactions" (.jarr []) with
  | .jarr l => .ok l
  | _ => .error (.configError "evm_execution.ledger.signed_raw_transactions must be an array.")

/-- `execute_live_trade(client, signer, preflight, rpc_target, execution)`. -/
def execute_live_trade (env : Env) (signer : Signer) (preflight : JVal) (t : RpcTarget)
    (execution : JVal) : Run JVal := do
  let transactions ← liftE (preflightTransactions preflight)
  let tx_payloads ← liftE (collectUnsignedTxs 0 transactions)
  if signer.mode = "local" then
    if pyStrip (signer.private_key_hex.getD "") = "" then
      throwConfig "Local signer requires private_key_hex."
    else do
      let submitted_hashes ← signSubmitLoop env t (pyStrip (signer.private_key_hex.getD "")) tx_payloads
      Run.pure (JVal.jobj [("status", .jstr "ok"), ("mode", .jstr "local_sign_and_submit"),
        ("submitted_tx_hashes", .jarr (submitted_hashes.map (fun h => .jstr h)))])
  else do
    let ledger_cfg ← liftE (subConfigOf execution "ledger"
      "evm_execution.ledger must be an object when provided.")
    let signed_raw ← liftE (ledgerSignedRaw ledger_cfg)
    if signed_raw.length ≠ tx_payloads.length then
      throwConfig "Ledger live mode requires evm_execution.ledger.signed_raw_transactions with one raw transaction per preflight transaction."
    else do
      let submitted_hashes ← ledgerSubmitLoop env t 0 signed_raw
      Run.pure (JVal.jobj [("status", .jstr "ok"),
        ("mode", .jstr "ledger_external_sign_and_submit"),
        ("submitted_tx_hashes", .jarr (submitted_hashes.map (fun h => .jstr h)))])

/-! The orchestrator (`agent.py` lines 1450-1573). -/

/-- The `dry_run` flag as `run_once` computes it. -/
def configDryRun (config : JVal) : Bool :=
  pyTruthy (config.getD "dry_run" (.jbool DEFAULT_DRY_RUN))

/-- The `inputs.live_mode` flag as `_resolve_inputs` computes it (equal
to the resolved `live_mode` whenever resolution succeeds). -/
def configLiveMode (config : JVal) : Bool :=
  pyTruthy ((inputsDict config).getD "live_mode" (.jbool false))

/-- `if not api_key: raise` with `api_key = os.environ.get("SEREN_API_KEY", "").strip()`. -/
def requireApiKey (env : Env) : Except Err Unit :=
  if pyStrip env.apiKey = "" then
    .error (.configError "SEREN_API_KEY is required in the environment.")
  else .ok ()

/-- The `rpc_target` dictionary `run_once` builds from the capability
result. -/
def rpcTargetOfCapability (rpc_capability : JVal) : RpcTarget :=
  ⟨pyStr (rpc_capability.getD "publisher" .null),
   pyStr ((rpc_capability.getD "rpc_target" (.jobj [])).getD "method" (.jstr "POST")),
   pyStr ((rpc_capability.getD "rpc_target" (.jobj [])).getD "path" (.jstr "")),
   pyStr (rpc_capability.getD "publisher_source" (.jstr "unknown"))⟩

/-- `position_sync.enabled` resolution of `run_once`. -/
def positionSyncEnabled (config : JVal) : Bool :=
  let psc := config.getD "position_sync" (.jobj [])
  if psc.isObj then pyTruthy (psc.getD "enabled" (.jbool true)) else true

/-- The position-sync stage of `run_once`: skipped when disabled; a
`PublisherError` degrades to a warning in dry-run / non-live mode, and is
fatal before a live trade. -/
def positionSyncStage (env : Env) (signer : Signer) (t : RpcTarget) (trade_plan : JVal)
    (enabled dry_run live_mode : Bool) : Run JVal :=
  if enabled then
    catchPub (sync_positions env signer t trade_plan)
      (fun m =>
        if dry_run ∨ ¬live_mode then
          Run.pure (JVal.jobj [("status", .jstr "warning"), ("error", .jstr m)])
        else throwConfig ("Position sync failed before live trade: " ++ m))
  else Run.pure (JVal.jobj [("status", .jstr "skipped")])

/-- The terminal dry-run report of `run_once`. -/
def dryRunResult (inputs : ResolvedInputs) (signer : Signer)
    (rpc_capability position_sync trade_plan preflight : JVal) : JVal :=
  .jobj [("status", .jstr "ok"), ("mode", .jstr "dry-run"),
    ("warning", .jstr "No live transaction submitted. Set inputs.live_mode=true and pass --yes-live only after wallet funding and signer checks."),
    ("chain", .jstr inputs.chain), ("signer_mode", .jstr signer.mode),
    ("signer_address", .jstr signer.address), ("rpc_capability", rpc_capability),
    ("position_sync", position_sync), ("trade_plan", trade_plan),
    ("preflight", preflight)]

/-- The terminal live report of `run_once`. -/
def liveRunResult (inputs : ResolvedInputs) (signer : Signer)
    (rpc_capability position_sync trade_plan preflight live_execution : JVal) : JVal :=
  .jobj [("status", .jstr "ok"), ("mode", .jstr "live"),
    ("chain", .jstr inputs.chain), ("signer_mode", .jstr signer.mode),
    ("signer_address", .jstr signer.address), ("rpc_capability", rpc_capability),
    ("position_sync", position_sync), ("trade_plan", trade_plan),
    ("preflight", preflight), ("live_execution", live_execution)]

/-- `run_once(config, yes_live, ledger_address)`.  The base-URL choice
(`config.api.base_url` / `SEREN_API_BASE_URL`) only selects the HTTP
endpoint inside `Env.respond` and is not modelled separately. -/
def run_once (env : Env) (config : JVal) (yes_live : Bool) (ledger_address : String) :
    Run JVal := do
  let _ ← liftE (requireApiKey env)
  let inputs ← liftE (resolve_inputs config)
  let wallet_config ← liftE (subConfigOf config "wallet"
    "Config field 'wallet' must be an object when provided.")
  let signer ← liftE (resolve_signer env inputs.wallet_mode
    (pyStr (wallet_config.getD "path" (.jstr DEFAULT_WALLET_PATH)))
    (if ledger_address ≠ "" then ledger_address
     else pyStr (wallet_config.getD "ledger_address" (.jstr ""))))
  let execution ← liftE (resolve_evm_execution config)
  let rpc_capability ← check_rpc_capability env inputs.chain config
  let gauges_response ← fetch_top_gauges env inputs.chain inputs.top_n_gauges
  let trade_plan ← liftE (choose_trade_plan gauges_response inputs.deposit_token inputs.deposit_amount_usd)
  let position_sync ← positionSyncStage env signer (rpcTargetOfCapability rpc_capability)
    trade_plan (positionSyncEnabled config) (configDryRun config) inputs.live_mode
  let preflight ← preflight_liquidity env inputs.chain signer trade_plan
    (rpcTargetOfCapability rpc_capability) execution
    (inputs.live_mode ∧ ¬configDryRun config ∧ yes_live)
  if configDryRun config ∨ ¬inputs.live_mode then
    Run.pure (dryRunResult inputs signer rpc_capability position_sync trade_plan preflight)
  else if ¬yes_live then
    throwConfig "Live mode requested but --yes-live was not provided. Dry-run is the safe default."
  else do
    let live_execution ← execute_live_trade env signer preflight
      (rpcTargetOfCapability rpc_capability) execution
    Run.pure (liveRunResult inputs signer rpc_capability position_sync trade_plan preflight live_execution)

/-! ### Concrete instances used by witnesses and counterexamples -/

/-- A fully offline oracle: every request fails, no wallet file. -/
def offlineEnv : Env :=
  ⟨fun _ _ _ => .error "offline", fun _ _ => "", fun _ _ _ => "", none, "k"⟩

def addrA : String := "0xaaaaaaaaaaaaaaaaaaaaaaaaaaaaaaaaaaaaaaaa"

def addrB : String := "0xbbbbbbbbbbbbbbbbbbbbbbbbbbbbbbbbbbbbbbbb"

def addrC : String := "0xcccccccccccccccccccccccccccccccccccccccc"

/-- A JSON-RPC success payload. -/
def rpcResult (s : String) : JVal := .jobj [("result", .jstr s)]

/-- A small gauge catalog: one ethereum gauge with a valid address. -/
def gaugePayload : JVal :=
  .jobj [("data", .jobj [("g1", .jobj
    [("blockchainId", .jstr "ethereum"), ("gauge", .jstr addrB),
     ("swap_token", .jstr addrC), ("gaugeCrvApy", .jarr [.jint 1, .jint 2]),
     ("lpTokenPrice", .jint 2)])])]

/-- A deterministic gateway: a `my-rpc` JSON-RPC publisher answering every
standard method, and the curve gauge listing. -/
def happyRespond (_method path : String) (body : JVal) : Except String JVal :=
  if path = "/publishers/curve-finance/getGauges" then .ok gaugePayload
  else if path = "/publishers/my-rpc" then
    match body.get "method" with
    | some (.jstr "eth_chainId") => .ok (rpcResult "0x1")
    | some (.jstr "eth_getTransactionCount") => .ok (rpcResult "0x5")
    | some (.jstr "eth_call") => .ok (rpcResult "0x0")
    | some (.jstr "eth_getBalance") => .ok (rpcResult "0x10")
    | some (.jstr "eth_estimateGas") => .ok (rpcResult "0x5208")
    | _ => .ok (rpcResult "0x0")
  else .error "not found"

/-- A live-capable environment: the happy gateway plus a local wallet. -/
def happyEnv : Env :=
  ⟨happyRespond, fun _ _ => "0xsigned", fun _ _ _ => "0xdata",
   some (.jobj [("address", .jstr addrA), ("private_key_hex", .jstr "0xkey")]), "k"⟩

/-- A live-mode configuration (`live_mode=true`, `dry_run=false`) with an
explicit RPC override, an explicit LP amount and an explicit gas price. -/
def liveConfig : JVal :=
  .jobj [("inputs", .jobj [("chain", .jstr "ethereum"), ("live_mode", .jbool true),
           ("top_n_gauges", .jint 1)]),
         ("dry_run", .jbool false),
         ("rpc_publishers", .jobj [("ethereum", .jstr "my-rpc")]),
         ("evm_execution", .jobj [("gauge_stake_lp", .jobj [("lp_amount_wei", .jstr "1000")]),
           ("tx", .jobj [("gas_price_wei", .jint 1000000000)])])]

/-- Like `happyRespond`, but `eth_estimateGas` fails at the transport
level. -/
def estimateFailRespond (_method path : String) (body : JVal) : Except String JVal :=
  if path = "/publishers/curve-finance/getGauges" then .ok gaugePayload
  else if path = "/publishers/my-rpc" then
    match body.get "method" with
    | some (.jstr "eth_chainId") => .ok (rpcResult "0x1")
    | some (.jstr "eth_getTransactionCount") => .ok (rpcResult "0x5")
    | some (.jstr "eth_call") => .ok (rpcResult "0x0")
    | some (.jstr "eth_getBalance") => .ok (rpcResult "0x10")
    | some (.jstr "eth_estimateGas") => .error "boom"
    | _ => .ok (rpcResult "0x0")
  else .error "not found"

/-- `happyEnv` with failing gas estimation. -/
def estimateFailEnv : Env :=
  ⟨estimateFailRespond, fun _ _ => "0xsigned", fun _ _ _ => "0xdata",
   some (.jobj [("address", .jstr addrA), ("private_key_hex", .jstr "0xkey")]), "k"⟩

/-- The single deposit call used by the estimation witness. -/
def wDeposit : TxCall := ⟨"deposit_to_gauge", addrB, 0, "0x"⟩

/-- `liveConfig` with `dry_run` switched back on. -/
def dryConfig : JVal := liveConfig.set "dry_run" (.jbool true)

/-- A resolved RPC target for direct stage-level witnesses. -/
def wTarget : RpcTarget := ⟨"my-rpc", "POST", "", "config.rpc_publishers"⟩

/-- A local signer for direct stage-level witnesses. -/
def wSigner : Signer := ⟨"local", addrA, some "0xkey"⟩

/-- A two-call batch for the nonce witness. -/
def wCalls : List TxCall := [⟨"a", addrB, 0, "0x"⟩, ⟨"b", addrB, 0, "0x"⟩]

/-- A full Ethereum catalog entry whose swap_token address is malformed. -/
def c6alpha : String × JVal :=
  ("alpha", .jobj [("blockchainId", .jstr "ethereum"), ("gauge", .jstr addrB),
                   ("swap_token", .jstr "not-hex"),
                   ("gaugeFutureCrvApy", .jnum ⟨3, 1⟩),
                   ("gaugeCrvApy", .jarr [.jnum ⟨5, 1⟩, .jnum ⟨7, 2⟩]),
                   ("poolAddress", .jstr addrC), ("lpTokenPrice", .jint 2)])

/-- A small gauge catalog: one full Ethereum entry, one non-object entry,
one entry on the wrong chain, one entry needing lower/strip on its chain id. -/
def c6data : List (String × JVal) :=
  [c6alpha,
   ("skip", .jstr "not-an-object"),
   ("beta", .jobj [("blockchainId", .jstr "polygon"), ("gauge", .jstr addrB)]),
   ("gamma", .jobj [("blockchainId", .jstr " Ethereum "), ("gauge", .jstr addrA),
                    ("gaugeCrvApy", .jint 9)])]


/-- Two active Ethereum RPC publishers with equal discovery scores and
different slugs (tie broken towards the smaller slug). -/
def c8pubs : List JVal :=
  [.jobj [("slug", .jstr "zrpc"), ("name", .jstr "Z Ethereum RPC"),
          ("is_active", .jbool true), ("categories", .jarr [.jstr "rpc"]),
          ("description", .jstr "ethereum json-rpc node")],
   .jobj [("slug", .jstr "arpc"), ("name", .jstr "A Ethereum RPC"),
          ("is_active", .jbool true), ("categories", .jarr [.jstr "rpc"]),
          ("description", .jstr "ethereum json-rpc node")]]

/-- An environment whose catalog is exactly `c8pubs`. -/
def c8env : Env :=
  ⟨fun _ path _ =>
     if path = "/publishers?limit=100&offset=0" then .ok (.jobj [("data", .jarr c8pubs)])
     else .error "not found",
   fun _ _ => "0xsigned", fun _ _ _ => "0xdata", none, "k"⟩

/-- An execution config with a configured positive gas price. -/
def c9exec : JVal := .jobj [("tx", .jobj [("gas_price_wei", .jint 1000000000)])]

/-- A gateway envelope with a 2xx status. -/
def c7ok : JVal := .jobj [("status", .jint 200), ("body", .jobj [("v", .jint 1)])]

/-- A gateway envelope with a failing status. -/
def c7bad : JVal := .jobj [("status", .jint 502), ("body", .jstr "bad gateway")]

/-- A payload that is not a gateway envelope (no integer status with body). -/
def c7plain : JVal := .jobj [("data", .jint 1)]

/-- The value `fetch_top_gauges` computes from `c6data` for chain
`ethereum` with limit 2. -/
def c6result : JVal :=
  match topGaugesFrom "ethereum" 2 c6data with
  | .ok r => r
  | .error _ => .null

/-! ### Proof infrastructure for the `Run` monad -/

theorem bind_eq_runBind (x : Run α) (f : α → Run β) : x >>= f = Run.bind x f := rfl

theorem pure_eq_runPure (a : α) : (pure a : Run α) = Run.pure a := rfl

theorem Run.bind_res_ok {x : Run α} {f : α → Run β} {b : β} :
    (Run.bind x f).res = .ok b ↔ ∃ a, x.res = .ok a ∧ (f a).res = .ok b := by
  unfold Run.bind
  cases hx : x.res with
  | error e => simp [hx]
  | ok a => simp [hx]

theorem Run.bind_trace_mem {x : Run α} {f : α → Run β} {e : Event} :
    e ∈ (Run.bind x f).trace ↔ e ∈ x.trace ∨ ∃ a, x.res = .ok a ∧ e ∈ (f a).trace := by
  unfold Run.bind
  cases hx : x.res with
  | error er => simp [hx]
  | ok a => simp [hx]

/-- The events a run never performs in any pre-gate stage: no signing,
no JSON-RPC submission issued through `_rpc_call`. -/
def Benign (e : Event) : Prop :=
  match e with
  | .sign _ => False
  | .rpc m _ => m ≠ "eth_sendRawTransaction"
  | .req _ _ _ => True

/-- Every event of the run is benign. -/
def BenignRun (x : Run α) : Prop := ∀ e ∈ x.trace, Benign e

theorem benign_runPure (a : α) : BenignRun (Run.pure a) := by
  intro e he; simp [Run.pure] at he

theorem benign_pure (a : α) : BenignRun (pure a : Run α) := benign_runPure a

theorem benign_throwConfig (m : String) : BenignRun (throwConfig m : Run α) := by
  intro e he; simp [throwConfig] at he

theorem benign_throwPub (m : String) : BenignRun (throwPub m : Run α) := by
  intro e he; simp [throwPub] at he

theorem benign_liftE (x : Except Err α) : BenignRun (liftE x) := by
  intro e he; simp [liftE] at he

theorem benign_emit {e₀ : Event} (h : Benign e₀) : BenignRun (emit e₀) := by
  intro e he; simp [emit] at he; simpa [he]

theorem benign_bind {x : Run α} {f : α → Run β}
    (hx : BenignRun x) (hf : ∀ a, BenignRun (f a)) : BenignRun (x >>= f) := by
  intro e he
  rw [bind_eq_runBind] at he
  rcases Run.bind_trace_mem.mp he with h | ⟨a, _, h⟩
  · exact hx e h
  · exact hf a e h

theorem benign_catchPub {x : Run α} {h : String → Run α}
    (hx : BenignRun x) (hh : ∀ m, BenignRun (h m)) : BenignRun (catchPub x h) := by
  intro e he
  unfold catchPub at he
  cases hr : x.res with
  | error er =>
    cases er with
    | configError m => rw [hr] at he; exact hx e he
    | publisherError m =>
      rw [hr] at he
      simp only [List.mem_append] at he
      rcases he with h1 | h2
      · exact hx e h1
      · exact hh m e h2
    | pyError m => rw [hr] at he; exact hx e he
  | ok a => rw [hr] at he; exact hx e he

theorem benign_clientRequest (env : Env) (method path : String) (body : JVal) :
    BenignRun (clientRequest env method path body) := by
  unfold clientRequest
  refine benign_bind (benign_emit trivial) ?_
  intro _
  cases env.respond (pyUpper method) (if pyStartsWith path "/" then path else "/" ++ path) body with
  | error m => exact benign_throwPub m
  | ok parsed =>
    by_cases hp : parsed.isObj = true
    · simp only [hp, if_pos]; exact benign_runPure parsed
    · simp only [hp]; simp only [Bool.false_eq_true, if_false]; exact benign_throwPub _

theorem benign_clientCall (env : Env) (publisher method path : String) (body : JVal) :
    BenignRun (clientCall env publisher method path body) := by
  unfold clientCall
  exact benign_catchPub (benign_clientRequest env method _ body) (fun m => benign_throwPub _)

theorem benign_listPublishersLoop (env : Env) (limit : Int) (fuel : Nat) (offset : Int)
    (acc : List JVal) : BenignRun (listPublishersLoop env limit fuel offset acc) := by
  induction fuel generalizing offset acc with
  | zero => exact benign_runPure acc
  | succ n ih =>
    unfold listPublishersLoop
    refine benign_bind (benign_clientRequest env _ _ _) ?_
    intro payload
    cases payload.get "data" with
    | none => exact benign_throwPub _
    | some v =>
      cases v with
      | jarr data =>
        simp only
        split
        all_goals try split
        all_goals first
          | exact benign_runPure _
          | exact ih _ _
      | null => exact benign_throwPub _
      | jbool b => exact benign_throwPub _
      | jint n' => exact benign_throwPub _
      | jnum q => exact benign_throwPub _
      | jstr s => exact benign_throwPub _
      | jobj kvs => exact benign_throwPub _

theorem benign_list_publishers (env : Env) : BenignRun (list_publishers env) :=
  benign_listPublishersLoop env 100 5 0 []

theorem benign_rpc_call (env : Env) (t : RpcTarget) {name : String} (params : List JVal)
    (h : name ≠ "eth_sendRawTransaction") : BenignRun (rpc_call env t name params) := by
  unfold rpc_call
  refine benign_bind (benign_emit h) ?_
  intro _
  refine benign_bind (benign_clientCall env _ _ _ _) ?_
  intro payload
  refine benign_bind (benign_liftE _) ?_
  intro unwrapped
  split
  · exact benign_throwPub _
  · split
    · exact benign_throwPub _
    · split
      · exact benign_throwPub _
      · exact benign_runPure _

theorem benign_discovered (env : Env) : BenignRun (discovered_rpc_publishers env) := by
  unfold discovered_rpc_publishers
  exact benign_bind (benign_list_publishers env) (fun _ => benign_runPure _)

theorem benign_publisher_for_chain (env : Env) (chain : String) (config : JVal) :
    BenignRun (rpc_publisher_for_chain env chain config) := by
  unfold rpc_publisher_for_chain
  refine benign_bind (benign_liftE _) ?_
  intro overrides
  cases slookup overrides chain with
  | some slug => exact benign_runPure _
  | none =>
    refine benign_bind (benign_discovered env) ?_
    intro discovered
    cases slookup discovered chain with
    | some publisher => exact benign_runPure _
    | none => exact benign_throwConfig _

theorem benign_probeAttempt (env : Env) (publisher : String) (required : Bool)
    (connector_alias publisher_source : String) (probe : Probe) :
    BenignRun (probeAttempt env publisher required connector_alias publisher_source probe) := by
  unfold probeAttempt
  refine benign_catchPub ?_ (fun m => benign_runPure _)
  refine benign_bind (benign_clientCall env _ _ _ _) ?_
  intro payload
  refine benign_bind (benign_liftE _) ?_
  intro unwrapped
  split
  · split
    · exact benign_throwPub _
    · split
      · exact benign_throwPub _
      · split
        · exact benign_throwPub _
        · exact benign_runPure _
  · exact benign_runPure _

theorem benign_probeRunLoop (env : Env) (chain publisher : String) (required : Bool)
    (connector_alias publisher_source : String) (allProbes probes : List Probe)
    (errors : List String) :
    BenignRun (probeRunLoop env chain publisher required connector_alias publisher_source
      allProbes probes errors) := by
  induction probes generalizing errors with
  | nil =>
    unfold probeRunLoop
    split
    all_goals split
    all_goals first
      | exact benign_throwConfig _
      | exact benign_runPure _
  | cons probe rest ih =>
    unfold probeRunLoop
    refine benign_bind (benign_probeAttempt env publisher required _ _ probe) ?_
    intro attempt
    match attempt with
    | Sum.inl (some okDict) => exact benign_runPure _
    | Sum.inl none => exact ih _
    | Sum.inr m => exact ih _

theorem benign_check_rpc_capability (env : Env) (chain : String) (config : JVal) :
    BenignRun (check_rpc_capability env chain config) := by
  unfold check_rpc_capability
  refine benign_bind (benign_liftE _) ?_
  intro rc
  refine benign_bind (benign_publisher_for_chain env chain config) ?_
  intro ps
  exact benign_probeRunLoop env chain ps.1 rc.1 _ ps.2 rc.2 rc.2 []

theorem benign_fetchGaugeData (env : Env) : BenignRun (fetchGaugeData env) := by
  unfold fetchGaugeData
  refine benign_bind (benign_clientCall env _ _ _ _) ?_
  intro payload
  refine benign_bind (benign_liftE _) ?_
  intro body
  split
  · exact benign_throwPub _
  · split
    · exact benign_runPure _
    · exact benign_throwPub _

theorem benign_fetch_top_gauges (env : Env) (chain : String) (limit : Int) :
    BenignRun (fetch_top_gauges env chain limit) := by
  unfold fetch_top_gauges
  exact benign_bind (benign_fetchGaugeData env) (fun _ => benign_liftE _)

theorem benign_erc20_allowance (env : Env) (t : RpcTarget) (a b c : String) :
    BenignRun (erc20_allowance env t a b c) := by
  unfold erc20_allowance
  refine benign_bind (benign_rpc_call env t _ (by decide)) ?_
  intro _; exact benign_liftE _

theorem benign_erc20_balance_of (env : Env) (t : RpcTarget) (a b : String) :
    BenignRun (erc20_balance_of env t a b) := by
  unfold erc20_balance_of
  refine benign_bind (benign_rpc_call env t _ (by decide)) ?_
  intro _; exact benign_liftE _

theorem benign_build_gauge_stake_lp (env : Env) (t : RpcTarget) (signer : Signer)
    (trade_plan execution : JVal) :
    BenignRun (build_gauge_stake_lp_transactions env t signer trade_plan execution) := by
  unfold build_gauge_stake_lp_transactions
  refine benign_bind (benign_liftE _) ?_
  intro stake_cfg
  refine benign_bind (benign_liftE _) ?_
  intro gauge
  refine benign_bind (benign_liftE _) ?_
  intro lp_token
  refine benign_bind (benign_liftE _) ?_
  intro lp_amount_wei
  refine benign_bind (benign_erc20_allowance env t _ _ _) ?_
  intro allowance_wei
  exact benign_runPure _

theorem benign_build_trade_transactions (env : Env) (t : RpcTarget) (signer : Signer)
    (trade_plan execution : JVal) :
    BenignRun (build_trade_transactions env t signer trade_plan execution) := by
  unfold build_trade_transactions
  split
  · exact benign_liftE _
  · exact benign_build_gauge_stake_lp env t signer trade_plan execution

theorem benign_resolve_gas_price_wei (env : Env) (t : RpcTarget) (execution : JVal) :
    BenignRun (resolve_gas_price_wei env t execution) := by
  unfold resolve_gas_price_wei
  refine benign_bind (benign_liftE _) ?_
  intro tx_cfg
  split
  · exact benign_liftE _
  · refine benign_bind (benign_rpc_call env t _ (by decide)) ?_
    intro r
    refine benign_bind (benign_liftE _) ?_
    intro base
    split
    · exact benign_throwConfig _
    · exact benign_runPure _

theorem benign_prepareTxLoop (env : Env) (t : RpcTarget) (signer : Signer)
    (gas_price_wei : Int) (mult : PyFloat) (fallback : Int) (strict : Bool) (chain_id : Int)
    (calls : List TxCall) (nonce : Int) :
    BenignRun (prepareTxLoop env t signer gas_price_wei mult fallback strict chain_id calls nonce) := by
  induction calls generalizing nonce with
  | nil => exact benign_runPure _
  | cons c rest ih =>
    unfold prepareTxLoop
    refine benign_bind ?_ ?_
    · refine benign_catchPub ?_ ?_
      · refine benign_bind ?_ (fun _ => benign_runPure _)
        refine benign_bind (benign_rpc_call env t _ (by decide)) ?_
        intro r
        exact benign_liftE _
      · intro m
        split
        · exact benign_throwConfig _
        · exact benign_runPure _
    · intro attempt
      exact benign_bind (ih _) (fun _ => benign_runPure _)

theorem benign_estimate_and_prepare (env : Env) (t : RpcTarget) (signer : Signer)
    (tx_calls : List TxCall) (gas_price_wei : Int) (execution : JVal) (strict : Bool) :
    BenignRun (estimate_and_prepare_transactions env t signer tx_calls gas_price_wei execution strict) := by
  unfold estimate_and_prepare_transactions
  refine benign_bind (benign_rpc_call env t _ (by decide)) ?_
  intro chainIdR
  refine benign_bind (benign_rpc_call env t _ (by decide)) ?_
  intro nonceR
  refine benign_bind (benign_liftE _) ?_
  intro chain_id
  refine benign_bind (benign_liftE _) ?_
  intro next_nonce
  refine benign_bind (benign_liftE _) ?_
  intro mult
  refine benign_bind (benign_liftE _) ?_
  intro fallback
  refine benign_bind (benign_prepareTxLoop env t signer _ _ _ _ _ _ _) ?_
  intro loopOut
  refine benign_bind (benign_liftE _) ?_
  intro nonce_start
  exact benign_runPure _

theorem benign_preflight_liquidity (env : Env) (chain : String) (signer : Signer)
    (trade_plan : JVal) (t : RpcTarget) (execution : JVal) (strict : Bool) :
    BenignRun (preflight_liquidity env chain signer trade_plan t execution strict) := by
  unfold preflight_liquidity
  refine benign_bind (benign_build_trade_transactions env t signer trade_plan execution) ?_
  intro built
  refine benign_bind (benign_resolve_gas_price_wei env t execution) ?_
  intro gas_price_wei
  refine benign_bind (benign_estimate_and_prepare env t signer _ _ _ _) ?_
  intro prepared
  exact benign_runPure _

theorem benign_syncBalancePart (env : Env) (t : RpcTarget) (a b c d : String)
    (acc : List (String × JVal)) : BenignRun (syncBalancePart env t a b c d acc) := by
  unfold syncBalancePart
  split
  · exact benign_bind (benign_erc20_balance_of env t _ _) (fun _ => benign_runPure _)
  · exact benign_runPure _

theorem benign_sync_positions (env : Env) (signer : Signer) (t : RpcTarget)
    (trade_plan : JVal) : BenignRun (sync_positions env signer t trade_plan) := by
  unfold sync_positions
  refine benign_bind (benign_rpc_call env t _ (by decide)) ?_
  intro r
  refine benign_bind (benign_liftE _) ?_
  intro native
  refine benign_bind (benign_syncBalancePart env t _ _ _ _ _) ?_
  intro withLp
  refine benign_bind (benign_syncBalancePart env t _ _ _ _ _) ?_
  intro withGauge
  exact benign_runPure _

/-- `benign_bind` with the bound result available as a hypothesis. -/
theorem benign_bind_ok {x : Run α} {f : α → Run β}
    (hx : BenignRun x) (hf : ∀ a, x.res = .ok a → BenignRun (f a)) : BenignRun (x >>= f) := by
  intro e he
  rw [bind_eq_runBind] at he
  rcases Run.bind_trace_mem.mp he with h | ⟨a, ha, h⟩
  · exact hx e h
  · exact hf a ha e h

theorem benign_positionSyncStage (env : Env) (signer : Signer) (t : RpcTarget)
    (trade_plan : JVal) (enabled dry_run live_mode : Bool) :
    BenignRun (positionSyncStage env signer t trade_plan enabled dry_run live_mode) := by
  unfold positionSyncStage
  split
  · refine benign_catchPub (benign_sync_positions env signer t trade_plan) ?_
    intro m
    split
    · exact benign_runPure _
    · exact benign_throwConfig _
  · exact benign_runPure _

/-- Successful input resolution reproduces the config-level `live_mode`
flag. -/
theorem resolve_inputs_live_mode {config : JVal} {inp : ResolvedInputs}
    (h : resolve_inputs config = .ok inp) : inp.live_mode = configLiveMode config := by
  unfold resolve_inputs at h
  split at h
  · exact absurd h (by simp)
  · split at h
    · exact absurd h (by simp)
    · split at h
      · exact absurd h (by simp)
      · split at h
        · exact absurd h (by simp)
        · split at h
          · exact absurd h (by simp)
          · split at h
            · exact absurd h (by simp)
            · split at h
              · exact absurd h (by simp)
              · rw [show inp = _ from (Except.ok.inj h).symm]
                rfl

/-- When `dry_run` is set, or `inputs.live_mode` is off, or `--yes-live`
was not passed, a run signs nothing and issues no `eth_sendRawTransaction`
through `_rpc_call`. -/
theorem benign_run_once (env : Env) (config : JVal) (yes_live : Bool)
    (ledger_address : String)
    (h : configDryRun config = true ∨ configLiveMode config = false ∨ yes_live = false) :
    BenignRun (run_once env config yes_live ledger_address) := by
  unfold run_once
  refine benign_bind (benign_liftE _) ?_
  intro _
  refine benign_bind_ok (benign_liftE _) ?_
  intro inputs hinputs
  simp only [liftE] at hinputs
  have hlive : inputs.live_mode = configLiveMode config := resolve_inputs_live_mode hinputs
  refine benign_bind (benign_liftE _) ?_
  intro wallet_config
  refine benign_bind (benign_liftE _) ?_
  intro signer
  refine benign_bind (benign_liftE _) ?_
  intro execution
  refine benign_bind (benign_check_rpc_capability env _ config) ?_
  intro rpc_capability
  refine benign_bind (benign_fetch_top_gauges env _ _) ?_
  intro gauges_response
  refine benign_bind (benign_liftE _) ?_
  intro trade_plan
  refine benign_bind (benign_positionSyncStage env signer _ trade_plan _ _ _) ?_
  intro position_sync
  refine benign_bind (benign_preflight_liquidity env _ signer trade_plan _ execution _) ?_
  intro preflight
  split
  · exact benign_runPure _
  · split
    · exact benign_throwConfig _
    · rename_i hnotdry hnotyes
      exfalso
      rcases h with hd | hl | hy
      · exact hnotdry (Or.inl hd)
      · exact hnotdry (Or.inr (by simp [hlive, hl]))
      · exact hnotyes (by simp [hy])

theorem run_pure_res (a : α) : (Run.pure a).res = .ok a := rfl

theorem throwConfig_res (m : String) : (throwConfig m : Run α).res = .error (.configError m) := rfl

theorem throwPub_res (m : String) : (throwPub m : Run α).res = .error (.publisherError m) := rfl

theorem catchPub_res_err {x : Run α} {h : String → Run α} {e : Err}
    (he : (catchPub x h).res = .error e) :
    x.res = .error e ∨ ∃ m, x.res = .error (.publisherError m) ∧ (h m).res = .error e := by
  unfold catchPub at he
  split at he
  · rename_i m hm
    exact Or.inr ⟨m, hm, he⟩
  · exact Or.inl he

/-- Full characterization of a successful `run_once` terminal value: it
is the dry-run report exactly when `dry_run` is set or `live_mode` is
off, and the live report only when `live_mode` is on, `dry_run` is off
and `--yes-live` was passed. -/
theorem run_once_final {env : Env} {config : JVal} {yes_live : Bool} {ledger_address : String}
    {v : JVal} (hok : (run_once env config yes_live ledger_address).res = .ok v) :
    ∃ inputs signer rpc_capability position_sync trade_plan preflight,
      resolve_inputs config = .ok inputs ∧
      ((configDryRun config = true ∨ inputs.live_mode = false) ∧
        v = dryRunResult inputs signer rpc_capability position_sync trade_plan preflight ∨
       configDryRun config = false ∧ inputs.live_mode = true ∧ yes_live = true ∧
        ∃ live_execution,
          v = liveRunResult inputs signer rpc_capability position_sync trade_plan preflight live_execution) := by
  unfold run_once at hok
  simp only [bind_eq_runBind, Run.bind_res_ok, liftE] at hok
  obtain ⟨u, hu, inputs, hinputs, wallet_config, hwc, signer, hsigner, execution, hexec,
    rpc_capability, hrc, gauges_response, hgr, trade_plan, htp, position_sync, hps,
    preflight, hpf, hfinal⟩ := hok
  refine ⟨inputs, signer, rpc_capability, position_sync, trade_plan, preflight, hinputs, ?_⟩
  by_cases hc : configDryRun config = true ∨ ¬inputs.live_mode = true
  · rw [if_pos hc] at hfinal
    rw [run_pure_res] at hfinal
    refine Or.inl ⟨?_, (Except.ok.inj hfinal).symm⟩
    rcases hc with h | h
    · exact Or.inl h
    · exact Or.inr (by simpa using h)
  · rw [if_neg hc] at hfinal
    push_neg at hc
    by_cases hy : ¬yes_live = true
    · rw [if_pos hy] at hfinal
      rw [throwConfig_res] at hfinal
      exact absurd hfinal (by simp)
    · rw [if_neg hy] at hfinal
      simp only [bind_eq_runBind, Run.bind_res_ok] at hfinal
      obtain ⟨live_execution, hle, hv⟩ := hfinal
      rw [run_pure_res] at hv
      refine Or.inr ⟨by simpa using hc.1, hc.2, by simpa using hy,
        live_execution, (Except.ok.inj hv).symm⟩

theorem dryRunResult_mode (inputs : ResolvedInputs) (signer : Signer)
    (a b c d : JVal) : (dryRunResult inputs signer a b c d).get "mode" = some (.jstr "dry-run") := rfl

theorem dryRunResult_no_submitted (inputs : ResolvedInputs) (signer : Signer)
    (a b c d : JVal) : (dryRunResult inputs signer a b c d).hasKey "submitted_tx_hashes" = false := by
  rfl

/-- C1: for every configuration and oracle, when `dry_run` is true or
`inputs.live_mode` is false, `run_once` signs nothing and issues no
`eth_sendRawTransaction` through `_rpc_call` (`execute_live_trade` is
never reached), and a successful result is the dry-run report: its
`mode` is `"dry-run"` and it carries no `submitted_tx_hashes` key;
moreover whenever the three-way conjunction `live_mode ∧ ¬dry_run ∧
--yes-live` fails, no signing or submission happens at all. -/
theorem c1_dry_run_guard (env : Env) (config : JVal) (yes_live : Bool)
    (ledger_address : String) :
    (configDryRun config = true ∨ configLiveMode config = false →
      BenignRun (run_once env config yes_live ledger_address) ∧
      ∀ v, (run_once env config yes_live ledger_address).res = .ok v →
        v.get "mode" = some (.jstr "dry-run") ∧ v.hasKey "submitted_tx_hashes" = false) ∧
    (¬(configLiveMode config = true ∧ configDryRun config = false ∧ yes_live = true) →
      BenignRun (run_once env config yes_live ledger_address)) := by
  constructor
  · intro h
    refine ⟨benign_run_once env config yes_live ledger_address (h.imp id Or.inl), ?_⟩
    intro v hok
    obtain ⟨inputs, signer, rc, ps, tp, pf, hinputs, hcase⟩ := run_once_final hok
    rcases hcase with ⟨_, hv⟩ | ⟨hd, hl, _, _⟩
    · rw [hv]
      exact ⟨dryRunResult_mode inputs signer rc ps tp pf,
             dryRunResult_no_submitted inputs signer rc ps tp pf⟩
    · exfalso
      rcases h with h | h
      · rw [h] at hd; exact absurd hd (by simp)
      · rw [resolve_inputs_live_mode hinputs, h] at hl; exact absurd hl (by simp)
  · intro h
    apply benign_run_once
    by_cases h1 : configDryRun config = true
    · exact Or.inl h1
    · by_cases h2 : configLiveMode config = true
      · refine Or.inr (Or.inr ?_)
        cases yes_live with
        | false => rfl
        | true => exact absurd ⟨h2, by simpa using h1, rfl⟩ h
      · exact Or.inr (Or.inl (by simpa using h2))

/-- Witness for C1 at a concrete environment and configuration
(`dry_run=true` with a live-capable oracle, and the empty config whose
defaults are dry). -/
theorem c1_dry_run_guard_witness :
    (BenignRun (run_once happyEnv dryConfig false "") ∧
      ∀ v, (run_once happyEnv dryConfig false "").res = .ok v →
        v.get "mode" = some (.jstr "dry-run") ∧ v.hasKey "submitted_tx_hashes" = false) ∧
    BenignRun (run_once offlineEnv (JVal.jobj []) false "") :=
  ⟨(c1_dry_run_guard happyEnv dryConfig false "").1 (Or.inl rfl),
   (c1_dry_run_guard offlineEnv (JVal.jobj []) false "").2 (by decide)⟩

/-- C2 (counterexample): at a concrete live-capable oracle and a
configuration with `live_mode=true`, `dry_run=false` and `--yes-live`
absent, `run_once` does not terminate in a dry-run report carrying a
`blocked_action: execution_handoff` marker: it raises `ConfigError`
("Live mode requested but --yes-live was not provided. ..."), so the
process reports `status: error` and exits 1. -/
theorem c2_counterexample :
    (run_once happyEnv liveConfig false "").res =
      .error (.configError
        "Live mode requested but --yes-live was not provided. Dry-run is the safe default.") := rfl

/-- C2 (amended): with `inputs.live_mode = true`, `dry_run = false` and
`--yes-live` absent, the run performs no signing or submission, and never
terminates successfully: every terminal outcome is an error (when all
prior stages succeed, the `ConfigError` of the `--yes-live` gate, as the
counterexample pins down). -/
theorem c2_unconfirmed_live_raises (env : Env) (config : JVal) (ledger_address : String)
    (hl : configLiveMode config = true) (hd : configDryRun config = false) :
    BenignRun (run_once env config false ledger_address) ∧
    ∃ e, (run_once env config false ledger_address).res = .error e := by
  refine ⟨benign_run_once env config false ledger_address (Or.inr (Or.inr rfl)), ?_⟩
  cases hres : (run_once env config false ledger_address).res with
  | error e => exact ⟨e, rfl⟩
  | ok v =>
    exfalso
    obtain ⟨inputs, signer, rc, ps, tp, pf, hinputs, hcase⟩ := run_once_final hres
    rcases hcase with ⟨hor, _⟩ | ⟨_, _, hy, _⟩
    · rcases hor with h | h
      · rw [hd] at h; exact absurd h (by simp)
      · rw [resolve_inputs_live_mode hinputs, hl] at h; exact absurd h (by simp)
    · exact absurd hy (by simp)

/-- Witness for the amended C2 at the concrete live configuration. -/
theorem c2_unconfirmed_live_raises_witness :
    BenignRun (run_once happyEnv liveConfig false "") ∧
    ∃ e, (run_once happyEnv liveConfig false "").res = .error e :=
  c2_unconfirmed_live_raises happyEnv liveConfig "" rfl rfl

/-! ### Nonce assignment (C3) -/

theorem Run.bind_trace_ok {x : Run α} {f : α → Run β} {a : α} (h : x.res = .ok a) :
    (Run.bind x f).trace = x.trace ++ (f a).trace := by
  unfold Run.bind
  rw [h]

/-- The number of `_rpc_call` invocations of a given JSON-RPC method in a
trace. -/
def countRpc (tr : List Event) (name : String) : Nat :=
  (tr.filter (fun e => match e with | .rpc n _ => n = name | _ => false)).length

theorem countRpc_append (t1 t2 : List Event) (name : String) :
    countRpc (t1 ++ t2) name = countRpc t1 name + countRpc t2 name := by
  unfold countRpc
  rw [List.filter_append, List.length_append]

/-- `_request` performs exactly one observable event: its HTTP request. -/
theorem clientRequest_trace (env : Env) (m p : String) (b : JVal) :
    (clientRequest env m p b).trace =
      [.req (pyUpper m) (if pyStartsWith p "/" then p else "/" ++ p) b] := by
  unfold clientRequest
  rw [bind_eq_runBind]
  unfold Run.bind
  cases env.respond (pyUpper m) (if pyStartsWith p "/" then p else "/" ++ p) b with
  | error msg => simp [emit, throwPub]
  | ok parsed =>
    by_cases hp : parsed.isObj = true
    · simp [emit, hp, Run.pure]
    · simp [emit, hp, throwPub]

theorem countRpc_nil (name : String) : countRpc [] name = 0 := rfl

theorem countRpc_clientRequest (env : Env) (m p : String) (b : JVal) (name : String) :
    countRpc (clientRequest env m p b).trace name = 0 := by
  rw [clientRequest_trace]
  rfl

theorem countRpc_catchPub_zero {x : Run α} {h : String → Run α} {name : String}
    (hx : countRpc x.trace name = 0) (hh : ∀ m, countRpc (h m).trace name = 0) :
    countRpc (catchPub x h).trace name = 0 := by
  unfold catchPub
  split
  · rename_i m hm
    rw [countRpc_append, hx, hh m]
  · exact hx

theorem countRpc_clientCall (env : Env) (pub m p : String) (b : JVal) (name : String) :
    countRpc (clientCall env pub m p b).trace name = 0 := by
  unfold clientCall
  exact countRpc_catchPub_zero (countRpc_clientRequest env m _ b name) (fun m => rfl)

theorem countRpc_bind_zero {x : Run α} {f : α → Run β} {name : String}
    (hx : countRpc x.trace name = 0) (hf : ∀ a, countRpc (f a).trace name = 0) :
    countRpc (x >>= f).trace name = 0 := by
  rw [bind_eq_runBind]
  unfold Run.bind
  cases hr : x.res with
  | error e => exact hx
  | ok a =>
    simp only [countRpc_append, hx, hf a, Nat.add_zero]

theorem emit_bind (e : Event) (f : Unit → Run α) :
    (emit e >>= f) = ⟨(f ()).res, e :: (f ()).trace⟩ := rfl

theorem countRpc_cons_rpc (n : String) (ps : List JVal) (tr : List Event) (name : String) :
    countRpc (Event.rpc n ps :: tr) name =
      (if n = name then 1 else 0) + countRpc tr name := by
  unfold countRpc
  rw [List.filter_cons]
  by_cases h : n = name
  · simp [h]
    omega
  · simp [h]

/-- `_rpc_call`'s trace: its own marker, plus one HTTP request from the
gateway client, and nothing else. -/
theorem countRpc_rpc_call (env : Env) (t : RpcTarget) (name name' : String)
    (params : List JVal) :
    countRpc (rpc_call env t name params).trace name' = if name = name' then 1 else 0 := by
  unfold rpc_call
  rw [emit_bind]
  show countRpc (Event.rpc name params :: _) name' = _
  rw [countRpc_cons_rpc]
  have hrest : ∀ (x : Run (JVal × JVal)), x = (do
      let payload ← clientCall env t.publisher (pyUpper t.method) t.path
        (.jobj [("jsonrpc", .jstr "2.0"), ("id", .jint 1),
                ("method", .jstr name), ("params", .jarr params)])
      let unwrapped ← liftE (unwrap_gateway_response payload t.publisher (pyUpper t.method) t.path)
      if ¬unwrapped.isObj then
        throwPub (t.publisher ++ " " ++ pyUpper t.method ++ " " ++ path_label t.path ++
                  " returned non-object RPC payload.")
      else if rpcErrorPresent unwrapped then
        throwPub (t.publisher ++ " RPC method " ++ name ++ " failed: " ++
                  pyPreview (unwrapped.getD "error" .null))
      else if ¬unwrapped.hasKey "result" then
        throwPub (t.publisher ++ " RPC method " ++ name ++ " missing result.")
      else Run.pure (unwrapped.getD "result" .null, unwrapped)) →
      countRpc x.trace name' = 0 := by
    intro x hx
    rw [hx]
    refine countRpc_bind_zero (countRpc_clientCall env _ _ _ _ _) ?_
    intro payload
    refine countRpc_bind_zero (by rfl) ?_
    intro unwrapped
    split
    · rfl
    · split
      · rfl
      · split
        · rfl
        · rfl
  rw [hrest _ rfl, Nat.add_zero]

/-- The `nonce` of a prepared transaction's `unsigned_tx`. -/
def nonceOf (item : JVal) : Option Int :=
  match (item.getD "unsigned_tx" (.jobj [])).get "nonce" with
  | some (.jint n) => some n
  | _ => none

theorem prepareTxLoop_nonces {env : Env} {t : RpcTarget} {signer : Signer}
    {gp : Int} {mult : PyFloat} {fb : Int} {strict : Bool} {cid : Int}
    {calls : List TxCall} {nonce : Int} {out : List JVal × List String}
    (h : (prepareTxLoop env t signer gp mult fb strict cid calls nonce).res = .ok out) :
    out.1.length = calls.length ∧
    ∀ i (hi : i < out.1.length), nonceOf (out.1.get ⟨i, hi⟩) = some (nonce + i) := by
  induction calls generalizing nonce out with
  | nil =>
    unfold prepareTxLoop at h
    rw [run_pure_res] at h
    cases Except.ok.inj h
    exact ⟨rfl, fun i hi => absurd hi (by simp)⟩
  | cons c rest ih =>
    unfold prepareTxLoop at h
    simp only [bind_eq_runBind, Run.bind_res_ok] at h
    obtain ⟨attempt, hatt, tail, htail, hout⟩ := h
    rw [run_pure_res] at hout
    cases Except.ok.inj hout
    obtain ⟨hlen, hn⟩ := ih htail
    refine ⟨by simpa using hlen, ?_⟩
    intro i hi
    cases i with
    | zero =>
      cases attempt <;> simp [nonceOf, JVal.getD, JVal.get, jlookup]
    | succ j =>
      have hj : j < tail.1.length := by
        simpa using Nat.lt_of_succ_lt_succ (by simpa using hi)
      have := hn j hj
      cases attempt <;>
        · simp only [List.get] at this ⊢
          rw [this]
          congr 1
          push_cast
          ring

theorem prepareTxLoop_no_nonce_query (env : Env) (t : RpcTarget) (signer : Signer)
    (gp : Int) (mult : PyFloat) (fb : Int) (strict : Bool) (cid : Int)
    (calls : List TxCall) (nonce : Int) :
    countRpc (prepareTxLoop env t signer gp mult fb strict cid calls nonce).trace
      "eth_getTransactionCount" = 0 := by
  induction calls generalizing nonce with
  | nil => rfl
  | cons c rest ih =>
    unfold prepareTxLoop
    refine countRpc_bind_zero ?_ ?_
    · refine countRpc_catchPub_zero ?_ ?_
      · refine countRpc_bind_zero ?_ (fun g => rfl)
        refine countRpc_bind_zero ?_ ?_
        · rw [countRpc_rpc_call]
          simp
        · intro r
          rfl
      · intro m
        split
        · rfl
        · rfl
    · intro attempt
      exact countRpc_bind_zero (ih _) (fun tail => rfl)

/-- C3: in a successfully prepared batch the `unsigned_tx.nonce` values
are exactly `base, base+1, …, base+N-1` in call order (no gaps, no
repeats) with `nonce_start = base`, and the pending nonce is queried by
exactly one `eth_getTransactionCount` call in the whole preparation (in
particular it is never re-queried mid-batch). -/
theorem c3_nonce_sequence {env : Env} {t : RpcTarget} {signer : Signer}
    {tx_calls : List TxCall} {gas_price_wei : Int} {execution : JVal} {strict : Bool}
    {prep : JVal}
    (hok : (estimate_and_prepare_transactions env t signer tx_calls gas_price_wei execution strict).res = .ok prep) :
    ∃ base txs,
      prep.get "nonce_start" = some (.jint base) ∧
      prep.get "transactions" = some (.jarr txs) ∧
      txs.length = tx_calls.length ∧
      (∀ i (hi : i < txs.length), nonceOf (txs.get ⟨i, hi⟩) = some (base + i)) ∧
      countRpc (estimate_and_prepare_transactions env t signer tx_calls gas_price_wei execution strict).trace
        "eth_getTransactionCount" = 1 := by
  have hok' := hok
  unfold estimate_and_prepare_transactions at hok'
  simp only [bind_eq_runBind, Run.bind_res_ok] at hok'
  obtain ⟨chainIdR, h1, nonceR, h2, chain_id, h3, next_nonce, h4, mult, h5, fb, h6,
    loopOut, h7, nonce_start, h8, hprep⟩ := hok'
  rw [run_pure_res] at hprep
  have hsame : nonce_start = next_nonce := by
    simp only [liftE] at h4 h8
    rw [h4] at h8
    exact (Except.ok.inj h8).symm
  obtain ⟨hlen, hn⟩ := prepareTxLoop_nonces h7
  refine ⟨nonce_start, loopOut.1, ?_, ?_, ?_, ?_, ?_⟩
  · rw [← Except.ok.inj hprep]
    simp [JVal.get, jlookup]
  · rw [← Except.ok.inj hprep]
    simp [JVal.get, jlookup]
  · exact hlen
  · intro i hi
    rw [hn i hi, hsame]
  · unfold estimate_and_prepare_transactions
    rw [bind_eq_runBind, Run.bind_trace_ok h1, bind_eq_runBind, Run.bind_trace_ok h2,
        bind_eq_runBind, Run.bind_trace_ok h3, bind_eq_runBind, Run.bind_trace_ok h4,
        bind_eq_runBind, Run.bind_trace_ok h5, bind_eq_runBind, Run.bind_trace_ok h6,
        bind_eq_runBind, Run.bind_trace_ok h7, bind_eq_runBind, Run.bind_trace_ok h8]
    simp only [countRpc_append, countRpc_rpc_call, prepareTxLoop_no_nonce_query]
    simp [liftE, countRpc, Run.pure]

/-- Witness for C3: a concrete two-call batch against the happy oracle;
the pending nonce is 5, so the assigned nonces are 5 and 6. -/
theorem c3_nonce_sequence_witness :
    ∃ prep,
      (estimate_and_prepare_transactions happyEnv wTarget wSigner wCalls 100 (JVal.jobj []) false).res = .ok prep ∧
      ∃ base txs,
        prep.get "nonce_start" = some (.jint base) ∧
        prep.get "transactions" = some (.jarr txs) ∧
        txs.length = wCalls.length ∧
        (∀ i (hi : i < txs.length), nonceOf (txs.get ⟨i, hi⟩) = some (base + i)) ∧
        countRpc (estimate_and_prepare_transactions happyEnv wTarget wSigner wCalls 100 (JVal.jobj []) false).trace
          "eth_getTransactionCount" = 1 :=
  ⟨_, rfl, c3_nonce_sequence rfl⟩

/-! ### Transaction building (C4) -/

theorem parse_positive_int_pos {v : JVal} {field : String} {n : Int}
    (h : parse_positive_int v field = .ok n) : 0 < n := by
  unfold parse_positive_int at h
  split at h
  · exact absurd h (by simp)
  · split at h
    · exact absurd h (by simp)
    · rename_i hle
      cases Except.ok.inj h
      omega
  · split at h
    · split at h
      · exact absurd h (by simp)
      · rename_i m hm hle
        cases Except.ok.inj h
        omega
    · exact absurd h (by simp)
  · exact absurd h (by simp)

theorem deriveLpAmount_pos {s tp : JVal} {n : Int} (h : deriveLpAmount s tp = .ok n) :
    0 < n := by
  unfold deriveLpAmount at h
  split at h
  · exact absurd h (by simp)
  · split at h
    · exact absurd h (by simp)
    · split at h
      · exact absurd h (by simp)
      · split at h
        · exact absurd h (by simp)
        · split at h
          · exact absurd h (by simp)
          · split at h
            · exact absurd h (by simp)
            · split at h
              · exact absurd h (by simp)
              · rename_i hle
                cases Except.ok.inj h
                omega

theorem resolveLpAmount_pos {s tp : JVal} {n : Int} (h : resolveLpAmount s tp = .ok n) :
    0 < n := by
  unfold resolveLpAmount at h
  split at h
  · exact parse_positive_int_pos h
  · exact deriveLpAmount_pos h

theorem gaugeStakeCalls_labels (env : Env) (g l : String) (amt alw : Int) (af am : Bool) :
    (gaugeStakeCalls env g l amt alw af am).map TxCall.label =
      if af = true ∧ alw < amt then ["approve_lp_token", "deposit_to_gauge"]
      else ["deposit_to_gauge"] := by
  unfold gaugeStakeCalls
  split
  · rfl
  · rfl

/-- C4: in the `gauge_stake_lp` strategy, the batch always ends with the
deposit call; an approve call is included iff `approve_first` (default
true) is set and the on-chain allowance is strictly below the deposit
amount; any approve call precedes the deposit call; the deposit amount is
always positive, so with allowance 0 and default flags the batch is
exactly `[approve, deposit]`. -/
theorem c4_approve_before_deposit {env : Env} {t : RpcTarget} {signer : Signer}
    {trade_plan execution : JVal} {out : List TxCall × JVal}
    (hok : (build_gauge_stake_lp_transactions env t signer trade_plan execution).res = .ok out) :
    ∃ stake_cfg gauge lp_token lp_amount_wei allowance_wei,
      subConfigOf execution "gauge_stake_lp"
        "evm_execution.gauge_stake_lp must be an object when provided." = .ok stake_cfg ∧
      resolveLpAmount stake_cfg trade_plan = .ok lp_amount_wei ∧
      (erc20_allowance env t lp_token signer.address gauge).res = .ok allowance_wei ∧
      0 < lp_amount_wei ∧
      out.1.map TxCall.label =
        (if pyTruthy (stake_cfg.getD "approve_first" (.jbool true)) = true ∧
            allowance_wei < lp_amount_wei
         then ["approve_lp_token", "deposit_to_gauge"]
         else ["deposit_to_gauge"]) ∧
      (out.1.getLast?).map TxCall.label = some "deposit_to_gauge" ∧
      ((∃ c ∈ out.1, c.label = "approve_lp_token") ↔
        pyTruthy (stake_cfg.getD "approve_first" (.jbool true)) = true ∧
          allowance_wei < lp_amount_wei) ∧
      out.2.get "approval_required" = some (.jbool (decide (allowance_wei < lp_amount_wei))) := by
  unfold build_gauge_stake_lp_transactions at hok
  simp only [bind_eq_runBind, Run.bind_res_ok, liftE] at hok
  obtain ⟨stake_cfg, hsc, gauge, hg, lp_token, hlp, lp_amount_wei, hamt, allowance_wei,
    halw, hout⟩ := hok
  rw [run_pure_res] at hout
  cases Except.ok.inj hout
  have hpos := resolveLpAmount_pos hamt
  have hlabels := gaugeStakeCalls_labels env gauge lp_token lp_amount_wei allowance_wei
    (pyTruthy (stake_cfg.getD "approve_first" (.jbool true)))
    (pyTruthy (stake_cfg.getD "approve_max" (.jbool true)))
  refine ⟨stake_cfg, gauge, lp_token, lp_amount_wei, allowance_wei, hsc, hamt, halw, hpos,
    hlabels, ?_, ?_, ?_⟩
  · rw [← List.getLast?_map, hlabels]
    split
    · rfl
    · rfl
  · constructor
    · rintro ⟨c, hc, hlabel⟩
      have hmem : "approve_lp_token" ∈ (gaugeStakeCalls env gauge lp_token lp_amount_wei
          allowance_wei (pyTruthy (stake_cfg.getD "approve_first" (.jbool true)))
          (pyTruthy (stake_cfg.getD "approve_max" (.jbool true)))).map TxCall.label := by
        exact List.mem_map.mpr ⟨c, hc, hlabel⟩
      rw [hlabels] at hmem
      by_contra hcond
      rw [if_neg hcond] at hmem
      simp at hmem
    · intro hcond
      have hmem : "approve_lp_token" ∈ (gaugeStakeCalls env gauge lp_token lp_amount_wei
          allowance_wei (pyTruthy (stake_cfg.getD "approve_first" (.jbool true)))
          (pyTruthy (stake_cfg.getD "approve_max" (.jbool true)))).map TxCall.label := by
        rw [hlabels, if_pos hcond]
        simp
      obtain ⟨c, hc, hlabel⟩ := List.mem_map.mp hmem
      exact ⟨c, hc, hlabel⟩
  · unfold gaugeStakeDetails
    simp [JVal.get, jlookup]

/-- Witness for C4: against the happy oracle, allowance 0 and default
flags yield exactly `[approve_lp_token, deposit_to_gauge]`. -/
theorem c4_approve_before_deposit_witness :
    (∃ out, (build_gauge_stake_lp_transactions happyEnv wTarget wSigner
        (.jobj [("gauge_address", .jstr addrB), ("lp_token_address", .jstr addrC)])
        (.jobj [("gauge_stake_lp", .jobj [("lp_amount_wei", .jstr "1000")])])).res = .ok out ∧
      out.1.map TxCall.label = ["approve_lp_token", "deposit_to_gauge"] ∧
      (∃ stake_cfg gauge lp_token lp_amount_wei allowance_wei,
        subConfigOf (.jobj [("gauge_stake_lp", .jobj [("lp_amount_wei", .jstr "1000")])])
          "gauge_stake_lp"
          "evm_execution.gauge_stake_lp must be an object when provided." = .ok stake_cfg ∧
        resolveLpAmount stake_cfg
          (.jobj [("gauge_address", .jstr addrB), ("lp_token_address", .jstr addrC)]) = .ok lp_amount_wei ∧
        (erc20_allowance happyEnv wTarget lp_token wSigner.address gauge).res = .ok allowance_wei ∧
        0 < lp_amount_wei ∧
        out.1.map TxCall.label =
          (if pyTruthy (stake_cfg.getD "approve_first" (.jbool true)) = true ∧
              allowance_wei < lp_amount_wei
           then ["approve_lp_token", "deposit_to_gauge"]
           else ["deposit_to_gauge"]) ∧
        (out.1.getLast?).map TxCall.label = some "deposit_to_gauge" ∧
        ((∃ c ∈ out.1, c.label = "approve_lp_token") ↔
          pyTruthy (stake_cfg.getD "approve_first" (.jbool true)) = true ∧
            allowance_wei < lp_amount_wei) ∧
        out.2.get "approval_required" = some (.jbool (decide (allowance_wei < lp_amount_wei))))) :=
  ⟨_, rfl, rfl, c4_approve_before_deposit rfl⟩

/-! ### Gas-estimation strictness (C5) -/

theorem Run.bind_res_err {x : Run α} {f : α → Run β} {e : Err} :
    (Run.bind x f).res = .error e ↔
      x.res = .error e ∨ ∃ a, x.res = .ok a ∧ (f a).res = .error e := by
  unfold Run.bind
  cases hx : x.res with
  | error e' => simp [hx]
  | ok a => simp [hx]

theorem unwrap_err_pub {payload : JVal} {pub m p : String} {e : Err}
    (h : unwrap_gateway_response payload pub m p = .error e) : ∃ msg, e = .publisherError msg := by
  unfold unwrap_gateway_response at h
  split at h
  · exact ⟨_, (Except.error.inj h).symm⟩
  · split at h
    · split at h
      · split at h
        · exact ⟨_, (Except.error.inj h).symm⟩
        · exact absurd h (by simp)
      · exact absurd h (by simp)
    · exact absurd h (by simp)

theorem clientRequest_err_pub {env : Env} {m p : String} {b : JVal} {e : Err}
    (h : (clientRequest env m p b).res = .error e) : ∃ msg, e = .publisherError msg := by
  unfold clientRequest at h
  rw [bind_eq_runBind] at h
  rw [Run.bind_res_err] at h
  rcases h with h | ⟨a, _, h⟩
  · exact absurd h (by simp [emit])
  · cases hr : env.respond (pyUpper m) (if pyStartsWith p "/" then p else "/" ++ p) b with
    | error msg => rw [hr] at h; exact ⟨_, (Except.error.inj h).symm⟩
    | ok parsed =>
      rw [hr] at h
      dsimp only at h
      by_cases hp : parsed.isObj = true
      · rw [if_pos hp, run_pure_res] at h
        exact absurd h (by simp)
      · rw [if_neg hp, throwPub_res] at h
        exact ⟨_, (Except.error.inj h).symm⟩

theorem clientCall_err_pub {env : Env} {pub m p : String} {b : JVal} {e : Err}
    (h : (clientCall env pub m p b).res = .error e) : ∃ msg, e = .publisherError msg := by
  unfold clientCall at h
  rcases catchPub_res_err h with h' | ⟨msg, _, h'⟩
  · exact clientRequest_err_pub h'
  · rw [throwPub_res] at h'
    exact ⟨_, (Except.error.inj h').symm⟩

theorem parse_rpc_int_err_pub {v : JVal} {field : String} {e : Err}
    (h : parse_rpc_int v field = .error e) : ∃ msg, e = .publisherError msg := by
  unfold parse_rpc_int at h
  split at h
  · exact absurd h (by simp)
  · split at h
    · split at h
      · exact absurd h (by simp)
      · exact ⟨_, (Except.error.inj h).symm⟩
    · exact ⟨_, (Except.error.inj h).symm⟩

theorem rpc_call_err_pub {env : Env} {t : RpcTarget} {name : String} {params : List JVal}
    {e : Err} (h : (rpc_call env t name params).res = .error e) :
    ∃ msg, e = .publisherError msg := by
  unfold rpc_call at h
  simp only [bind_eq_runBind, Run.bind_res_err] at h
  rcases h with h | ⟨u, _, h⟩
  · exact absurd h (by simp [emit])
  · rcases h with h | ⟨payload, _, h⟩
    · exact clientCall_err_pub h
    · rcases h with h | ⟨unwrapped, _, h⟩
      · exact unwrap_err_pub (by simpa [liftE] using h)
      · split at h
        · rw [throwPub_res] at h
          exact ⟨_, (Except.error.inj h).symm⟩
        · split at h
          · rw [throwPub_res] at h
            exact ⟨_, (Except.error.inj h).symm⟩
          · split at h
            · rw [throwPub_res] at h
              exact ⟨_, (Except.error.inj h).symm⟩
            · rw [run_pure_res] at h
              exact absurd h (by simp)

theorem estimateGasRun_err_pub {env : Env} {t : RpcTarget} {signer : Signer} {c : TxCall}
    {e : Err} (h : (estimateGasRun env t signer c).res = .error e) :
    ∃ msg, e = .publisherError msg := by
  unfold estimateGasRun at h
  simp only [bind_eq_runBind, Run.bind_res_err] at h
  rcases h with h | ⟨r, _, h⟩
  · exact rpc_call_err_pub h
  · exact parse_rpc_int_err_pub (by simpa [liftE] using h)

/-- The prepared item `prepareTxLoop` builds for one call from its
estimation outcome. -/
def preparedItem (gas_price_wei : Int) (mult : PyFloat) (fb : Int) (cid : Int) (c : TxCall)
    (nonce : Int) (attempt : Sum Int String) : JVal :=
  JVal.jobj [("label", .jstr c.label), ("to", .jstr c.toAddr),
    ("value_wei", .jstr (toString c.value_wei)),
    ("estimated_gas", .jint (match attempt with | Sum.inl g => g | Sum.inr _ => fb)),
    ("gas_limit", .jint (max 21000 (pfCeil (pfMul
      (pfOfInt (match attempt with | Sum.inl g => g | Sum.inr _ => fb)) mult)))),
    ("estimate_error", .jstr (match attempt with | Sum.inl _ => "" | Sum.inr m => m)),
    ("unsigned_tx", JVal.jobj [("chainId", .jint cid), ("nonce", .jint nonce),
      ("to", .jstr c.toAddr), ("value", .jint c.value_wei), ("data", .jstr c.data),
      ("gas", .jint (max 21000 (pfCeil (pfMul
        (pfOfInt (match attempt with | Sum.inl g => g | Sum.inr _ => fb)) mult)))),
      ("gasPrice", .jint gas_price_wei)])]

/-- In non-strict mode, the loop always succeeds, and its outcome is
determined iteration by iteration by the estimation results. -/
theorem prepareTxLoop_nonstrict_ok (env : Env) (t : RpcTarget) (signer : Signer)
    (gp : Int) (mult : PyFloat) (fb : Int) (cid : Int) (calls : List TxCall) (nonce : Int) :
    ∃ out, (prepareTxLoop env t signer gp mult fb false cid calls nonce).res = .ok out ∧
      out.1.length = calls.length := by
  induction calls generalizing nonce with
  | nil => exact ⟨([], []), rfl, rfl⟩
  | cons c rest ih =>
    obtain ⟨out', hout', hlen'⟩ := ih (nonce + 1)
    unfold prepareTxLoop
    simp only [bind_eq_runBind]
    have hatt : ∃ a, (catchPub
        (do
          let g ← estimateGasRun env t signer c
          Run.pure (Sum.inl g))
        (fun m =>
          if (false : Bool) = true then
            throwConfig ("Gas estimation failed for '" ++ c.label ++ "' in live mode: " ++ m)
          else Run.pure (Sum.inr m))).res = .ok a := by
      unfold catchPub
      split
      · rename_i m hm
        exact ⟨Sum.inr m, by simp [Run.pure]⟩
      · rename_i hne
        cases hg : (estimateGasRun env t signer c).res with
        | error e =>
          obtain ⟨msg, rfl⟩ := estimateGasRun_err_pub hg
          refine False.elim (hne msg ?_)
          rw [bind_eq_runBind]
          unfold Run.bind
          rw [hg]
        | ok g =>
          refine ⟨Sum.inl g, ?_⟩
          rw [bind_eq_runBind, Run.bind_res_ok]
          exact ⟨g, hg, rfl⟩
    obtain ⟨attempt, hatt⟩ := hatt
    refine ⟨(preparedItem gp mult fb cid c nonce attempt :: out'.1,
            (match attempt with
             | Sum.inl _ => ([] : List String)
             | Sum.inr m => [c.label ++ ": " ++ m]) ++ out'.2), ?_, by simp [hlen']⟩
    rw [Run.bind_res_ok]
    refine ⟨attempt, hatt, ?_⟩
    rw [Run.bind_res_ok]
    refine ⟨out', hout', ?_⟩
    cases attempt with
    | inl g => rfl
    | inr m => rfl

theorem bind_res_of_ok {x : Run α} {f : α → Run β} {a : α} (hx : x.res = .ok a) :
    (Run.bind x f).res = (f a).res := by
  unfold Run.bind
  rw [hx]

theorem bind_res_of_err {x : Run α} {f : α → Run β} {e : Err} (hx : x.res = .error e) :
    (Run.bind x f).res = .error e := by
  unfold Run.bind
  rw [hx]

theorem catchPub_res_pub {x : Run α} {h : String → Run α} {m : String}
    (hx : x.res = .error (.publisherError m)) : (catchPub x h).res = (h m).res := by
  unfold catchPub
  split
  · rename_i m' hm'
    rw [hx] at hm'
    cases Err.publisherError.inj (Except.error.inj hm')
    rfl
  · rename_i hne
    exact absurd hx (hne m)

theorem catchPub_eq_of_ok {x : Run α} {h : String → Run α} {a : α}
    (hx : x.res = .ok a) : catchPub x h = x := by
  unfold catchPub
  split
  · rename_i m' hm'
    rw [hx] at hm'
    exact absurd hm' (by simp)
  · rfl

/-- In strict mode, the first estimation failure aborts the whole loop
with the fatal `ConfigError`. -/
theorem prepareTxLoop_strict_fail {env : Env} {t : RpcTarget} {signer : Signer}
    {gp : Int} {mult : PyFloat} {fb cid : Int} {pre : List TxCall} {c : TxCall}
    {post : List TxCall} {m : String}
    (hpre : ∀ c' ∈ pre, ∃ g, (estimateGasRun env t signer c').res = .ok g)
    (hfail : (estimateGasRun env t signer c).res = .error (.publisherError m)) :
    ∀ n0, (prepareTxLoop env t signer gp mult fb true cid (pre ++ c :: post) n0).res =
      .error (.configError ("Gas estimation failed for '" ++ c.label ++ "' in live mode: " ++ m)) := by
  induction pre with
  | nil =>
    intro n0
    show (prepareTxLoop env t signer gp mult fb true cid (c :: post) n0).res = _
    unfold prepareTxLoop
    rw [bind_eq_runBind]
    have hbody : (do
        let g ← estimateGasRun env t signer c
        Run.pure (Sum.inl g) : Run (Sum Int String)).res = .error (.publisherError m) := by
      rw [bind_eq_runBind]
      exact bind_res_of_err hfail
    rw [bind_res_of_err (x := catchPub _ _)]
    rw [catchPub_res_pub hbody]
    rw [if_pos rfl, throwConfig_res]
  | cons p pre' ih =>
    intro n0
    obtain ⟨g, hg⟩ := hpre p (List.mem_cons_self p pre')
    have hpre' : ∀ c' ∈ pre', ∃ g, (estimateGasRun env t signer c').res = .ok g :=
      fun c' hc' => hpre c' (List.mem_cons_of_mem p hc')
    show (prepareTxLoop env t signer gp mult fb true cid (p :: (pre' ++ c :: post)) n0).res = _
    unfold prepareTxLoop
    rw [bind_eq_runBind]
    have hbody : (do
        let g' ← estimateGasRun env t signer p
        Run.pure (Sum.inl g') : Run (Sum Int String)).res = .ok (Sum.inl g) := by
      rw [bind_eq_runBind]
      rw [bind_res_of_ok hg]
      rfl
    rw [bind_res_of_ok (catchPub_eq_of_ok hbody ▸ hbody)]
    rw [bind_eq_runBind]
    exact bind_res_of_err (ih hpre' (n0 + 1))

/-- In non-strict mode, a failing estimation degrades to the fallback:
the loop still succeeds, the failing call's prepared item carries the
fallback-derived gas limit and the recorded message, and the error line
naming the label is collected. -/
theorem prepareTxLoop_fallback {env : Env} {t : RpcTarget} {signer : Signer}
    {gp : Int} {mult : PyFloat} {fb cid : Int} {pre : List TxCall} {c : TxCall}
    {post : List TxCall} {m : String}
    (hfail : (estimateGasRun env t signer c).res = .error (.publisherError m)) :
    ∀ n0, ∃ out,
      (prepareTxLoop env t signer gp mult fb false cid (pre ++ c :: post) n0).res = .ok out ∧
      out.1.length = (pre ++ c :: post).length ∧
      (∃ hidx : pre.length < out.1.length,
        out.1.get ⟨pre.length, hidx⟩ =
          preparedItem gp mult fb cid c (n0 + pre.length) (Sum.inr m)) ∧
      (c.label ++ ": " ++ m) ∈ out.2 := by
  induction pre with
  | nil =>
    intro n0
    obtain ⟨out', hout', hlen'⟩ := prepareTxLoop_nonstrict_ok env t signer gp mult fb cid post (n0 + 1)
    refine ⟨(preparedItem gp mult fb cid c n0 (Sum.inr m) :: out'.1,
             [c.label ++ ": " ++ m] ++ out'.2), ?_, ?_, ?_, ?_⟩
    · show (prepareTxLoop env t signer gp mult fb false cid (c :: post) n0).res = _
      unfold prepareTxLoop
      rw [bind_eq_runBind]
      have hbody : (do
          let g ← estimateGasRun env t signer c
          Run.pure (Sum.inl g) : Run (Sum Int String)).res = .error (.publisherError m) := by
        rw [bind_eq_runBind]
        exact bind_res_of_err hfail
      have hatt : (catchPub (do
          let g ← estimateGasRun env t signer c
          Run.pure (Sum.inl g))
          (fun m' =>
            if (false : Bool) = true then
              throwConfig ("Gas estimation failed for '" ++ c.label ++ "' in live mode: " ++ m')
            else Run.pure (Sum.inr m'))).res = .ok (Sum.inr m) := by
        rw [catchPub_res_pub hbody]
        simp [Run.pure]
      rw [bind_res_of_ok hatt, bind_eq_runBind, bind_res_of_ok hout']
      rfl
    · simp [hlen']
    · refine ⟨by simp, ?_⟩
      simp
    · simp
  | cons p pre' ih =>
    intro n0
    obtain ⟨out'', hout'', hlen'', ⟨hidx'', hget''⟩, hmem''⟩ := ih (n0 + 1)
    have hattp : ∃ a, (catchPub (do
        let g ← estimateGasRun env t signer p
        Run.pure (Sum.inl g))
        (fun m' =>
          if (false : Bool) = true then
            throwConfig ("Gas estimation failed for '" ++ p.label ++ "' in live mode: " ++ m')
          else Run.pure (Sum.inr m'))).res = .ok a := by
      cases hp : (estimateGasRun env t signer p).res with
      | error e =>
        obtain ⟨msg, rfl⟩ := estimateGasRun_err_pub hp
        have hbody : (do
            let g ← estimateGasRun env t signer p
            Run.pure (Sum.inl g) : Run (Sum Int String)).res = .error (.publisherError msg) := by
          rw [bind_eq_runBind]
          exact bind_res_of_err hp
        refine ⟨Sum.inr msg, ?_⟩
        rw [catchPub_res_pub hbody]
        simp [Run.pure]
      | ok g =>
        have hbody : (do
            let g' ← estimateGasRun env t signer p
            Run.pure (Sum.inl g') : Run (Sum Int String)).res = .ok (Sum.inl g) := by
          rw [bind_eq_runBind, bind_res_of_ok hp]
          rfl
        refine ⟨Sum.inl g, ?_⟩
        rw [catchPub_eq_of_ok hbody]
        exact hbody
    obtain ⟨attempt, hattp⟩ := hattp
    refine ⟨(preparedItem gp mult fb cid p n0 attempt :: out''.1,
            (match attempt with
             | Sum.inl _ => ([] : List String)
             | Sum.inr m' => [p.label ++ ": " ++ m']) ++ out''.2), ?_, ?_, ?_, ?_⟩
    · show (prepareTxLoop env t signer gp mult fb false cid (p :: (pre' ++ c :: post)) n0).res = _
      unfold prepareTxLoop
      rw [bind_eq_runBind, bind_res_of_ok hattp, bind_eq_runBind, bind_res_of_ok hout'']
      cases attempt with
      | inl g => rfl
      | inr m' => rfl
    · simp [hlen'']
    · refine ⟨by simp only [List.length_cons]; exact Nat.succ_lt_succ hidx'', ?_⟩
      show List.get _ ⟨pre'.length + 1, _⟩ = _
      simp only [List.get]
      rw [hget'']
      congr 1
      simp only [List.length_cons]
      omega
    · simp only [List.mem_append]
      exact Or.inr hmem''

/-- C5: for a call whose `eth_estimateGas` (plus result parsing) fails,
once the chain-id and pending-nonce lookups and the gas configuration
have resolved: in strict mode (`run_once` passes
`live_mode ∧ ¬dry_run ∧ --yes-live`), provided the calls before it
estimated fine, the whole preparation fails with the fatal `ConfigError`
naming the label; in non-strict mode the preparation succeeds, the
call's `gas_limit` is `max(21000, ceil(fallback_gas_limit ×
gas_limit_multiplier))` from the fallback estimate, and
`estimation_errors` is non-empty and contains the line naming the
label. -/
theorem c5_estimation_strictness {env : Env} {t : RpcTarget} {signer : Signer}
    {tx_calls : List TxCall} {gas_price_wei : Int} {execution : JVal} {strict : Bool}
    {pre : List TxCall} {c : TxCall} {post : List TxCall} {m : String}
    {chainIdR nonceR : JVal × JVal} {cid n0 : Int} {mult : PyFloat} {fb : Int}
    (hsplit : tx_calls = pre ++ c :: post)
    (hfail : (estimateGasRun env t signer c).res = .error (.publisherError m))
    (h1 : (rpc_call env t "eth_chainId" []).res = .ok chainIdR)
    (h2 : (rpc_call env t "eth_getTransactionCount" [.jstr signer.address, .jstr "pending"]).res = .ok nonceR)
    (h3 : parse_rpc_int chainIdR.1 "eth_chainId" = .ok cid)
    (h4 : parse_rpc_int nonceR.1 "eth_getTransactionCount" = .ok n0)
    (h5 : resolve_gas_limit_multiplier execution = .ok mult)
    (h6 : resolve_fallback_gas_limit execution = .ok fb) :
    (strict = true → (∀ c' ∈ pre, ∃ g, (estimateGasRun env t signer c').res = .ok g) →
      (estimate_and_prepare_transactions env t signer tx_calls gas_price_wei execution strict).res =
        .error (.configError ("Gas estimation failed for '" ++ c.label ++ "' in live mode: " ++ m))) ∧
    (strict = false →
      ∃ prep txs errs,
        (estimate_and_prepare_transactions env t signer tx_calls gas_price_wei execution strict).res = .ok prep ∧
        prep.get "transactions" = some (.jarr txs) ∧
        prep.get "estimation_errors" = some (.jarr errs) ∧
        errs ≠ [] ∧ (JVal.jstr (c.label ++ ": " ++ m)) ∈ errs ∧
        ∃ hidx : pre.length < txs.length,
          (txs.get ⟨pre.length, hidx⟩).get "gas_limit" =
            some (.jint (max 21000 (pfCeil (pfMul (pfOfInt fb) mult)))) ∧
          (txs.get ⟨pre.length, hidx⟩).get "estimated_gas" = some (.jint fb) ∧
          (txs.get ⟨pre.length, hidx⟩).get "estimate_error" = some (.jstr m)) := by
  constructor
  · intro hstrict hpre
    subst hstrict
    subst hsplit
    unfold estimate_and_prepare_transactions
    rw [bind_eq_runBind, bind_res_of_ok h1, bind_eq_runBind, bind_res_of_ok h2,
        bind_eq_runBind, bind_res_of_ok (show (liftE (parse_rpc_int chainIdR.1 "eth_chainId")).res = .ok cid from h3),
        bind_eq_runBind, bind_res_of_ok (show (liftE (parse_rpc_int nonceR.1 "eth_getTransactionCount")).res = .ok n0 from h4),
        bind_eq_runBind, bind_res_of_ok (show (liftE (resolve_gas_limit_multiplier execution)).res = .ok mult from h5),
        bind_eq_runBind, bind_res_of_ok (show (liftE (resolve_fallback_gas_limit execution)).res = .ok fb from h6),
        bind_eq_runBind]
    exact bind_res_of_err (prepareTxLoop_strict_fail hpre hfail n0)
  · intro hstrict
    subst hstrict
    subst hsplit
    obtain ⟨out, hout, hlen, ⟨hidx, hget⟩, hmem⟩ :=
      @prepareTxLoop_fallback env t signer gas_price_wei mult fb cid pre c post m hfail n0
    refine ⟨JVal.jobj [("chain_id", .jint cid), ("nonce_start", .jint n0),
      ("gas_price_wei", .jint gas_price_wei),
      ("total_gas_limit", .jint (out.1.map (fun item => jvalInt (item.getD "gas_limit" .null))).sum),
      ("total_value_wei", .jint (out.1.map (fun item => jvalInt ((item.getD "unsigned_tx" (.jobj [])).getD "value" .null))).sum),
      ("estimated_network_fee_wei", .jint ((out.1.map (fun item => jvalInt (item.getD "gas_limit" .null))).sum * gas_price_wei)),
      ("estimation_errors", .jarr (out.2.map (fun e => JVal.jstr e))),
      ("transactions", .jarr out.1)], out.1, out.2.map (fun e => JVal.jstr e), ?_, ?_, ?_, ?_, ?_, ?_⟩
    · unfold estimate_and_prepare_transactions
      rw [bind_eq_runBind, bind_res_of_ok h1, bind_eq_runBind, bind_res_of_ok h2,
          bind_eq_runBind, bind_res_of_ok (show (liftE (parse_rpc_int chainIdR.1 "eth_chainId")).res = .ok cid from h3),
          bind_eq_runBind, bind_res_of_ok (show (liftE (parse_rpc_int nonceR.1 "eth_getTransactionCount")).res = .ok n0 from h4),
          bind_eq_runBind, bind_res_of_ok (show (liftE (resolve_gas_limit_multiplier execution)).res = .ok mult from h5),
          bind_eq_runBind, bind_res_of_ok (show (liftE (resolve_fallback_gas_limit execution)).res = .ok fb from h6),
          bind_eq_runBind, bind_res_of_ok hout,
          bind_eq_runBind, bind_res_of_ok (show (liftE (parse_rpc_int nonceR.1 "eth_getTransactionCount")).res = .ok n0 from h4)]
      exact run_pure_res _
    · simp [JVal.get, jlookup]
    · simp [JVal.get, jlookup]
    · intro hnil
      rw [List.map_eq_nil_iff] at hnil
      rw [hnil] at hmem
      exact absurd hmem (List.not_mem_nil _)
    · exact List.mem_map_of_mem _ hmem
    · refine ⟨hidx, ?_, ?_, ?_⟩ <;>
        · rw [hget]
          simp [preparedItem, JVal.get, jlookup]

/-- Witness for C5 (non-strict side): a failing estimation against
`estimateFailEnv` with default gas configuration falls back to
`max(21000, ceil(350000 × 1.2))`. -/
theorem c5_estimation_strictness_witness :
    ∃ prep txs errs,
      (estimate_and_prepare_transactions estimateFailEnv wTarget wSigner [wDeposit] 100 (JVal.jobj []) false).res = .ok prep ∧
      prep.get "transactions" = some (.jarr txs) ∧
      prep.get "estimation_errors" = some (.jarr errs) ∧
      errs ≠ [] ∧ (JVal.jstr (wDeposit.label ++ ": " ++ "my-rpc boom")) ∈ errs ∧
      ∃ hidx : (0 : Nat) < txs.length,
        (txs.get ⟨0, hidx⟩).get "gas_limit" =
          some (.jint (max 21000 (pfCeil (pfMul (pfOfInt 350000) DEFAULT_GAS_LIMIT_MULTIPLIER)))) ∧
        (txs.get ⟨0, hidx⟩).get "estimated_gas" = some (.jint 350000) ∧
        (txs.get ⟨0, hidx⟩).get "estimate_error" = some (.jstr "my-rpc boom") :=
  (@c5_estimation_strictness estimateFailEnv wTarget wSigner [wDeposit] 100 (JVal.jobj [])
    false [] wDeposit [] "my-rpc boom" (.jstr "0x1", rpcResult "0x1")
    (.jstr "0x5", rpcResult "0x5") 1 5 DEFAULT_GAS_LIMIT_MULTIPLIER 350000
    rfl rfl rfl rfl rfl rfl rfl rfl).2 rfl

/-! ### C6: gauge filtering, reward extraction, descending sort, truncation -/

theorem pfLe_refl (a : PyFloat) : pfLe a a = true := by
  simp [pfLe]

theorem pfLe_total (a b : PyFloat) : pfLe a b = true ∨ pfLe b a = true := by
  simp only [pfLe, decide_eq_true_eq]
  omega

theorem pfLe_of_not_lt {a b : PyFloat} (h : pfLt a b = false) : pfLe b a = true := by
  simp only [pfLt, decide_eq_false_iff_not, not_lt] at h
  simp only [pfLe, decide_eq_true_eq]
  omega

theorem pfLe_of_lt {a b : PyFloat} (h : pfLt a b = true) : pfLe a b = true := by
  simp only [pfLt, decide_eq_true_eq] at h
  simp only [pfLe, decide_eq_true_eq]
  omega

theorem pfLe_trans {a b c : PyFloat} (hb : 0 < b.den)
    (h1 : pfLe a b = true) (h2 : pfLe b c = true) : pfLe a c = true := by
  simp only [pfLe, decide_eq_true_eq] at h1 h2 ⊢
  have hbd : (0 : Int) < (b.den : Int) := by exact_mod_cast hb
  have had : (0 : Int) ≤ (a.den : Int) := Int.natCast_nonneg _
  have hcd : (0 : Int) ≤ (c.den : Int) := Int.natCast_nonneg _
  nlinarith [mul_le_mul_of_nonneg_right h1 hcd, mul_le_mul_of_nonneg_right h2 had]

theorem pfFold_ub : ∀ (xs : List PyFloat) (acc : PyFloat),
    0 < acc.den → (∀ q ∈ xs, 0 < q.den) →
    pfLe acc (xs.foldl pfMaxStep acc) = true ∧
      ∀ q ∈ xs, pfLe q (xs.foldl pfMaxStep acc) = true := by
  intro xs
  induction xs with
  | nil => intro acc _ _; exact ⟨pfLe_refl acc, by simp⟩
  | cons y ys ih =>
    intro acc hacc hall
    have hyd : 0 < y.den := hall y (List.mem_cons_self _ _)
    have hstep_den : 0 < (pfMaxStep acc y).den := by
      unfold pfMaxStep; split
      · exact hyd
      · exact hacc
    have hrest := ih (pfMaxStep acc y) hstep_den (fun q hq => hall q (List.mem_cons_of_mem _ hq))
    have hacc_step : pfLe acc (pfMaxStep acc y) = true := by
      unfold pfMaxStep; split
      case isTrue h => exact pfLe_of_lt h
      case isFalse h => exact pfLe_refl acc
    have hy_step : pfLe y (pfMaxStep acc y) = true := by
      unfold pfMaxStep; split
      case isTrue h => exact pfLe_refl y
      case isFalse h => exact pfLe_of_not_lt (Bool.not_eq_true _ ▸ eq_false_of_ne_true h)
    refine ⟨pfLe_trans hstep_den hacc_step hrest.1, ?_⟩
    intro q hq
    rcases List.mem_cons.mp hq with rfl | hq'
    · exact pfLe_trans hstep_den hy_step hrest.1
    · exact hrest.2 q hq'

theorem pfFold_mem : ∀ (xs : List PyFloat) (acc : PyFloat),
    xs.foldl pfMaxStep acc = acc ∨ xs.foldl pfMaxStep acc ∈ xs := by
  intro xs
  induction xs with
  | nil => intro acc; exact Or.inl rfl
  | cons y ys ih =>
    intro acc
    rcases ih (pfMaxStep acc y) with h | h
    · rw [List.foldl_cons, h]
      unfold pfMaxStep
      split
      · exact Or.inr (List.mem_cons_self _ _)
      · exact Or.inl rfl
    · exact Or.inr (List.mem_cons_of_mem _ (by rw [List.foldl_cons]; exact h))

theorem pfListMax_mem (l : List PyFloat) (h : l ≠ []) : pfListMax l ∈ l := by
  match l with
  | [] => exact absurd rfl h
  | x :: xs =>
    rw [pfListMax]
    rcases pfFold_mem xs x with h' | h'
    · rw [h']; exact List.mem_cons_self _ _
    · exact List.mem_cons_of_mem _ h'

theorem pfListMax_ub (l : List PyFloat) (hall : ∀ q ∈ l, 0 < q.den) :
    ∀ q ∈ l, pfLe q (pfListMax l) = true := by
  match l with
  | [] => intro q hq; exact absurd hq (List.not_mem_nil _)
  | x :: xs =>
    intro q hq
    rw [pfListMax]
    have hub := pfFold_ub xs x (hall x (List.mem_cons_self _ _))
      (fun r hr => hall r (List.mem_cons_of_mem _ hr))
    rcases List.mem_cons.mp hq with rfl | hq'
    · exact hub.1
    · exact hub.2 q hq'

/-- The sort key of a built gauge record is exactly its extracted reward
APY (the forced `float(...)` of the record field). -/
theorem gaugeSortKey_mkGaugeRecord (e : String × JVal) :
    gaugeSortKey (mkGaugeRecord e) = extract_reward_apy e.2 := rfl

theorem gaugeGE_total (a b : JVal) : gaugeGE a b ∨ gaugeGE b a :=
  pfLe_total (gaugeSortKey b) (gaugeSortKey a)

theorem gaugeGE_trans {a b c : JVal} (hb : 0 < (gaugeSortKey b).den)
    (h1 : gaugeGE a b) (h2 : gaugeGE b c) : gaugeGE a c :=
  pfLe_trans hb h2 h1

theorem sorted_orderedInsert_loc {α : Type} (r : α → α → Prop) [DecidableRel r] (a : α)
    (l : List α) (hs : l.Sorted r)
    (htot : ∀ b ∈ l, r a b ∨ r b a)
    (htrans : ∀ b ∈ l, ∀ c ∈ l, r a b → r b c → r a c) :
    (List.orderedInsert r a l).Sorted r := by
  induction l with
  | nil => simp
  | cons b l ih =>
    rw [List.orderedInsert]
    by_cases hab : r a b
    · rw [if_pos hab]
      refine List.sorted_cons.mpr ⟨?_, hs⟩
      intro c hc
      rcases List.mem_cons.mp hc with rfl | hc'
      · exact hab
      · exact htrans b (List.mem_cons_self _ _) c (List.mem_cons_of_mem _ hc') hab
          ((List.sorted_cons.mp hs).1 c hc')
    · rw [if_neg hab]
      have hs' := List.sorted_cons.mp hs
      refine List.sorted_cons.mpr ⟨?_, ih hs'.2
        (fun x hx => htot x (List.mem_cons_of_mem _ hx))
        (fun x hx y hy => htrans x (List.mem_cons_of_mem _ hx) y (List.mem_cons_of_mem _ hy))⟩
      intro c hc
      have hc' : c ∈ a :: l := (List.perm_orderedInsert r a l).subset hc
      rcases List.mem_cons.mp hc' with rfl | hc''
      · rcases htot b (List.mem_cons_self _ _) with h | h
        · exact absurd h hab
        · exact h
      · exact hs'.1 c hc''

theorem sorted_insertionSort_loc {α : Type} (r : α → α → Prop) [DecidableRel r]
    (l : List α)
    (htot : ∀ a ∈ l, ∀ b ∈ l, r a b ∨ r b a)
    (htrans : ∀ a ∈ l, ∀ b ∈ l, ∀ c ∈ l, r a b → r b c → r a c) :
    (List.insertionSort r l).Sorted r := by
  induction l with
  | nil => simp
  | cons a l ih =>
    rw [List.insertionSort]
    have hmem : ∀ x ∈ List.insertionSort r l, x ∈ l := fun x hx =>
      (List.perm_insertionSort r l).subset hx
    exact sorted_orderedInsert_loc r a _
      (ih (fun x hx y hy => htot x (List.mem_cons_of_mem _ hx) y (List.mem_cons_of_mem _ hy))
        (fun x hx y hy z hz => htrans x (List.mem_cons_of_mem _ hx) y (List.mem_cons_of_mem _ hy)
          z (List.mem_cons_of_mem _ hz)))
      (fun b hb => htot a (List.mem_cons_self _ _) b (List.mem_cons_of_mem _ (hmem b hb)))
      (fun b hb c hc hab hbc => htrans a (List.mem_cons_self _ _) b
        (List.mem_cons_of_mem _ (hmem b hb)) c (List.mem_cons_of_mem _ (hmem c hc)) hab hbc)

/-- The key of every filtered gauge record has a positive denominator when
the catalog's numeric reward values do. -/
theorem filteredGauges_key_den {chain : String} {data : List (String × JVal)}
    (hwf : ∀ e ∈ data, ∀ q ∈ rewardCandidates e.2, 0 < q.den) :
    ∀ g ∈ filteredGauges chain data, 0 < (gaugeSortKey g).den := by
  intro g hg
  rcases List.mem_map.mp hg with ⟨e, he, rfl⟩
  have he' := (List.mem_filter.mp he).1
  rw [gaugeSortKey_mkGaugeRecord]
  by_cases hnil : rewardCandidates e.2 = []
  · rw [extract_reward_apy, hnil]
    exact Nat.one_pos
  · exact hwf e he' _ (pfListMax_mem _ hnil)

/-- C6: `fetch_top_gauges` pipes the unwrapped catalog into the pure
filter/sort/slice tail; that tail keeps exactly the entries passing the
chain-alias and hex-address guards, each record's reward APY is the
maximum of the numeric `gaugeFutureCrvApy`/`gaugeCrvApy` candidates, the
kept records are sorted descending by reward APY and truncated to `limit`,
and an empty filter result yields a `ConfigError`. -/
theorem c6_fetch_top_gauges (chain : String) (limit : Int) (data : List (String × JVal))
    (hwf : ∀ e ∈ data, ∀ q ∈ rewardCandidates e.2, 0 < q.den) :
    (∀ result, topGaugesFrom chain limit data = .ok result →
       ∃ sorted : List JVal,
         sorted.Perm ((data.filter (gaugeKept chain)).map mkGaugeRecord) ∧
         sorted.Pairwise (fun a b => pfLe (gaugeSortKey b) (gaugeSortKey a) = true) ∧
         result = .jobj [("gauges", .jarr (pySlice limit sorted)),
                         ("total_candidates",
                          .jint (((data.filter (gaugeKept chain)).map mkGaugeRecord).length : Int)),
                         ("source", .jstr "curve-finance:/getGauges")] ∧
         pySlice limit sorted ≠ []) ∧
    (data.filter (gaugeKept chain) = [] →
       topGaugesFrom chain limit data = .error (.configError
         ("Curve API returned no gauge candidates for chain '" ++ chain ++
          "'. Verify chain support and publisher availability."))) ∧
    (∀ e ∈ data,
       (mkGaugeRecord e).getD "reward_apy" .null = .jnum (extract_reward_apy e.2) ∧
       (rewardCandidates e.2 = [] → extract_reward_apy e.2 = pf0) ∧
       (rewardCandidates e.2 ≠ [] → extract_reward_apy e.2 ∈ rewardCandidates e.2) ∧
       (∀ q ∈ rewardCandidates e.2, pfLe q (extract_reward_apy e.2) = true)) ∧
    (∀ env : Env, ∀ r, (fetch_top_gauges env chain limit).res = .ok r →
       ∃ d, (fetchGaugeData env).res = .ok d ∧ topGaugesFrom chain limit d = .ok r) := by
  refine ⟨?_, ?_, ?_, ?_⟩
  · intro result hres
    refine ⟨List.insertionSort gaugeGE (filteredGauges chain data),
      List.perm_insertionSort _ _,
      sorted_insertionSort_loc gaugeGE _ (fun a _ b _ => gaugeGE_total a b)
        (fun a _ b hb c _ h1 h2 => gaugeGE_trans (filteredGauges_key_den hwf b hb) h1 h2),
      ?_, ?_⟩
    · simp only [topGaugesFrom] at hres
      split at hres
      · exact absurd hres (by simp)
      · exact (Except.ok.inj hres).symm
    · simp only [topGaugesFrom] at hres
      split at hres
      · exact absurd hres (by simp)
      · intro hnil
        rename_i hne
        exact hne (by rw [hnil]; rfl)
  · intro h0
    have hfg : filteredGauges chain data = [] := by
      rw [filteredGauges, h0]
      rfl
    have hps : pySlice limit ([] : List JVal) = [] := by
      rw [pySlice]
      split <;> simp
    have hins : List.insertionSort gaugeGE ([] : List JVal) = [] := rfl
    simp only [topGaugesFrom, hfg, hins, hps]
    rfl
  · intro e he
    refine ⟨rfl, ?_, ?_, ?_⟩
    · intro hnil
      rw [extract_reward_apy, hnil]
      rfl
    · intro hnil
      exact pfListMax_mem _ hnil
    · exact fun q hq => pfListMax_ub _ (hwf e he) q hq
  · intro env r hr
    unfold fetch_top_gauges at hr
    rw [bind_eq_runBind] at hr
    exact Run.bind_res_ok.mp hr

/-- C6 witness: a four-entry catalog for chain ethereum with limit 2
yields the sorted, truncated gauge list. -/
theorem c6_fetch_top_gauges_witness :
    ∃ result, topGaugesFrom "ethereum" 2 c6data = .ok result ∧
      ∃ sorted : List JVal,
        sorted.Perm ((c6data.filter (gaugeKept "ethereum")).map mkGaugeRecord) ∧
        sorted.Pairwise (fun a b => pfLe (gaugeSortKey b) (gaugeSortKey a) = true) ∧
        result = .jobj [("gauges", .jarr (pySlice 2 sorted)),
                        ("total_candidates",
                         .jint (((c6data.filter (gaugeKept "ethereum")).map mkGaugeRecord).length : Int)),
                        ("source", .jstr "curve-finance:/getGauges")] ∧
        pySlice 2 sorted ≠ [] :=
  ⟨c6result, rfl,
    (c6_fetch_top_gauges "ethereum" 2 c6data (by decide)).1 c6result rfl⟩

/-! ### C7: the gateway envelope unwrap -/

/-- C7: on an object payload, `_unwrap_gateway_response` returns the
`body` value exactly when an int-like `status` sits beside a `body` key
and lies in [200,300); such a `status` outside that range raises
`PublisherError`; without an int-like `status` alongside `body` the
payload passes through unchanged. -/
theorem c7_unwrap_gateway_response (payload : JVal) (publisher method path : String)
    (hobj : payload.isObj = true) :
    (∀ n : Int, jIntLike (payload.getD "status" .null) = some n →
       payload.hasKey "body" = true →
       (200 ≤ n ∧ n < 300 →
          unwrap_gateway_response payload publisher method path =
            .ok (payload.getD "body" .null)) ∧
       (n < 200 ∨ 300 ≤ n →
          ∃ m, unwrap_gateway_response payload publisher method path =
            .error (.publisherError m))) ∧
    ((jIntLike (payload.getD "status" .null) = none ∨ payload.hasKey "body" = false) →
       unwrap_gateway_response payload publisher method path = .ok payload) := by
  have hshape : unwrap_gateway_response payload publisher method path =
      match jIntLike (payload.getD "status" .null) with
      | some n =>
        if payload.hasKey "body" then
          if n < 200 ∨ 300 ≤ n then
            .error (.publisherError
              (publisher ++ " upstream " ++ method ++ " " ++ path_label path ++
               " returned status " ++ pyStr (payload.getD "status" .null) ++ ": " ++
               pyPreview (payload.getD "body" .null)))
          else .ok (payload.getD "body" .null)
        else .ok payload
      | none => .ok payload := by
    rw [unwrap_gateway_response, if_neg]
    simp [hobj]
  constructor
  · intro n hn hbody
    rw [hshape, hn]
    simp only [hbody, if_true]
    constructor
    · intro hrange
      rw [if_neg (by omega)]
    · intro hrange
      rw [if_pos hrange]
      exact ⟨_, rfl⟩
  · intro hcase
    rcases hcase with hnone | hnobody
    · rw [hshape, hnone]
    · rw [hshape]
      match jIntLike (payload.getD "status" .null) with
      | some n => rw [hnobody]; simp
      | none => rfl

/-- C7 witness: a 200 envelope unwraps to its body, a 502 envelope raises
`PublisherError`, a plain payload passes through. -/
theorem c7_unwrap_gateway_response_witness :
    unwrap_gateway_response c7ok "pub" "GET" "/x" = .ok (c7ok.getD "body" .null) ∧
    (∃ m, unwrap_gateway_response c7bad "pub" "GET" "/x" = .error (.publisherError m)) ∧
    unwrap_gateway_response c7plain "pub" "GET" "/x" = .ok c7plain :=
  ⟨((c7_unwrap_gateway_response c7ok "pub" "GET" "/x" rfl).1 200 rfl rfl).1 (by decide),
   ((c7_unwrap_gateway_response c7bad "pub" "GET" "/x" rfl).1 502 rfl rfl).2 (by decide),
   (c7_unwrap_gateway_response c7plain "pub" "GET" "/x" rfl).2 (Or.inl rfl)⟩

/-! ### C8: deterministic RPC discovery (argmax score, lexicographic tie-break) -/

theorem charToNat_inj {c d : Char} (h : c.toNat = d.toNat) : c = d :=
  Char.ext (UInt32.ext h)

theorem strLtChars_irrefl : ∀ (a : List Char), strLtChars a a = false
  | [] => rfl
  | x :: xs => by
    rw [strLtChars, if_pos rfl]
    exact strLtChars_irrefl xs

theorem strLtChars_trans : ∀ (a b c : List Char), strLtChars a b = true →
    strLtChars b c = true → strLtChars a c = true
  | [], [], _, h1, _ => by simp [strLtChars] at h1
  | [], _ :: _, [], _, h2 => by simp [strLtChars] at h2
  | [], _ :: _, _ :: _, _, _ => by simp [strLtChars]
  | _ :: _, [], _, h1, _ => by simp [strLtChars] at h1
  | _ :: _, _ :: _, [], _, h2 => by simp [strLtChars] at h2
  | x :: xs, y :: ys, z :: zs, h1, h2 => by
    rw [strLtChars] at h1 h2 ⊢
    by_cases hxy : x.toNat = y.toNat
    · rw [if_pos hxy] at h1
      by_cases hyz : y.toNat = z.toNat
      · rw [if_pos hyz] at h2
        rw [if_pos (hxy.trans hyz)]
        exact strLtChars_trans xs ys zs h1 h2
      · rw [if_neg hyz] at h2
        simp only [decide_eq_true_eq] at h2
        rw [if_neg (by omega)]
        simp only [decide_eq_true_eq]
        omega
    · rw [if_neg hxy] at h1
      simp only [decide_eq_true_eq] at h1
      by_cases hyz : y.toNat = z.toNat
      · rw [if_neg (by omega)]
        simp only [decide_eq_true_eq]
        omega
      · rw [if_neg hyz] at h2
        simp only [decide_eq_true_eq] at h2
        rw [if_neg (by omega)]
        simp only [decide_eq_true_eq]
        omega

theorem strLtChars_eq_of_not_lt : ∀ (a b : List Char),
    strLtChars a b = false → strLtChars b a = false → a = b
  | [], [], _, _ => rfl
  | [], _ :: _, h1, _ => by simp [strLtChars] at h1
  | _ :: _, [], _, h2 => by simp [strLtChars] at h2
  | x :: xs, y :: ys, h1, h2 => by
    rw [strLtChars] at h1 h2
    by_cases hxy : x.toNat = y.toNat
    · rw [if_pos hxy] at h1
      rw [if_pos hxy.symm] at h2
      rw [charToNat_inj hxy, strLtChars_eq_of_not_lt xs ys h1 h2]
    · rw [if_neg hxy] at h1
      rw [if_neg (fun h => hxy h.symm)] at h2
      simp only [decide_eq_false_iff_not, not_lt] at h1 h2
      omega

theorem pyStrLt_irrefl (a : String) : pyStrLt a a = false := strLtChars_irrefl a.data

theorem pyStrLt_trans {a b c : String} (h1 : pyStrLt a b = true) (h2 : pyStrLt b c = true) :
    pyStrLt a c = true := strLtChars_trans a.data b.data c.data h1 h2

theorem pyStrLt_eq_of_not_lt {a b : String} (h1 : pyStrLt a b = false)
    (h2 : pyStrLt b a = false) : a = b :=
  String.ext (strLtChars_eq_of_not_lt a.data b.data h1 h2)

/-- The discovery loop's strict preference order on `(score, slug)`:
higher score, or equal score and lexicographically smaller slug. -/
def Beat (a b : Int × String) : Prop :=
  b.1 < a.1 ∨ (a.1 = b.1 ∧ pyStrLt a.2 b.2 = true)

theorem beat_irrefl (a : Int × String) : ¬ Beat a a := by
  simp [Beat, pyStrLt_irrefl]

theorem beat_trans {a b c : Int × String} (h1 : Beat a b) (h2 : Beat b c) : Beat a c := by
  rcases h1 with h1 | ⟨h1e, h1s⟩
  · rcases h2 with h2 | ⟨h2e, h2s⟩
    · exact Or.inl (by omega)
    · exact Or.inl (by omega)
  · rcases h2 with h2 | ⟨h2e, h2s⟩
    · exact Or.inl (by omega)
    · exact Or.inr ⟨by omega, pyStrLt_trans h1s h2s⟩

theorem beat_asymm {a b : Int × String} (h : Beat a b) : ¬ Beat b a :=
  fun h2 => beat_irrefl a (beat_trans h h2)

theorem not_beat_trans {a b c : Int × String} (h1 : ¬ Beat a b) (h2 : ¬ Beat b c) :
    ¬ Beat a c := by
  intro h3
  simp only [Beat, not_or, not_and, not_lt] at h1 h2
  rcases h3 with h3 | ⟨h3e, h3s⟩
  · omega
  · have hab : a.1 = b.1 := by omega
    have hbc : b.1 = c.1 := by omega
    have hs1 : pyStrLt a.2 b.2 = false := eq_false_of_ne_true (h1.2 hab)
    have hs2 : pyStrLt b.2 c.2 = false := eq_false_of_ne_true (h2.2 hbc)
    by_cases hba : pyStrLt b.2 a.2 = true
    · have := pyStrLt_trans hba h3s
      rw [hs2] at this
      exact Bool.false_ne_true this
    · have heq : a.2 = b.2 := pyStrLt_eq_of_not_lt hs1 (eq_false_of_ne_true hba)
      rw [heq] at h3s
      rw [h3s] at hs2
      simp at hs2

theorem scoreOf_nonneg (terms : List String) (p : JVal) : 0 ≤ scoreOf terms p := by
  unfold scoreOf
  split_ifs <;> omega

theorem qualifies_slug_ne {terms : List String} {p : JVal}
    (h : publisherQualifies terms p = true) : slugOf p ≠ "" := by
  simp only [publisherQualifies, decide_eq_true_eq] at h
  exact h.2.2.2.1

/-- The best-candidate loop returns either its initial accumulator or the
key of a qualifying entry, never moves down the preference order, and is
never beaten by any qualifying entry of its input. -/
theorem bestLoop_inv (terms : List String) : ∀ (ps : List JVal) (bs : Int) (bslug : String),
    (bestLoop terms ps bs bslug = (bs, bslug) ∨
      ∃ p ∈ ps, publisherQualifies terms p = true ∧
        bestLoop terms ps bs bslug = (scoreOf terms p, slugOf p)) ∧
    ¬ Beat (bs, bslug) (bestLoop terms ps bs bslug) ∧
    (∀ p ∈ ps, publisherQualifies terms p = true →
      ¬ Beat (scoreOf terms p, slugOf p) (bestLoop terms ps bs bslug)) := by
  intro ps
  induction ps with
  | nil =>
    intro bs bslug
    refine ⟨Or.inl rfl, beat_irrefl _, ?_⟩
    intro p hp _
    exact absurd hp (List.not_mem_nil _)
  | cons p rest ih =>
    intro bs bslug
    by_cases hq : publisherQualifies terms p = true
    · have hstep : bestLoop terms (p :: rest) bs bslug =
          if bs < scoreOf terms p ∨ (scoreOf terms p = bs ∧ pyStrLt (slugOf p) bslug = true)
          then bestLoop terms rest (scoreOf terms p) (slugOf p)
          else bestLoop terms rest bs bslug := by
        rw [bestLoop, if_pos hq]
      by_cases hbeat : bs < scoreOf terms p ∨
          (scoreOf terms p = bs ∧ pyStrLt (slugOf p) bslug = true)
      · rw [hstep, if_pos hbeat]
        have ihh := ih (scoreOf terms p) (slugOf p)
        have hBeat : Beat (scoreOf terms p, slugOf p) (bs, bslug) := hbeat
        refine ⟨?_, not_beat_trans (beat_asymm hBeat) ihh.2.1, ?_⟩
        · rcases ihh.1 with h | ⟨q, hqmem, hqq, hqeq⟩
          · exact Or.inr ⟨p, List.mem_cons_self _ _, hq, h⟩
          · exact Or.inr ⟨q, List.mem_cons_of_mem _ hqmem, hqq, hqeq⟩
        · intro q hqmem hqq
          rcases List.mem_cons.mp hqmem with rfl | hqmem'
          · exact ihh.2.1
          · exact ihh.2.2 q hqmem' hqq
      · rw [hstep, if_neg hbeat]
        have ihh := ih bs bslug
        have hnb : ¬ Beat (scoreOf terms p, slugOf p) (bs, bslug) := hbeat
        refine ⟨?_, ihh.2.1, ?_⟩
        · rcases ihh.1 with h | ⟨q, hqmem, hqq, hqeq⟩
          · exact Or.inl h
          · exact Or.inr ⟨q, List.mem_cons_of_mem _ hqmem, hqq, hqeq⟩
        · intro q hqmem hqq
          rcases List.mem_cons.mp hqmem with rfl | hqmem'
          · exact not_beat_trans hnb ihh.2.1
          · exact ihh.2.2 q hqmem' hqq
    · have hstep : bestLoop terms (p :: rest) bs bslug = bestLoop terms rest bs bslug := by
        rw [bestLoop, if_neg hq]
      rw [hstep]
      have ihh := ih bs bslug
      refine ⟨?_, ihh.2.1, ?_⟩
      · rcases ihh.1 with h | ⟨q, hqmem, hqq, hqeq⟩
        · exact Or.inl h
        · exact Or.inr ⟨q, List.mem_cons_of_mem _ hqmem, hqq, hqeq⟩
      · intro q hqmem hqq
        rcases List.mem_cons.mp hqmem with rfl | hqmem'
        · exact absurd hqq hq
        · exact ihh.2.2 q hqmem' hqq

/-- C8: RPC discovery is a deterministic function of the publisher
catalog; every discovered slug belongs to a qualifying publisher whose
score is maximal among qualifying publishers for that chain's terms, and
no qualifying publisher of equal score has a lexicographically smaller
slug; a chain with at least one qualifying publisher is always
discovered. -/
theorem c8_discovery_deterministic (publishers : List JVal) :
    (∀ env : Env, (list_publishers env).res = .ok publishers →
       (discovered_rpc_publishers env).res = .ok (discoveredFromCatalog publishers)) ∧
    (∀ chain slug, (chain, slug) ∈ discoveredFromCatalog publishers →
       ∃ terms, (chain, terms) ∈ CHAIN_DISCOVERY_TERMS ∧
         ∃ p ∈ publishers, publisherQualifies terms p = true ∧ slug = slugOf p ∧
           (∀ q ∈ publishers, publisherQualifies terms q = true →
              scoreOf terms q ≤ scoreOf terms p ∧
              (scoreOf terms q = scoreOf terms p →
                 pyStrLt (slugOf q) (slugOf p) = false))) ∧
    (∀ chain terms, (chain, terms) ∈ CHAIN_DISCOVERY_TERMS →
       (∃ p ∈ publishers, publisherQualifies terms p = true) →
       ∃ slug, (chain, slug) ∈ discoveredFromCatalog publishers) := by
  refine ⟨?_, ?_, ?_⟩
  · intro env hx
    unfold discovered_rpc_publishers
    rw [bind_eq_runBind, bind_res_of_ok hx]
    rfl
  · intro chain slug hmem
    rcases List.mem_filterMap.mp hmem with ⟨ct, hct, hf⟩
    have hf' : (if (bestLoop ct.2 publishers (-1) "").2 ≠ "" then
        some (ct.1, (bestLoop ct.2 publishers (-1) "").2) else none) = some (chain, slug) := hf
    by_cases hne : (bestLoop ct.2 publishers (-1) "").2 ≠ ""
    · rw [if_pos hne] at hf'
      have hpair := Option.some.inj hf'
      have hchain : ct.1 = chain := congrArg Prod.fst hpair
      have hslug : (bestLoop ct.2 publishers (-1) "").2 = slug := congrArg Prod.snd hpair
      have hinv := bestLoop_inv ct.2 publishers (-1) ""
      rcases hinv.1 with hinit | ⟨p, hpmem, hpq, hpeq⟩
      · rw [hinit] at hne
        exact absurd rfl hne
      · refine ⟨ct.2, hchain ▸ (show (ct.1, ct.2) ∈ CHAIN_DISCOVERY_TERMS from hct), p, hpmem,
          hpq, ?_, ?_⟩
        · rw [hpeq] at hslug
          exact hslug.symm
        · intro q hqmem hqq
          have hnb := hinv.2.2 q hqmem hqq
          rw [hpeq] at hnb
          simp only [Beat, not_or, not_and, not_lt] at hnb
          refine ⟨hnb.1, fun heq => eq_false_of_ne_true (hnb.2 heq)⟩
    · rw [if_neg hne] at hf'
      exact absurd hf' (by simp)
  · intro chain terms hct hex
    rcases hex with ⟨p, hpmem, hpq⟩
    have hinv := bestLoop_inv terms publishers (-1) ""
    rcases hinv.1 with hinit | ⟨q, hqmem, hqq, hqeq⟩
    · exfalso
      have hnb := hinv.2.2 p hpmem hpq
      rw [hinit] at hnb
      apply hnb
      exact Or.inl (by have := scoreOf_nonneg terms p; simp; omega)
    · have hne : (bestLoop terms publishers (-1) "").2 ≠ "" := by
        rw [hqeq]
        exact qualifies_slug_ne hqq
      refine ⟨(bestLoop terms publishers (-1) "").2, List.mem_filterMap.mpr
        ⟨(chain, terms), hct, ?_⟩⟩
      show (if (bestLoop terms publishers (-1) "").2 ≠ "" then
        some (chain, (bestLoop terms publishers (-1) "").2) else none) = _
      rw [if_pos hne]

/-- C8 witness: a two-publisher catalog with tied scores discovers the
lexicographically smaller slug for ethereum, deterministically. -/
theorem c8_discovery_witness :
    (discovered_rpc_publishers c8env).res = .ok (discoveredFromCatalog c8pubs) ∧
    ∃ terms, ("ethereum", terms) ∈ CHAIN_DISCOVERY_TERMS ∧
      ∃ p ∈ c8pubs, publisherQualifies terms p = true ∧ "arpc" = slugOf p ∧
        (∀ q ∈ c8pubs, publisherQualifies terms q = true →
           scoreOf terms q ≤ scoreOf terms p ∧
           (scoreOf terms q = scoreOf terms p →
              pyStrLt (slugOf q) (slugOf p) = false)) :=
  ⟨(c8_discovery_deterministic c8pubs).1 c8env rfl,
   (c8_discovery_deterministic c8pubs).2.1 "ethereum" "arpc" (by decide)⟩

/-! ### C9: configured gas price bypasses the eth_gasPrice oracle -/

theorem run_liftE_ok_bind {a : α} {f : α → Run β} :
    Run.bind (liftE (Except.ok a)) f = f a := rfl

/-- C9: when `evm_execution.tx.gas_price_wei` is present and non-empty,
the resolver returns exactly `_parse_positive_int` of that value, emits no
events at all (in particular no `eth_gasPrice` RPC), and its result does
not depend on the environment. -/
theorem c9_configured_gas_price (env : Env) (t : RpcTarget) (execution tx_cfg : JVal)
    (htx : subConfigOf execution "tx"
      "evm_execution.tx must be an object when provided." = .ok tx_cfg)
    (hconf : notNoneOrEmpty (tx_cfg.get "gas_price_wei") = true) :
    (resolve_gas_price_wei env t execution).res =
      parse_positive_int ((tx_cfg.get "gas_price_wei").getD .null) "tx.gas_price_wei" ∧
    (resolve_gas_price_wei env t execution).trace = [] ∧
    ∀ env' : Env, resolve_gas_price_wei env' t execution =
      resolve_gas_price_wei env t execution := by
  have key : ∀ env₀ : Env, resolve_gas_price_wei env₀ t execution =
      liftE (parse_positive_int ((tx_cfg.get "gas_price_wei").getD .null)
        "tx.gas_price_wei") := by
    intro env₀
    unfold resolve_gas_price_wei
    rw [bind_eq_runBind, htx]
    simp only [run_liftE_ok_bind]
    rw [if_pos hconf]
  exact ⟨by rw [key env]; rfl, by rw [key env]; rfl, fun env' => by rw [key env', key env]⟩

/-- C9 witness: with `tx.gas_price_wei = 1000000000` the resolver returns
its parse, touches no oracle, and any environment gives the same run. -/
theorem c9_configured_gas_price_witness :
    (resolve_gas_price_wei happyEnv wTarget c9exec).res =
      parse_positive_int
        (((JVal.jobj [("gas_price_wei", .jint 1000000000)]).get "gas_price_wei").getD .null)
        "tx.gas_price_wei" ∧
    (resolve_gas_price_wei happyEnv wTarget c9exec).trace = [] ∧
    ∀ env' : Env, resolve_gas_price_wei env' wTarget c9exec =
      resolve_gas_price_wei happyEnv wTarget c9exec :=
  c9_configured_gas_price happyEnv wTarget c9exec
    (JVal.jobj [("gas_price_wei", .jint 1000000000)]) rfl rfl

/-! ### C10: lower-cased hex gauge addresses and tolerant LP handling -/

theorem char_toNat_ofNat {n : Nat} (h : n < 55296) : (Char.ofNat n).toNat = n := by
  unfold Char.ofNat
  rw [dif_pos]
  · rfl
  · exact Or.inl h

theorem lowerChar_eq_of_not_upper {c : Char} (h : ¬('A' ≤ c ∧ c ≤ 'Z')) :
    lowerChar c = c := by
  rw [lowerChar, if_neg h]

theorem lowerChar_toNat_of_upper {c : Char} (h : 'A' ≤ c ∧ c ≤ 'Z') :
    (lowerChar c).toNat = c.toNat + 32 := by
  have h1 : (65 : Nat) ≤ c.toNat := h.1
  have h2 : c.toNat ≤ 90 := h.2
  rw [lowerChar, if_pos h, char_toNat_ofNat (by omega)]

theorem lowerChar_hex {c : Char} (h : isHexDigitChar c = true) :
    isHexDigitChar (lowerChar c) = true := by
  simp only [isHexDigitChar, Bool.or_eq_true, decide_eq_true_eq] at h ⊢
  rcases h with h | h | h
  · have h1 : (48 : Nat) ≤ c.toNat := h.1
    have h2 : c.toNat ≤ 57 := h.2
    rw [lowerChar_eq_of_not_upper (fun hc => by
      have : (65 : Nat) ≤ c.toNat := hc.1
      omega)]
    exact Or.inl h
  · have h1 : (97 : Nat) ≤ c.toNat := h.1
    have h2 : c.toNat ≤ 102 := h.2
    rw [lowerChar_eq_of_not_upper (fun hc => by
      have : c.toNat ≤ 90 := hc.2
      omega)]
    exact Or.inr (Or.inl h)
  · have h1 : (65 : Nat) ≤ c.toNat := h.1
    have h2 : c.toNat ≤ 70 := h.2
    have htn : (lowerChar c).toNat = c.toNat + 32 :=
      lowerChar_toNat_of_upper ⟨h.1, show c.toNat ≤ 90 by omega⟩
    exact Or.inr (Or.inl ⟨show (97 : Nat) ≤ (lowerChar c).toNat by omega,
      show (lowerChar c).toNat ≤ 102 by omega⟩)

theorem lowerChar_idem (c : Char) : lowerChar (lowerChar c) = lowerChar c := by
  by_cases hup : 'A' ≤ c ∧ c ≤ 'Z'
  · have htn : (lowerChar c).toNat = c.toNat + 32 := lowerChar_toNat_of_upper hup
    have h1 : (65 : Nat) ≤ c.toNat := hup.1
    have h2 : c.toNat ≤ 90 := hup.2
    exact lowerChar_eq_of_not_upper (fun hc => by
      have : (lowerChar c).toNat ≤ 90 := hc.2
      omega)
  · rw [lowerChar_eq_of_not_upper hup]
    exact lowerChar_eq_of_not_upper hup

theorem pyLower_idem (s : String) : pyLower (pyLower s) = pyLower s := by
  show String.mk ((s.data.map lowerChar).map lowerChar) = String.mk (s.data.map lowerChar)
  rw [List.map_map]
  exact congrArg String.mk (List.map_congr_left (fun c _ => lowerChar_idem c))

/-- Decompose a string passing the strict address regex. -/
theorem hexAddressB_parts {s : String} (h : hexAddressB s = true) :
    ∃ t : List Char, s.data = '0' :: 'x' :: t ∧ t.length = 40 ∧
      ∀ c ∈ t, isHexDigitChar c = true := by
  simp only [hexAddressB, Bool.and_eq_true, decide_eq_true_eq] at h
  obtain ⟨hpre, hlen, hall⟩ := h
  have hpre' : ("0x".data) <+: s.data := by
    rw [← List.isPrefixOf_iff_prefix]
    exact hpre
  obtain ⟨t, ht⟩ := hpre'
  refine ⟨t, ht.symm, ?_, ?_⟩
  · rw [← ht, show "0x".data = ['0', 'x'] from rfl] at hlen
    simp only [List.length_append, List.length_cons, List.length_nil] at hlen
    omega
  · intro c hc
    have hdrop : s.data.drop 2 = t := by
      rw [← ht]
      rfl
    rw [hdrop] at hall
    exact List.all_eq_true.mp hall c hc

/-- Address lower-casing keeps the strict hex shape. -/
theorem hexAddressB_pyLower {s : String} (h : hexAddressB s = true) :
    hexAddressB (pyLower s) = true := by
  obtain ⟨t, hdata, hlen, hall⟩ := hexAddressB_parts h
  have hd : (pyLower s).data = '0' :: 'x' :: t.map lowerChar := by
    show s.data.map lowerChar = _
    rw [hdata]
    rfl
  simp only [hexAddressB, Bool.and_eq_true, decide_eq_true_eq]
  refine ⟨?_, ?_, ?_⟩
  · show "0x".data.isPrefixOf (pyLower s).data = true
    rw [hd, show "0x".data = ['0', 'x'] from rfl]
    simp [List.isPrefixOf]
  · rw [hd]
    simp [hlen]
  · rw [hd]
    show (t.map lowerChar).all isHexDigitChar = true
    rw [List.all_eq_true]
    intro c hc
    obtain ⟨c0, hc0, rfl⟩ := List.mem_map.mp hc
    exact lowerChar_hex (hall c0 hc0)

theorem hexAddressB_ne_empty {s : String} (h : hexAddressB s = true) : s ≠ "" := by
  obtain ⟨t, hdata, _, _⟩ := hexAddressB_parts h
  intro hnil
  rw [hnil] at hdata
  exact absurd hdata (by simp)

theorem hex_not_space {c : Char} (h : isHexDigitChar c = true) : isSpaceChar c = false := by
  by_contra hc
  rw [Bool.not_eq_false] at hc
  simp only [isSpaceChar, Bool.or_eq_true, decide_eq_true_eq] at hc
  rcases hc with rfl | rfl | rfl | rfl <;> exact absurd h (by decide)

theorem dropWhile_eq_self_of_all {p : Char → Bool} :
    ∀ l : List Char, (∀ c ∈ l, p c = false) → List.dropWhile p l = l
  | [], _ => rfl
  | x :: xs, h => by
    rw [List.dropWhile_cons, if_neg]
    rw [h x (List.mem_cons_self _ _)]
    simp

theorem pyStrip_eq_self {s : String} (h : ∀ c ∈ s.data, isSpaceChar c = false) :
    pyStrip s = s := by
  show String.mk _ = s
  rw [dropWhile_eq_self_of_all s.data h,
    dropWhile_eq_self_of_all s.data.reverse (fun c hc => h c (List.mem_reverse.mp hc)),
    List.reverse_reverse]

/-- A strict hex address contains no whitespace, so `strip` is a no-op. -/
theorem hexAddressB_strip {s : String} (h : hexAddressB s = true) : pyStrip s = s := by
  obtain ⟨t, hdata, _, hall⟩ := hexAddressB_parts h
  refine pyStrip_eq_self ?_
  intro c hc
  rw [hdata] at hc
  rcases List.mem_cons.mp hc with rfl | hc
  · decide
  · rcases List.mem_cons.mp hc with rfl | hc
    · decide
    · exact hex_not_space (hall c hc)

/-- `choose_trade_plan` succeeds whenever the response's first gauge is an
object holding a strict hex address. -/
theorem choose_trade_plan_ok {gr g0 : JVal} {gs : List JVal} {a token : String}
    {amount_usd : PyFloat}
    (hg : gr.get "gauges" = some (.jarr (g0 :: gs)))
    (hobj : g0.isObj = true)
    (ha : g0.get "address" = some (.jstr a))
    (hhex : hexAddressB a = true) :
    ∃ plan, choose_trade_plan gr token amount_usd = .ok plan := by
  have hor : pyOrEmptyStr (g0.get "address") = .jstr a := by
    rw [ha]
    show (if pyTruthy (.jstr a) = true then JVal.jstr a else .jstr "") = .jstr a
    rw [if_pos]
    simp [pyTruthy, hexAddressB_ne_empty hhex]
  simp only [choose_trade_plan]
  rw [hg]
  dsimp only
  rw [if_pos hobj, hor]
  dsimp only [pyStr]
  rw [hexAddressB_strip hhex]
  rw [if_neg (fun hcon => hcon hhex)]
  exact ⟨_, rfl⟩

/-- C10: every gauge record of a successful `fetch_top_gauges` tail holds
a lower-cased strict-hex `address`; a malformed `swap_token` does not drop
the entry but empties its `lp_token_address`; and `choose_trade_plan`
always succeeds on a successful result. -/
theorem c10_gauge_addresses (chain : String) (limit : Int) (data : List (String × JVal)) :
    (∀ result, topGaugesFrom chain limit data = .ok result →
       ∃ top : List JVal, result.get "gauges" = some (.jarr top) ∧ top ≠ [] ∧
         (∀ g ∈ top, ∃ a : String,
            g.getD "address" .null = .jstr a ∧ hexAddressB a = true ∧ pyLower a = a) ∧
         (∀ token : String, ∀ amount_usd : PyFloat,
            ∃ plan, choose_trade_plan result token amount_usd = .ok plan)) ∧
    (∀ e : String × JVal,
       hexAddressB (pyStrip (pyStr (e.2.getD "swap_token" (.jstr "")))) = false →
       (mkGaugeRecord e).getD "lp_token_address" .null = .jstr "") ∧
    (∀ e ∈ data, gaugeKept chain e = true → mkGaugeRecord e ∈ filteredGauges chain data) := by
  have hmemtop : ∀ g ∈ pySlice limit (List.insertionSort gaugeGE (filteredGauges chain data)),
      ∃ e, gaugeKept chain e = true ∧ g = mkGaugeRecord e := by
    intro g hg
    have hg1 : g ∈ List.insertionSort gaugeGE (filteredGauges chain data) := by
      revert hg
      unfold pySlice
      split
      · exact fun hg => List.take_subset _ _ hg
      · exact fun hg => List.take_subset _ _ hg
    have hg2 : g ∈ filteredGauges chain data :=
      (List.perm_insertionSort gaugeGE (filteredGauges chain data)).subset hg1
    obtain ⟨e, he, rfl⟩ := List.mem_map.mp hg2
    exact ⟨e, (List.mem_filter.mp he).2, rfl⟩
  have haddr : ∀ e : String × JVal, gaugeKept chain e = true →
      ∃ a : String, (mkGaugeRecord e).getD "address" .null = .jstr a ∧
        hexAddressB a = true ∧ pyLower a = a ∧
        (mkGaugeRecord e).get "address" = some (.jstr a) := by
    intro e hkept
    simp only [gaugeKept, Bool.and_eq_true, decide_eq_true_eq] at hkept
    have hraw : hexAddressB (pyStrip (pyStr (e.2.getD "gauge" (.jstr "")))) = true :=
      hkept.2.2
    refine ⟨pyLower (pyStrip (pyStr (e.2.getD "gauge" (.jstr "")))), rfl,
      hexAddressB_pyLower hraw, pyLower_idem _, rfl⟩
  refine ⟨?_, ?_, ?_⟩
  · intro result hres
    have hne : pySlice limit (List.insertionSort gaugeGE (filteredGauges chain data)) ≠ []
        ∧ result = .jobj
          [("gauges", .jarr (pySlice limit (List.insertionSort gaugeGE (filteredGauges chain data)))),
           ("total_candidates", .jint ((filteredGauges chain data).length : Int)),
           ("source", .jstr "curve-finance:/getGauges")] := by
      simp only [topGaugesFrom] at hres
      split at hres
      · exact absurd hres (by simp)
      · rename_i hemp
        exact ⟨fun hnil => hemp (by rw [hnil]; rfl), (Except.ok.inj hres).symm⟩
    obtain ⟨hnonnil, rfl⟩ := hne
    refine ⟨pySlice limit (List.insertionSort gaugeGE (filteredGauges chain data)), rfl,
      hnonnil, ?_, ?_⟩
    · intro g hg
      obtain ⟨e, hkept, rfl⟩ := hmemtop g hg
      obtain ⟨a, h1, h2, h3, _⟩ := haddr e hkept
      exact ⟨a, h1, h2, h3⟩
    · intro token amount_usd
      obtain ⟨g0, gs, hcons⟩ :=
        List.exists_cons_of_ne_nil hnonnil
      have hg0 : g0 ∈ pySlice limit (List.insertionSort gaugeGE (filteredGauges chain data)) := by
        rw [hcons]
        exact List.mem_cons_self _ _
      obtain ⟨e, hkept, rfl⟩ := hmemtop g0 hg0
      obtain ⟨a, _, h2, _, h4⟩ := haddr e hkept
      have hgq : (JVal.jobj
          [("gauges", .jarr (pySlice limit (List.insertionSort gaugeGE (filteredGauges chain data)))),
           ("total_candidates", .jint ((filteredGauges chain data).length : Int)),
           ("source", .jstr "curve-finance:/getGauges")]).get "gauges"
          = some (.jarr (mkGaugeRecord e :: gs)) := by
        show some (JVal.jarr (pySlice limit (List.insertionSort gaugeGE (filteredGauges chain data)))) = _
        rw [hcons]
      exact choose_trade_plan_ok hgq rfl h4 h2
  · intro e hmal
    have h0 : (mkGaugeRecord e).getD "lp_token_address" .null =
        .jstr (pyLower (if hexAddressB (pyStrip (pyStr (e.2.getD "swap_token" (.jstr ""))))
               then pyStrip (pyStr (e.2.getD "swap_token" (.jstr ""))) else "")) := rfl
    rw [h0, hmal]
    rfl
  · intro e he hkept
    exact List.mem_map.mpr ⟨e, List.mem_filter.mpr ⟨he, hkept⟩, rfl⟩

/-- C10 witness: the concrete catalog's result carries lower-cased hex
addresses, its malformed-LP entry is kept with an empty
`lp_token_address`, and `choose_trade_plan` succeeds on it. -/
theorem c10_gauge_addresses_witness :
    (∃ top : List JVal, c6result.get "gauges" = some (.jarr top) ∧ top ≠ [] ∧
       (∀ g ∈ top, ∃ a : String,
          g.getD "address" .null = .jstr a ∧ hexAddressB a = true ∧ pyLower a = a) ∧
       (∀ token : String, ∀ amount_usd : PyFloat,
          ∃ plan, choose_trade_plan c6result token amount_usd = .ok plan)) ∧
    (mkGaugeRecord c6alpha).getD "lp_token_address" .null = .jstr "" ∧
    mkGaugeRecord c6alpha ∈ filteredGauges "ethereum" c6data :=
  ⟨(c10_gauge_addresses "ethereum" 2 c6data).1 c6result rfl,
   (c10_gauge_addresses "ethereum" 2 c6data).2.1 c6alpha rfl,
   (c10_gauge_addresses "ethereum" 2 c6data).2.2 c6alpha (List.mem_cons_self _ _) rfl⟩

end CurveAgent
